import Mathlib

/-!
# sysrow: tasks, the runner, the queue, storage, groups and the logger

A shallow embedding of `pkg/task/task.go`, `pkg/runner/runner.go`, `pkg/queue/queue.go`,
`pkg/storage/storage.go`, `pkg/group/group.go` and `pkg/logger/logger.go`.

* A Go `*Task` that is mutated in place becomes a `Task` value that is passed in and
  returned.
* `time.Time` is a `Nat` (a clock reading); a nil pointer is `none`.
* The `tasks/` directory is a `Disk`: the file `tasks/<id>.json` is the entry of key `id`,
  and `journal` is a ghost record of every snapshot that was ever written, newest first.
* Everything the operating system decides (whether a directory or a file can be created,
  whether a write succeeds, whether the child process starts, how it exits, what the clock
  reads) is an explicit argument of the operation that asks for it.
* The library function `sort.Slice` is a `SliceSorter`: a function known by its contract.
* The mutex of `Storage` is a flag of the state; a `Lock` on a held mutex does not return, and
  a call that gets there ends as `Outcome.blocked`.
* The `groups/` directory is a `GroupManager`: a set of files, which `os.ReadDir` lists
  sorted by name. The task and group IDs that name the files are UUIDs.
* A write with `os.WriteFile` that fails has either failed at the open, and the file is as
  it was, or after the open, which truncates: the file is then there and does not parse.
* The logger works on files under the paths that `filepath.Join` builds; `filepath.Clean`
  and `filepath.Join` are embedded after their documentation, for the separator "/".
-/

namespace Sysrow

/-! ## pkg/task/task.go -/

/-- The five values of `TaskStatus`. -/
inductive TaskStatus where
  | Pending
  | Running
  | Completed
  | Failed
  | Cancelled
  deriving DecidableEq, Repr

/-- The three values of `TaskPriority`. -/
inductive TaskPriority where
  | Low
  | Normal
  | High
  deriving DecidableEq, Repr

/-- The struct `Task`, field by field. -/
structure Task where
  ID : String
  Command : String
  Status : TaskStatus
  Priority : TaskPriority
  CreatedAt : Nat
  ScheduledAt : Option Nat
  StartedAt : Option Nat
  FinishedAt : Option Nat
  ExitCode : Option Int
  PID : Option Int
  GroupID : Option String
  deriving DecidableEq, Repr

/-- Completed, Failed and Cancelled are the terminal statuses. -/
def TaskStatus.isTerminal : TaskStatus → Bool
  | .Completed => true
  | .Failed => true
  | .Cancelled => true
  | _ => false

/-- The errors that `Task.Save`, `Task.Cancel` and `Runner.RunTask` build with `fmt.Errorf`. -/
inductive Error where
  /-- The error "failed to write task file" (or "failed to marshal task"). -/
  | writeTaskFile
  /-- The error "cannot cancel task with status %s". -/
  | cannotCancel (s : TaskStatus)
  /-- The error "failed to create logs directory". -/
  | createLogsDir
  /-- The error "failed to create stdout log file". -/
  | createStdoutLog
  /-- The error "failed to create stderr log file". -/
  | createStderrLog
  /-- The error "failed to save task state". -/
  | saveTaskState
  /-- The error "failed to start command". -/
  | startCommand
  deriving DecidableEq, Repr

/-- The task files under `tasks/`, and the ghost journal of all snapshots written. The entry
of key `id` is the task that `tasks/<id>.json` parses to; a file that is absent, or whose
content does not parse, has no entry. -/
structure Disk where
  tasks : List (String × Task)
  journal : List Task
  deriving DecidableEq, Repr

/-- The content of `tasks/<id>.json`, when the file exists and parses. -/
def Disk.load (d : Disk) (id : String) : Option Task :=
  d.tasks.lookup id

/-- The effect of `os.WriteFile(tasks/<t.ID>.json, ...)`: the file is replaced by the snapshot. -/
def Disk.write (d : Disk) (t : Task) : Disk :=
  { tasks := (t.ID, t) :: d.tasks.filter (fun e => e.1 != t.ID)
    journal := t :: d.journal }

/-- The snapshots written between the disk state `before` and the later state `after`,
newest first. -/
def Disk.since (after before : Disk) : List Task :=
  after.journal.take (after.journal.length - before.journal.length)

/-- The function `NewTask`; `taskID` is what `uuid.New().String()` returns and `now` what
`time.Now()` returns. -/
def NewTask (command : String) (priority : TaskPriority) (taskID : String) (now : Nat) : Task :=
  { ID := taskID
    Command := command
    Status := .Pending
    Priority := priority
    CreatedAt := now
    ScheduledAt := none
    StartedAt := none
    FinishedAt := none
    ExitCode := none
    PID := none
    GroupID := none }

/-- The effect of an `os.WriteFile(tasks/<id>.json, ...)` that fails after it has opened the
file: the open truncates (`O_TRUNC`), so the file holds at most a part of the data, which does
not parse, and the record that was there is lost. No snapshot has been written. -/
def Disk.truncate (d : Disk) (id : String) : Disk :=
  { d with tasks := d.tasks.filter (fun e => e.1 != id) }

/-- The method `Task.Save`; `ok` says whether marshalling and `os.WriteFile` succeed, and
`torn` whether a write that fails does so after it has opened, and so truncated, the file; a
write that fails at the open leaves the file as it was. -/
def Task.Save (t : Task) (ok torn : Bool) (d : Disk) : Option Error × Disk :=
  if ok then (none, d.write t)
  else (some .writeTaskFile, if torn then d.truncate t.ID else d)

/-- The method `Task.Cancel`; `now` is the reading of `time.Now()`, and `saveOk` and `torn` are
the outcome of the final `t.Save()`. The branch for a running task with a pid has an empty body in the source
(`// TODO: Implement process killing`), so it contributes nothing here. -/
def Task.Cancel (t : Task) (now : Nat) (saveOk torn : Bool) (d : Disk) :
    Option Error × Task × Disk :=
  if t.Status ≠ .Pending ∧ t.Status ≠ .Running then
    (some (.cannotCancel t.Status), t, d)
  else
    let t1 := { t with Status := .Cancelled, FinishedAt := some now }
    let r := t1.Save saveOk torn d
    (r.1, t1, r.2)

/-! ## pkg/runner/runner.go -/

/-- What `cmd.Wait()` returns: nil, an `*exec.ExitError` with its `ExitCode()`, or another
error. -/
inductive WaitResult where
  | success
  | exitError (code : Int)
  | otherError
  deriving DecidableEq, Repr

/-- The answers of the operating system to one call of `Runner.RunTask`, in source order. -/
structure RunEnv where
  /-- The reading of `time.Now()` on entry. -/
  now : Nat
  /-- Whether `os.MkdirAll(logsDir)` succeeds. -/
  mkdirAll : Bool
  /-- Whether `os.Create(stdoutPath)` succeeds. -/
  createStdout : Bool
  /-- Whether `os.Create(stderrPath)` succeeds. -/
  createStderr : Bool
  /-- Whether `t.Save()` before execution succeeds. -/
  saveBefore : Bool
  /-- The outcome of `cmd.Start()`: `none` when it fails, else `cmd.Process.Pid`. -/
  start : Option Int
  /-- The reading of `time.Now()` after the start failure, or after `cmd.Wait()`. -/
  endTime : Nat
  /-- Whether `t.Save()` on the start-failure path succeeds (its result is dropped). -/
  saveFailed : Bool
  /-- Whether `t.Save()` after the pid is stored succeeds. -/
  savePid : Bool
  /-- The outcome of `cmd.Wait()`. -/
  wait : WaitResult
  /-- Whether `t.Save()` of the final state succeeds. -/
  saveFinal : Bool
  /-- Whether the `t.Save()` that fails does so after `os.WriteFile` has opened the file, which
  truncates it. At most one `t.Save()` fails in a call: RunTask returns after it. -/
  torn : Bool
  deriving DecidableEq, Repr

/-- The block after `cmd.Wait()`, which the source has twice with the same text (in the
goroutine and on the foreground path): set `FinishedAt`, clear `PID`, then set `Status` and
`ExitCode` from the wait error. -/
def finalize (t : Task) (w : WaitResult) (endTime : Nat) : Task :=
  let t1 := { t with FinishedAt := some endTime, PID := none }
  match w with
  | .success => { t1 with Status := .Completed, ExitCode := some 0 }
  | .exitError code => { t1 with Status := .Failed, ExitCode := some code }
  | .otherError => { t1 with Status := .Failed, ExitCode := some 1 }

/-- The body of the goroutine that background mode starts, run as one step on the task as
it is in memory at that moment: wait, finalize, save (the result of `Save` is dropped). -/
def supervise (t : Task) (w : WaitResult) (endTime : Nat) (saveOk torn : Bool) (d : Disk) :
    Task × Disk :=
  let t1 := finalize t w endTime
  (t1, (t1.Save saveOk torn d).2)

/-- What a call of `Runner.RunTask` leaves behind: the returned error, the task in memory, the
disk, and whether the supervising goroutine was started. -/
structure RunResult where
  err : Option Error
  task : Task
  disk : Disk
  spawned : Bool
  deriving DecidableEq, Repr

/-- The method `Runner.RunTask`, up to the point where it returns. -/
def RunTask (t : Task) (background : Bool) (env : RunEnv) (d : Disk) : RunResult :=
  let t1 := { t with Status := .Running, StartedAt := some env.now }
  if !env.mkdirAll then ⟨some .createLogsDir, t1, d, false⟩
  else if !env.createStdout then ⟨some .createStdoutLog, t1, d, false⟩
  else if !env.createStderr then ⟨some .createStderrLog, t1, d, false⟩
  else
    match t1.Save env.saveBefore env.torn d with
    | (some _, d1) => ⟨some .saveTaskState, t1, d1, false⟩
    | (none, d1) =>
      match env.start with
      | none =>
        let t2 := { t1 with Status := .Failed, FinishedAt := some env.endTime,
                            ExitCode := some 1 }
        ⟨some .startCommand, t2, (t2.Save env.saveFailed env.torn d1).2, false⟩
      | some pid =>
        let t2 := { t1 with PID := some pid }
        match t2.Save env.savePid env.torn d1 with
        | (some _, d2) => ⟨some .saveTaskState, t2, d2, false⟩
        | (none, d2) =>
          if background then ⟨none, t2, d2, true⟩
          else
            let t3 := finalize t2 env.wait env.endTime
            match t3.Save env.saveFinal env.torn d2 with
            | (some _, d3) => ⟨some .saveTaskState, t3, d3, false⟩
            | (none, d3) => ⟨none, t3, d3, false⟩

/-- The call gets as far as `cmd.Start()`: the logs directory and both log files could be
created and the snapshot before execution was written. -/
def RunEnv.reachesStart (env : RunEnv) : Prop :=
  env.mkdirAll = true ∧ env.createStdout = true ∧ env.createStderr = true ∧
    env.saveBefore = true

instance (env : RunEnv) : Decidable env.reachesStart := by
  unfold RunEnv.reachesStart
  infer_instance

/-! ## Task states that the operations produce -/

/-- The task states produced from a new task by Task.Cancel, Runner.RunTask and the
supervising goroutine: the task in memory when an operation returns, and every snapshot an
operation writes (a snapshot can be loaded again and operated on). `runOn` and `cancelOn`
say on which tasks RunTask and Cancel are called; with both always true this is every state
the operations can produce. -/
inductive Produced (runOn cancelOn : Task → Prop) : Task → Prop where
  | new (command : String) (priority : TaskPriority) (taskID : String) (now : Nat) :
      Produced runOn cancelOn (NewTask command priority taskID now)
  | cancel {t : Task} (now : Nat) (saveOk torn : Bool) (d : Disk) :
      Produced runOn cancelOn t → cancelOn t →
      Produced runOn cancelOn (t.Cancel now saveOk torn d).2.1
  | cancelSaved {t s : Task} (now : Nat) (saveOk torn : Bool) (d : Disk) :
      Produced runOn cancelOn t → cancelOn t → s ∈ (t.Cancel now saveOk torn d).2.2.since d →
      Produced runOn cancelOn s
  | run {t : Task} (bg : Bool) (env : RunEnv) (d : Disk) :
      Produced runOn cancelOn t → runOn t →
      Produced runOn cancelOn (RunTask t bg env d).task
  | runSaved {t s : Task} (bg : Bool) (env : RunEnv) (d : Disk) :
      Produced runOn cancelOn t → runOn t → s ∈ (RunTask t bg env d).disk.since d →
      Produced runOn cancelOn s
  | supervised {t : Task} (w : WaitResult) (endTime : Nat) (saveOk torn : Bool) (d : Disk) :
      Produced runOn cancelOn t →
      Produced runOn cancelOn (supervise t w endTime saveOk torn d).1
  | supervisedSaved {t s : Task} (w : WaitResult) (endTime : Nat) (saveOk torn : Bool) (d : Disk) :
      Produced runOn cancelOn t → s ∈ (supervise t w endTime saveOk torn d).2.since d →
      Produced runOn cancelOn s

/-! ## Concrete inputs -/

/-- An empty `tasks/` directory. -/
def emptyDisk : Disk := { tasks := [], journal := [] }

/-- A run in which every file operation succeeds, the child starts with pid 4242 and exits
with code 0; the clock reads 10 on entry and 20 at the end. -/
def okEnv : RunEnv :=
  { now := 10, mkdirAll := true, createStdout := true, createStderr := true,
    saveBefore := true, start := some 4242, endTime := 20, saveFailed := true,
    savePid := true, wait := .success, saveFinal := true, torn := false }

/-- The task `NewTask("echo hi", PriorityNormal)` with id "a" created at time 5. -/
def freshTask : Task := NewTask "echo hi" .Normal "a" 5

/-- The fresh task after a cancel at time 8: status Cancelled, a terminal status. -/
def cancelledTask : Task := { freshTask with Status := .Cancelled, FinishedAt := some 8 }

/-- The fresh task after a run that completed: status Completed with exit code 0. -/
def completedTask : Task :=
  { freshTask with Status := .Completed, StartedAt := some 6, FinishedAt := some 8,
                   ExitCode := some 0 }

/-! ## pkg/queue/queue.go -/

/-- The map `priorityOrder` that sortByPriority builds: high 3, normal 2, low 1. -/
def priorityOrder : TaskPriority → Nat
  | .High => 3
  | .Normal => 2
  | .Low => 1

/-- The `less` function that sortByPriority hands to `sort.Slice`: the task at `i` goes before
the task at `j` when its priority number is greater. -/
def priorityLess (a b : Task) : Bool :=
  decide (priorityOrder a.Priority > priorityOrder b.Priority)

/-- The order of the priorities as the specification states it, High > Normal > Low, written
out case by case without the map `priorityOrder` of the code: `a.specHigherThan b` says that
`a` is strictly higher than `b`. -/
def TaskPriority.specHigherThan : TaskPriority → TaskPriority → Bool
  | .High, .Normal => true
  | .High, .Low => true
  | .Normal, .Low => true
  | _, _ => false

/-- The library function `sort.Slice`, known by its contract: the result is a rearrangement
of the slice, and when `less` is a strict weak ordering no element is followed by one that is
less than it. The order among elements that are not less than one another is not fixed (the
sort is not guaranteed to be stable), so nothing here says what it is. -/
structure SliceSorter where
  sort : (Task → Task → Bool) → List Task → List Task
  perm : ∀ less l, (sort less l).Perm l
  sorted : ∀ less l, (∀ a b, less a b = true → less b a = false) →
    (∀ a b c, less a c = true → less a b = true ∨ less b c = true) →
    (sort less l).Pairwise (fun a b => less b a = false)

/-- One `sort.Slice`: insertion sort, which is what the Go library runs on short slices. -/
def insertionSorter : SliceSorter where
  sort less l := l.insertionSort (fun a b => less b a = false)
  perm less l := List.perm_insertionSort (fun a b => less b a = false) l
  sorted less l hasymm hneg := by
    haveI : IsTotal Task (fun a b => less b a = false) :=
      ⟨fun a b => by
        cases h : less b a
        · exact Or.inl rfl
        · exact Or.inr (hasymm b a h)⟩
    haveI : IsTrans Task (fun a b => less b a = false) :=
      ⟨fun a b c hab hbc => by
        cases h : less c a
        · rfl
        · rcases hneg c b a h with h1 | h1
          · rw [h1] at hbc; cases hbc
          · rw [h1] at hab; cases hab⟩
    exact List.sorted_insertionSort (fun a b => less b a = false) l

/-- The error of `Queue.Remove`: "task with ID %s not found in queue". -/
inductive QueueError where
  | notFound (id : String)
  deriving DecidableEq, Repr

/-- The struct `Queue`: the slice `tasks`. Every method takes the mutex on entry and releases
it on return, and none calls another method that takes it, so the mutex is left out. -/
structure Queue where
  tasks : List Task
  deriving DecidableEq, Repr

/-- The function `NewQueue`. -/
def NewQueue : Queue := { tasks := [] }

/-- The method `Queue.sortByPriority`. -/
def Queue.sortByPriority (S : SliceSorter) (q : Queue) : Queue :=
  { tasks := S.sort priorityLess q.tasks }

/-- The method `Queue.Add`: append, sort, return nil. -/
def Queue.Add (S : SliceSorter) (q : Queue) (t : Task) : Option QueueError × Queue :=
  (none, Queue.sortByPriority S { tasks := q.tasks ++ [t] })

/-- The method `Queue.GetNext`. The disk is an argument and a result so that what the method
does to the persisted records can be stated: the source has no file operation here. -/
def Queue.GetNext (q : Queue) (d : Disk) : Option Task × Queue × Disk :=
  match q.tasks with
  | [] => (none, q, d)
  | nextTask :: rest => (some nextTask, { tasks := rest }, d)

/-- The loop `for i, t := range q.tasks` of `Queue.Remove`: the first index whose task has
the ID, if there is one. -/
def Queue.indexOfID (id : String) : List Task → Option Nat
  | [] => none
  | t :: ts => if t.ID = id then some 0 else (Queue.indexOfID id ts).map (· + 1)

/-- The method `Queue.Remove`: `append(q.tasks[:i], q.tasks[i+1:]...)` at the first index
found, else the error. -/
def Queue.Remove (q : Queue) (id : String) : Option QueueError × Queue :=
  match Queue.indexOfID id q.tasks with
  | some i => (none, { tasks := q.tasks.take i ++ q.tasks.drop (i + 1) })
  | none => (some (.notFound id), q)

/-- The method `Queue.List`: a copy of the slice. -/
def Queue.List (q : Queue) : List Task := q.tasks

/-- A file of the `tasks/` directory as package `task` reads it: its name without the
extension, its extension (`filepath.Ext`), and the task that `json.Unmarshal` makes of its
content, `none` when the file cannot be read or parsed. -/
structure DirEntry where
  stem : String
  ext : String
  content : Option Task
  deriving DecidableEq, Repr

/-- The errors of `LoadTask`, `ListTasks` and `LoadQueue`. -/
inductive ListError where
  /-- The error "failed to read task file". -/
  | readTaskFile
  /-- The error "failed to unmarshal task". -/
  | unmarshalTask
  /-- The error "failed to read tasks directory". -/
  | readTasksDir
  /-- The error "failed to list tasks". -/
  | listTasks
  deriving DecidableEq, Repr

/-- The function `LoadTask` of package `task`: read `tasks/<id>.json` and parse it. -/
def LoadTask (files : List DirEntry) (id : String) : Except ListError Task :=
  match files.find? (fun f => f.stem == id && f.ext == ".json") with
  | none => .error .readTaskFile
  | some f =>
    match f.content with
    | none => .error .unmarshalTask
    | some t => .ok t

/-- The function `ListTasks` of package `task`; `readDir` says whether `os.ReadDir` succeeds.
Files without the extension `.json` are passed over, and so are files that do not load. -/
def ListTasks (readDir : Bool) (files : List DirEntry) : Except ListError (List Task) :=
  if !readDir then .error .readTasksDir
  else .ok (files.filterMap (fun f =>
    if f.ext != ".json" then none
    else match LoadTask files f.stem with
      | .ok t => some t
      | .error _ => none))

/-- The function `LoadQueue`: list the tasks and add the Pending ones to a new queue. -/
def LoadQueue (S : SliceSorter) (readDir : Bool) (files : List DirEntry) :
    Except ListError Queue :=
  match ListTasks readDir files with
  | .error _ => .error .listTasks
  | .ok tasks =>
    .ok (tasks.foldl (fun queue t =>
      if t.Status = .Pending then (queue.Add S t).2 else queue) NewQueue)

/-- The queues reached from `NewQueue` by calls of Add, GetNext and Remove, with any
arguments, in any order. -/
inductive Queue.Reached (S : SliceSorter) : Queue → Prop where
  | new : Queue.Reached S NewQueue
  | add {q : Queue} (t : Task) : Queue.Reached S q → Queue.Reached S (q.Add S t).2
  | getNext {q : Queue} (d : Disk) : Queue.Reached S q → Queue.Reached S (q.GetNext d).2.1
  | remove {q : Queue} (id : String) : Queue.Reached S q → Queue.Reached S (q.Remove id).2

/-- Three pending tasks "l", "h" and "n" with priorities Low, High and Normal. -/
def lowTask : Task := NewTask "echo low" .Low "l" 1

/-- The task "h", of priority High. -/
def highTask : Task := NewTask "echo high" .High "h" 2

/-- The task "n", of priority Normal. -/
def normalTask : Task := NewTask "echo normal" .Normal "n" 3

/-- A `tasks/` directory with the records of the Low task, the High task and the Completed
task, a record that does not parse, and a file that is not a `.json` file. -/
def sampleDir : List DirEntry :=
  [⟨"l", ".json", some lowTask⟩, ⟨"bad", ".json", none⟩, ⟨"h", ".json", some highTask⟩,
   ⟨"notes", ".txt", none⟩, ⟨"a", ".json", some completedTask⟩]

/-! ## pkg/storage/storage.go -/

/-- The struct `TaskMetadata`: the fields of a task without the priority. -/
structure TaskMetadata where
  ID : String
  Command : String
  Status : TaskStatus
  CreatedAt : Nat
  ScheduledAt : Option Nat
  StartedAt : Option Nat
  FinishedAt : Option Nat
  ExitCode : Option Int
  PID : Option Int
  GroupID : Option String
  deriving DecidableEq, Repr

/-- A file of the `tasks/` directory as Storage reads it: its name without the extension, its
extension, and the metadata that `json.Unmarshal` makes of its content, `none` when the file
cannot be read or parsed. -/
structure MetadataFile where
  stem : String
  ext : String
  content : Option TaskMetadata
  deriving DecidableEq, Repr

/-- The struct `Storage` with what it works on: whether `mutex` is held, the files of the
`tasks/` directory, and the names of the files of the `logs/` directory. -/
structure Storage where
  locked : Bool
  files : List MetadataFile
  logs : List String
  deriving DecidableEq, Repr

/-- The errors of the Storage methods. -/
inductive StorageError where
  /-- The error "failed to create tasks directory". -/
  | createTasksDir
  /-- The error "failed to write task metadata file" (or "failed to marshal task metadata"). -/
  | writeMetadata
  /-- The error "failed to read task metadata file". -/
  | readMetadata
  /-- The error "failed to unmarshal task metadata". -/
  | unmarshalMetadata
  /-- The error "failed to read tasks directory". -/
  | readTasksDir
  /-- The error "failed to delete task metadata file". -/
  | deleteMetadata
  /-- The error "failed to list tasks". -/
  | listTasks
  deriving DecidableEq, Repr

/-- How a call of a Storage method ends: it returns a value and leaves a state, or it waits
for ever in `mutex.Lock()`, in the state it had got to. -/
inductive Outcome (α : Type) where
  | returned (value : α) (s : Storage)
  | blocked (s : Storage)

/-- The state a call ends in, returned or blocked. -/
def Outcome.state {α : Type} : Outcome α → Storage
  | .returned _ s => s
  | .blocked s => s

/-- The call `s.mutex.Lock()` of a `sync.Mutex`, which is not reentrant: `none` when the mutex
is held already, and the caller then waits for ever (no other goroutine is there to release
it). -/
def Storage.Lock (s : Storage) : Option Storage :=
  if s.locked then none else some { s with locked := true }

/-- The call `s.mutex.Unlock()`, deferred by every method. -/
def Storage.Unlock (s : Storage) : Storage :=
  { s with locked := false }

/-- The method `Storage.SaveTask`; `mkdirAll` and `writeFile` say whether `os.MkdirAll` and
marshalling with `os.WriteFile` succeed, and `torn` whether a write that fails does so after
it has opened, and so truncated, the file: the file is then there and does not parse. -/
def Storage.SaveTask (s : Storage) (t : Task) (mkdirAll writeFile torn : Bool) :
    Outcome (Option StorageError) :=
  match s.Lock with
  | none => .blocked s
  | some s1 =>
    if !mkdirAll then .returned (some .createTasksDir) s1.Unlock
    else
      let metadata : TaskMetadata :=
        { ID := t.ID, Command := t.Command, Status := t.Status, CreatedAt := t.CreatedAt,
          ScheduledAt := t.ScheduledAt, StartedAt := t.StartedAt,
          FinishedAt := t.FinishedAt, ExitCode := t.ExitCode, PID := t.PID,
          GroupID := t.GroupID }
      let others := s1.files.filter (fun f => !(f.stem == t.ID && f.ext == ".json"))
      if !writeFile then
        if torn then
          .returned (some .writeMetadata)
            (Storage.Unlock { s1 with files := ⟨t.ID, ".json", none⟩ :: others })
        else .returned (some .writeMetadata) s1.Unlock
      else
        let file : MetadataFile := ⟨t.ID, ".json", some metadata⟩
        .returned none (Storage.Unlock { s1 with files := file :: others })

/-- The method `Storage.LoadTask`: read `tasks/<id>.json`, parse the metadata, and build the
task, with `PriorityNormal` as its priority. -/
def Storage.LoadTask (s : Storage) (id : String) : Outcome (Except StorageError Task) :=
  match s.Lock with
  | none => .blocked s
  | some s1 =>
    match s1.files.find? (fun f => f.stem == id && f.ext == ".json") with
    | none => .returned (.error .readMetadata) s1.Unlock
    | some f =>
      match f.content with
      | none => .returned (.error .unmarshalMetadata) s1.Unlock
      | some metadata =>
        .returned (.ok
          { ID := metadata.ID, Command := metadata.Command, Status := metadata.Status,
            Priority := .Normal, CreatedAt := metadata.CreatedAt,
            ScheduledAt := metadata.ScheduledAt, StartedAt := metadata.StartedAt,
            FinishedAt := metadata.FinishedAt, ExitCode := metadata.ExitCode,
            PID := metadata.PID, GroupID := metadata.GroupID }) s1.Unlock

/-- The loop `for _, file := range files` of `Storage.ListTasks`: files without the extension
`.json` are passed over; for the others `s.LoadTask` is called, and a task that loads is
appended. -/
def Storage.listTasksLoop : List MetadataFile → List Task → Storage → Outcome (List Task)
  | [], tasks, s => .returned tasks s
  | file :: files, tasks, s =>
    if file.ext != ".json" then Storage.listTasksLoop files tasks s
    else
      match s.LoadTask file.stem with
      | .blocked s1 => .blocked s1
      | .returned (.error _) s1 => Storage.listTasksLoop files tasks s1
      | .returned (.ok task) s1 => Storage.listTasksLoop files (tasks ++ [task]) s1

/-- The method `Storage.ListTasks`; `mkdirAll` and `readDir` say whether `os.MkdirAll` and
`os.ReadDir` succeed. -/
def Storage.ListTasks (s : Storage) (mkdirAll readDir : Bool) :
    Outcome (Except StorageError (List Task)) :=
  match s.Lock with
  | none => .blocked s
  | some s1 =>
    if !mkdirAll then .returned (.error .createTasksDir) s1.Unlock
    else if !readDir then .returned (.error .readTasksDir) s1.Unlock
    else
      match Storage.listTasksLoop s1.files [] s1 with
      | .blocked s2 => .blocked s2
      | .returned tasks s2 => .returned (.ok tasks) s2.Unlock

/-- The method `Storage.DeleteTask`: `os.Remove` of `tasks/<id>.json`, which fails when the
file is not there. -/
def Storage.DeleteTask (s : Storage) (id : String) : Outcome (Option StorageError) :=
  match s.Lock with
  | none => .blocked s
  | some s1 =>
    if s1.files.any (fun f => f.stem == id && f.ext == ".json") then
      let others := s1.files.filter (fun f => !(f.stem == id && f.ext == ".json"))
      .returned none (Storage.Unlock { s1 with files := others })
    else .returned (some .deleteMetadata) s1.Unlock

/-- The loop `for _, t := range tasks` of `Storage.CleanupOldTasks`: a Running task and a
task without a finish time are passed over; a task with `now.Sub(*t.FinishedAt) > age` is
deleted with `s.DeleteTask`, and when that returns nil its three log files are removed, each
if it is there. -/
def Storage.cleanupLoop (age : Int) (now : Nat) : List Task → Storage → Outcome Unit
  | [], s => .returned () s
  | t :: tasks, s =>
    if t.Status = .Running then Storage.cleanupLoop age now tasks s
    else
      match t.FinishedAt with
      | none => Storage.cleanupLoop age now tasks s
      | some finishedAt =>
        if (now : Int) - (finishedAt : Int) > age then
          match s.DeleteTask t.ID with
          | .blocked s1 => .blocked s1
          | .returned (some _) s1 => Storage.cleanupLoop age now tasks s1
          | .returned none s1 =>
            let logFiles := [t.ID ++ ".stdout.log", t.ID ++ ".stderr.log", t.ID ++ ".app.log"]
            let kept := s1.logs.filter (fun name => !(logFiles.contains name))
            Storage.cleanupLoop age now tasks { s1 with logs := kept }
        else Storage.cleanupLoop age now tasks s

/-- The method `Storage.CleanupOldTasks`; `age` is the duration, `now` the reading of
`time.Now()`, and `mkdirAll` and `readDir` are for the call of `s.ListTasks()`. -/
def Storage.CleanupOldTasks (s : Storage) (age : Int) (now : Nat) (mkdirAll readDir : Bool) :
    Outcome (Option StorageError) :=
  match s.Lock with
  | none => .blocked s
  | some s1 =>
    match s1.ListTasks mkdirAll readDir with
    | .blocked s2 => .blocked s2
    | .returned (.error _) s2 => .returned (some .listTasks) s2.Unlock
    | .returned (.ok tasks) s2 =>
      match Storage.cleanupLoop age now tasks s2 with
      | .blocked s3 => .blocked s3
      | .returned _ s3 => .returned none s3.Unlock

/-- The metadata of a Completed task "old" that finished at time 3600. -/
def oldMetadata : TaskMetadata :=
  { ID := "old", Command := "echo old", Status := .Completed, CreatedAt := 0,
    ScheduledAt := none, StartedAt := some 3000, FinishedAt := some 3600,
    ExitCode := some 0, PID := none, GroupID := none }

/-- The metadata of a Completed task "new" that finished at time 10200. -/
def recentMetadata : TaskMetadata :=
  { ID := "new", Command := "echo new", Status := .Completed, CreatedAt := 0,
    ScheduledAt := none, StartedAt := some 10000, FinishedAt := some 10200,
    ExitCode := some 0, PID := none, GroupID := none }

/-- A Storage whose mutex is free, over the records of "old" and "new" and the three log
files of "old". With the clock at 10800 and times in seconds, "old" finished two hours ago
and "new" ten minutes ago. -/
def sampleStorage : Storage :=
  { locked := false
    files := [⟨"old", ".json", some oldMetadata⟩, ⟨"new", ".json", some recentMetadata⟩]
    logs := ["old.stdout.log", "old.stderr.log", "old.app.log"] }

/-! ## pkg/group/group.go -/

/-- The struct `Group`. -/
structure Group where
  ID : String
  Name : String
  TaskIDs : List String
  deriving DecidableEq, Repr

/-- A file of the `groups/` directory: its name without the extension, its extension, and the
group that `json.Unmarshal` makes of its content, `none` when the file cannot be read or
parsed. -/
structure GroupFile where
  stem : String
  ext : String
  content : Option Group
  deriving DecidableEq, Repr

/-- The struct `GroupManager` with what it works on, the files of the `groups/` directory.
`CreateGroup`, `AddTask` and `DeleteGroup` take the mutex, and the methods they call
(`ListGroups`, `GetGroupByName`, `saveGroup`) do not take it, so the mutex is left out. -/
structure GroupManager where
  files : List GroupFile
  deriving DecidableEq, Repr

/-- The errors of the GroupManager methods. -/
inductive GroupError where
  /-- The error "failed to create groups directory". -/
  | createGroupsDir
  /-- The error "failed to read groups directory". -/
  | readGroupsDir
  /-- The error "failed to read group file". -/
  | readGroupFile
  /-- The error "failed to unmarshal group". -/
  | unmarshalGroup
  /-- The error "failed to write group file" (or "failed to marshal group"). -/
  | writeGroupFile
  /-- The error "failed to list groups". -/
  | listGroups
  /-- The error "group with name %s already exists". -/
  | alreadyExists (name : String)
  /-- The error "failed to save group". -/
  | saveGroup
  /-- The error "group with name %s not found". -/
  | notFound (name : String)
  /-- The error "failed to get group". -/
  | getGroup
  /-- The error "failed to save task". -/
  | saveTask
  /-- The error "failed to load task %s". -/
  | loadTask (taskID : String)
  /-- The error "failed to run task %s". -/
  | runTask (taskID : String)
  /-- The error "failed to delete group file". -/
  | deleteGroupFile
  deriving DecidableEq, Repr

/-- The answers of the operating system to one call of `CreateGroup`: whether `os.MkdirAll`
and `os.ReadDir` succeed in `ListGroups`, whether `os.MkdirAll` and the write succeed in
`saveGroup`, and whether a write that fails does so after it has opened, and so truncated,
the file. -/
structure GroupEnv where
  listMkdirAll : Bool
  listReadDir : Bool
  saveMkdirAll : Bool
  saveWriteFile : Bool
  torn : Bool
  deriving DecidableEq, Repr

/-- The name of a file of the directory: the stem followed by the extension. -/
def GroupFile.name (f : GroupFile) : String := f.stem ++ f.ext

/-- The function `os.ReadDir` on the `groups/` directory: its entries, sorted by file name
(the order of strings in Go is the order of their characters, position by position). -/
def GroupManager.readDir (gm : GroupManager) : List GroupFile :=
  gm.files.insertionSort (fun a b => a.name.data ≤ b.name.data)

/-- The method `GroupManager.loadGroup`: read `groups/<id>.json` and parse it. -/
def GroupManager.loadGroup (gm : GroupManager) (id : String) : Except GroupError Group :=
  match gm.files.find? (fun f => f.stem == id && f.ext == ".json") with
  | none => .error .readGroupFile
  | some f =>
    match f.content with
    | none => .error .unmarshalGroup
    | some group => .ok group

/-- The method `GroupManager.ListGroups`: files without the extension `.json` are passed
over, and so are files that do not load. -/
def GroupManager.ListGroups (gm : GroupManager) (mkdirAll readDir : Bool) :
    Except GroupError (List Group) :=
  if !mkdirAll then .error .createGroupsDir
  else if !readDir then .error .readGroupsDir
  else .ok (gm.readDir.filterMap (fun file =>
    if file.ext != ".json" then none
    else match gm.loadGroup file.stem with
      | .ok group => some group
      | .error _ => none))

/-- The method `GroupManager.saveGroup`: write `groups/<g.ID>.json`. A write that fails at
the open of the file leaves the directory as it was; a write that fails after the open
(`torn`) leaves the file there, truncated: it holds at most a part of the data and does not
parse. -/
def GroupManager.saveGroup (gm : GroupManager) (g : Group) (mkdirAll writeFile torn : Bool) :
    Option GroupError × GroupManager :=
  if !mkdirAll then (some .createGroupsDir, gm)
  else
    let others := gm.files.filter (fun f => !(f.stem == g.ID && f.ext == ".json"))
    if !writeFile then
      (some .writeGroupFile, if torn then { files := ⟨g.ID, ".json", none⟩ :: others } else gm)
    else (none, { files := ⟨g.ID, ".json", some g⟩ :: others })

/-- The method `GroupManager.CreateGroup`; `newID` is what `uuid.New().String()` returns. -/
def GroupManager.CreateGroup (gm : GroupManager) (name : String) (newID : String)
    (env : GroupEnv) : Except GroupError Group × GroupManager :=
  match gm.ListGroups env.listMkdirAll env.listReadDir with
  | .error _ => (.error .listGroups, gm)
  | .ok groups =>
    if groups.any (fun g => g.Name == name) then (.error (.alreadyExists name), gm)
    else
      let group : Group := { ID := newID, Name := name, TaskIDs := [] }
      match gm.saveGroup group env.saveMkdirAll env.saveWriteFile env.torn with
      | (some _, gm1) => (.error .saveGroup, gm1)
      | (none, gm1) => (.ok group, gm1)

/-- A call of `CreateGroup` in which every file operation succeeds. -/
def okGroupEnv : GroupEnv :=
  { listMkdirAll := true, listReadDir := true, saveMkdirAll := true, saveWriteFile := true,
    torn := false }

/-- A `groups/` directory with no file. -/
def emptyManager : GroupManager := { files := [] }

/-- A `groups/` directory with one group, "nightly", of ID "g1". -/
def nightlyManager : GroupManager :=
  { files := [⟨"g1", ".json", some { ID := "g1", Name := "nightly", TaskIDs := [] }⟩] }

/-- The method `GroupManager.GetGroupByName`: the first listed group with the name. -/
def GroupManager.GetGroupByName (gm : GroupManager) (name : String)
    (mkdirAll readDir : Bool) : Except GroupError Group :=
  match gm.ListGroups mkdirAll readDir with
  | .error _ => .error .listGroups
  | .ok groups =>
    match groups.find? (fun g => g.Name == name) with
    | some g => .ok g
    | none => .error (.notFound name)

/-- The answers of the outside world to one call of `AddTask`: whether `os.MkdirAll` and
`os.ReadDir` succeed in `ListGroups`, what `uuid.New().String()` and `time.Now()` return in
`NewTask`, whether `t.Save()` succeeds, whether `os.MkdirAll` and the write succeed in
`saveGroup`, and whether the write that fails (of the task file or of the group file: AddTask
returns after the first) does so after it has opened, and so truncated, the file. -/
structure AddTaskEnv where
  listMkdirAll : Bool
  listReadDir : Bool
  taskID : String
  now : Nat
  saveTask : Bool
  saveMkdirAll : Bool
  saveWriteFile : Bool
  torn : Bool
  deriving DecidableEq, Repr

/-- The method `GroupManager.AddTask`: find the group, make the task with the ID of the group
in `GroupID`, save the task, append its ID to `TaskIDs`, save the group. -/
def GroupManager.AddTask (gm : GroupManager) (groupName command : String) (env : AddTaskEnv)
    (d : Disk) : Except GroupError Task × GroupManager × Disk :=
  match gm.GetGroupByName groupName env.listMkdirAll env.listReadDir with
  | .error _ => (.error .getGroup, gm, d)
  | .ok group =>
    let t : Task :=
      { NewTask command .Normal env.taskID env.now with GroupID := some group.ID }
    match t.Save env.saveTask env.torn d with
    | (some _, d1) => (.error .saveTask, gm, d1)
    | (none, d1) =>
      let group1 : Group := { group with TaskIDs := group.TaskIDs ++ [t.ID] }
      match gm.saveGroup group1 env.saveMkdirAll env.saveWriteFile env.torn with
      | (some _, gm1) => (.error .saveGroup, gm1, d1)
      | (none, gm1) => (.ok t, gm1, d1)

/-- What a call of `RunGroup` leaves behind: the returned error, the disk, and the lines
"Task %s completed with status: %s" it has printed, as pairs of the ID and the status. -/
structure GroupRun where
  err : Option GroupError
  disk : Disk
  printed : List (String × TaskStatus)
  deriving DecidableEq, Repr

/-- The loop `for _, taskID := range group.TaskIDs` of `RunGroup`, from the member of index
`i` on; `envs i` holds the answers of the operating system to the run of member `i`.
`task.LoadTask` is the content of `tasks/<taskID>.json`, an error when the file is not there.
The loop returns at the first member that does not load or whose `RunTask` returns an error.
In background mode the goroutines that `RunTask` starts go on after the loop; they are not
part of it. -/
def GroupManager.runLoop (background : Bool) (envs : Nat → RunEnv) :
    Nat → List String → Disk → GroupRun
  | _, [], d => ⟨none, d, []⟩
  | i, taskID :: rest, d =>
    match d.load taskID with
    | none => ⟨some (.loadTask taskID), d, []⟩
    | some t =>
      let r := RunTask t background (envs i) d
      match r.err with
      | some _ => ⟨some (.runTask taskID), r.disk, []⟩
      | none =>
        let line := if background then [] else [(r.task.ID, r.task.Status)]
        let next := GroupManager.runLoop background envs (i + 1) rest r.disk
        ⟨next.err, next.disk, line ++ next.printed⟩

/-- The method `GroupManager.RunGroup`. -/
def GroupManager.RunGroup (gm : GroupManager) (groupName : String) (background : Bool)
    (mkdirAll readDir : Bool) (envs : Nat → RunEnv) (d : Disk) : GroupRun :=
  match gm.GetGroupByName groupName mkdirAll readDir with
  | .error _ => ⟨some .getGroup, d, []⟩
  | .ok group => GroupManager.runLoop background envs 0 group.TaskIDs d

/-- The method `GroupManager.DeleteGroup`; `remove` says whether `os.Remove` of the group file
succeeds. The disk with the task records is an argument and a result so that what the method
does to them can be stated: the source has no operation on them here. -/
def GroupManager.DeleteGroup (gm : GroupManager) (groupName : String)
    (mkdirAll readDir remove : Bool) (d : Disk) : Option GroupError × GroupManager × Disk :=
  match gm.GetGroupByName groupName mkdirAll readDir with
  | .error _ => (some .getGroup, gm, d)
  | .ok group =>
    if !remove then (some .deleteGroupFile, gm, d)
    else
      let others := gm.files.filter (fun f => !(f.stem == group.ID && f.ext == ".json"))
      (none, { files := others }, d)

/-- Every record of the disk is in the file named after its ID, as `Task.Save` writes it. -/
def Disk.WellFormed (d : Disk) : Prop :=
  ∀ e ∈ d.tasks, e.2.ID = e.1

/-- Every group of the directory is in the file named after its ID, as `saveGroup` writes
it. -/
def GroupManager.WellFormed (gm : GroupManager) : Prop :=
  ∀ f ∈ gm.files, ∀ g, f.content = some g → g.ID = f.stem

/-- A `groups/` directory with two groups that are both named "nightly", of IDs "g1" and
"g2". -/
def twinManager : GroupManager :=
  { files := [⟨"g1", ".json", some { ID := "g1", Name := "nightly", TaskIDs := [] }⟩,
              ⟨"g2", ".json", some { ID := "g2", Name := "nightly", TaskIDs := [] }⟩] }

/-- A call of `AddTask` in which every file operation succeeds; the new task gets the ID "t1"
and the creation time 7. -/
def okAddEnv : AddTaskEnv :=
  { listMkdirAll := true, listReadDir := true, taskID := "t1", now := 7, saveTask := true,
    saveMkdirAll := true, saveWriteFile := true, torn := false }

/-- The answers to the runs of the members of a group when every run is as in `okEnv`. -/
def okEnvs : Nat → RunEnv := fun _ => okEnv

/-- Two tasks "echo hi" of the group "g1", with the IDs "t1" and "t2". -/
def hiTask1 : Task := { NewTask "echo hi" .Normal "t1" 7 with GroupID := some "g1" }

/-- The second task "echo hi" of the group "g1". -/
def hiTask2 : Task := { NewTask "echo hi" .Normal "t2" 8 with GroupID := some "g1" }

/-- A third task "echo hi" of the group "g1". -/
def hiTask3 : Task := { NewTask "echo hi" .Normal "t3" 9 with GroupID := some "g1" }

/-- The disk that holds the three tasks of the group. -/
def groupDisk : Disk := ((emptyDisk.write hiTask1).write hiTask2).write hiTask3

/-- The `groups/` directory with the group "nightly" and its members "t1", "t2", "t3". -/
def runManager : GroupManager :=
  { files := [⟨"g1", ".json",
      some { ID := "g1", Name := "nightly", TaskIDs := ["t1", "t2", "t3"] }⟩] }

/-! ## path/filepath -/

/-- The elements of a path: what stands between its separators. -/
def pathElements : List Char → List (List Char)
  | [] => [[]]
  | c :: cs =>
    if c = '/' then [] :: pathElements cs
    else match pathElements cs with
      | [] => [[c]]
      | e :: es => (c :: e) :: es

/-- The elements of a path put together again, a separator between two of them
(`strings.Join(elem, "/")`). -/
def joinElements : List (List Char) → List Char
  | [] => []
  | [e] => e
  | e :: es => e ++ '/' :: joinElements es

/-- Whether a path begins with the separator. -/
def isRooted : List Char → Bool
  | c :: _ => c == '/'
  | [] => false

/-- One element of the path in `filepath.Clean`; `out` holds the elements kept so far, the
last one first. An empty element and "." are dropped; ".." removes the element before it,
is dropped at the root, and is kept at the front of a path that is not rooted; any other
element is kept. -/
def cleanStep (rooted : Bool) (out : List (List Char)) (e : List Char) : List (List Char) :=
  if e = [] ∨ e = ['.'] then out
  else if e = ['.', '.'] then
    match out with
    | [] => if rooted then [] else [e]
    | last :: before => if last = ['.', '.'] then e :: out else before
  else e :: out

/-- The path that `filepath.Clean` returns for the elements it kept: they are joined by the
separator, after the separator when the path is rooted, and "." stands for no element. -/
def cleanRender (rooted : Bool) (out : List (List Char)) : List Char :=
  if rooted then '/' :: joinElements out.reverse
  else if out = [] then ['.'] else joinElements out.reverse

/-- The library function `filepath.Clean` on a system whose separator is "/", on the
characters of the path. -/
def cleanChars (path : List Char) : List Char :=
  if path = [] then ['.']
  else cleanRender (isRooted path) ((pathElements path).foldl (cleanStep (isRooted path)) [])

/-- The library function `filepath.Join`, on the characters of the elements: the empty
elements at the front are passed over, the others are joined by the separator and the
result is cleaned; with no element left the result is empty. -/
def joinChars (elem : List (List Char)) : List Char :=
  match elem.dropWhile (fun e => e.isEmpty) with
  | [] => []
  | rest => cleanChars (joinElements rest)

/-- The function `filepath.Clean`. -/
def filepathClean (path : String) : String := String.mk (cleanChars path.data)

/-- The function `filepath.Join`. -/
def filepathJoin (elem : List String) : String := String.mk (joinChars (elem.map String.data))


/-- What `filepath.Clean` keeps: no element is empty, is "." or holds a separator, and ".."
stands only at the front of a path that is not rooted. The list has the last element
first. -/
def CleanStack (rooted : Bool) : List (List Char) → Prop
  | [] => True
  | e :: out => e ≠ [] ∧ e ≠ ['.'] ∧ '/' ∉ e ∧
      (e = ['.', '.'] → rooted = false ∧ (out = [] ∨ out.head? = some ['.', '.'])) ∧
      CleanStack rooted out

/-! ## pkg/logger/logger.go -/

/-- The struct `Logger` with what it works on: the log files, each under the path that
`filepath.Join` gives it, with its content. A file that is absent has no entry. -/
structure Logger where
  DataDir : String
  files : List (String × String)
  deriving DecidableEq, Repr

/-- The errors of the logger, one per `fmt.Errorf`. -/
inductive LoggerError where
  /-- failed to create logs directory -/
  | createLogsDir
  /-- failed to open log file -/
  | openLog
  /-- failed to write to log file -/
  | writeLog
  /-- failed to read log file -/
  | readLog
  deriving DecidableEq, Repr

/-- What the operating system decides during one `logMessage`: whether `os.MkdirAll` and
`os.OpenFile` succeed, what `time.Now().Format(time.RFC3339)` gives, whether `WriteString`
succeeds and, when it fails, how many characters of the line it had written. -/
structure LogEnv where
  mkdirAll : Bool
  openFile : Bool
  timestamp : String
  writeString : Bool
  written : Nat
  deriving DecidableEq, Repr

/-- The path of the log file of a task as `GetLogs` builds it:
`filepath.Join(l.DataDir, "logs", taskID+".app.log")`. -/
def Logger.logPath (l : Logger) (taskID : String) : String :=
  filepathJoin [l.DataDir, "logs", taskID ++ ".app.log"]

/-- The content of the file at a path, empty when the file is absent (a file that `OpenFile`
creates with `O_CREATE` starts empty). -/
def Logger.content (l : Logger) (path : String) : String :=
  (l.files.lookup path).getD ""

/-- The file `path` holds `content`, the other files are as they were. -/
def Logger.put (l : Logger) (path content : String) : Logger :=
  { l with files := (path, content) :: l.files.filter (fun e => e.1 != path) }

/-- The line of `logMessage`: `fmt.Sprintf("[%s] [%s] %s\n", timestamp, level, message)`. -/
def Logger.logLine (timestamp level message : String) : String :=
  "[" ++ timestamp ++ "] [" ++ level ++ "] " ++ message ++ "\n"

/-- `Logger.logMessage`: create the logs directory `filepath.Join(l.DataDir, "logs")`, open
the file `filepath.Join(logsDir, taskID+".app.log")` for appending (creating it when absent),
format the line, write it at the end of the file. -/
def Logger.logMessage (l : Logger) (taskID level message : String) (env : LogEnv) :
    Option LoggerError × Logger :=
  let logsDir := filepathJoin [l.DataDir, "logs"]
  if !env.mkdirAll then (some .createLogsDir, l)
  else
    let logPath := filepathJoin [logsDir, taskID ++ ".app.log"]
    if !env.openFile then (some .openLog, l)
    else
      let logLine := Logger.logLine env.timestamp level message
      if !env.writeString then
        (some .writeLog,
          l.put logPath (l.content logPath ++ String.mk (logLine.data.take env.written)))
      else (none, l.put logPath (l.content logPath ++ logLine))

/-- `Logger.LogInfo`. -/
def Logger.LogInfo (l : Logger) (taskID message : String) (env : LogEnv) :
    Option LoggerError × Logger :=
  l.logMessage taskID "INFO" message env

/-- `Logger.LogError`. -/
def Logger.LogError (l : Logger) (taskID message : String) (env : LogEnv) :
    Option LoggerError × Logger :=
  l.logMessage taskID "ERROR" message env

/-- `Logger.LogDebug`. -/
def Logger.LogDebug (l : Logger) (taskID message : String) (env : LogEnv) :
    Option LoggerError × Logger :=
  l.logMessage taskID "DEBUG" message env

/-- `Logger.GetLogs`: the empty string when `os.Stat` reports that the file does not exist,
else the content that `os.ReadFile` returns, or its error. -/
def Logger.GetLogs (l : Logger) (taskID : String) (readFile : Bool) :
    Except LoggerError String :=
  match l.files.lookup (l.logPath taskID) with
  | none => .ok ""
  | some content => if readFile then .ok content else .error .readLog

/-- The number of line breaks in a text, that is, of the lines it holds when it ends in
one. -/
def lineBreaks (s : String) : Nat := s.data.count (Char.ofNat 10)

/-- The logger `NewLogger("data")` with no log file yet. -/
def emptyLogger : Logger := { DataDir := "data", files := [] }

/-- A `logMessage` in which every step succeeds, at the first second of 2024 (UTC). -/
def okLogEnv : LogEnv :=
  { mkdirAll := true, openFile := true, timestamp := "2024-01-01T00:00:00Z",
    writeString := true, written := 0 }

/-! ## The disk -/

theorem Disk.load_write (d : Disk) (t : Task) : (d.write t).load t.ID = some t := by
  simp [Disk.load, Disk.write, List.lookup]

theorem Disk.journal_write (d : Disk) (t : Task) : (d.write t).journal = t :: d.journal := rfl

theorem Disk.since_of_journal {after before : Disk} (new : List Task)
    (h : after.journal = new ++ before.journal) : after.since before = new := by
  simp [Disk.since, h]

theorem Disk.since_self (d : Disk) : d.since d = [] := by
  simp [Disk.since]

theorem Disk.since_failed (d0 d : Disk) (torn : Bool) (id : String) :
    (if torn = true then d.truncate id else d).since d0 = d.since d0 := by
  cases torn <;> rfl

theorem Disk.since_write (d : Disk) (a : Task) : (d.write a).since d = [a] :=
  Disk.since_of_journal [a] rfl

theorem Disk.since_write_write (d : Disk) (a b : Task) :
    ((d.write a).write b).since d = [b, a] :=
  Disk.since_of_journal [b, a] rfl

theorem Disk.since_write_write_write (d : Disk) (a b c : Task) :
    (((d.write a).write b).write c).since d = [c, b, a] :=
  Disk.since_of_journal [c, b, a] rfl

theorem lookup_filter_ne {β : Type} (l : List (String × β)) (k id : String) (h : k ≠ id) :
    List.lookup id (l.filter (fun e => e.1 != k)) = List.lookup id l := by
  induction l with
  | nil => rfl
  | cons a l ih =>
    obtain ⟨ak, av⟩ := a
    by_cases hk : ak = k
    · have hb : (id == ak) = false := by
        rw [beq_eq_false_iff_ne]
        intro h1
        exact h (by rw [← hk, h1])
      simp only [List.filter_cons, hk, bne_self_eq_false, Bool.false_eq_true, if_false,
        List.lookup_cons, ih]
      rw [hk] at hb
      rw [hb]
    · have hb : (ak != k) = true := by simp [hk]
      simp only [List.filter_cons, hb, if_true, List.lookup_cons, ih]

theorem Disk.load_write_ne (d : Disk) (t : Task) (id : String) (h : t.ID ≠ id) :
    (d.write t).load id = d.load id := by
  have hb : (id == t.ID) = false := by
    rw [beq_eq_false_iff_ne]
    exact fun h1 => h h1.symm
  simp only [Disk.load, Disk.write, List.lookup_cons, hb, lookup_filter_ne d.tasks t.ID id h]

theorem Disk.wellFormed_write (d : Disk) (hwf : d.WellFormed) (t : Task) :
    (d.write t).WellFormed := by
  intro e he
  simp only [Disk.write, List.mem_cons, List.mem_filter] at he
  rcases he with he | he
  · rw [he]
  · exact hwf e he.1

theorem lookup_some_mem (l : List (String × Task)) (id : String) (t : Task)
    (h : List.lookup id l = some t) : (id, t) ∈ l := by
  induction l with
  | nil => simp at h
  | cons a l ih =>
    obtain ⟨ak, av⟩ := a
    by_cases hid : id = ak
    · simp [List.lookup_cons, hid] at h
      simp [hid, h]
    · have hne : (id == ak) = false := by simp [hid]
      simp only [List.lookup_cons, hne] at h
      exact List.mem_cons_of_mem _ (ih h)

theorem Disk.load_ID (d : Disk) (hwf : d.WellFormed) (id : String) (t : Task)
    (h : d.load id = some t) : t.ID = id :=
  hwf (id, t) (lookup_some_mem d.tasks id t h)

theorem emptyDisk_wellFormed : emptyDisk.WellFormed := by
  intro e he
  simp [emptyDisk] at he

theorem lookup_filter_self {β : Type} (l : List (String × β)) (id : String) :
    List.lookup id (l.filter (fun e => e.1 != id)) = none := by
  induction l with
  | nil => rfl
  | cons a l ih =>
    obtain ⟨ak, av⟩ := a
    by_cases hk : ak = id
    · simp only [List.filter_cons, hk, bne_self_eq_false, Bool.false_eq_true, if_false, ih]
    · have hb : (ak != id) = true := by simp [hk]
      have hb1 : (id == ak) = false := by
        rw [beq_eq_false_iff_ne]
        exact fun h1 => hk h1.symm
      simp only [List.filter_cons, hb, if_true, List.lookup_cons, hb1, ih]

/-- After a write that failed past the open, the file of the task no longer loads. -/
theorem Disk.load_truncate (d : Disk) (id : String) : (d.truncate id).load id = none :=
  lookup_filter_self d.tasks id

theorem Disk.load_truncate_ne (d : Disk) (k id : String) (h : k ≠ id) :
    (d.truncate k).load id = d.load id :=
  lookup_filter_ne d.tasks k id h

/-- A write that fails changes no file but the one it was to write. -/
theorem Disk.load_failed_ne (d : Disk) (torn : Bool) (k id : String) (h : k ≠ id) :
    (if torn = true then d.truncate k else d).load id = d.load id := by
  cases torn
  · rfl
  · exact Disk.load_truncate_ne d k id h

theorem Disk.wellFormed_truncate (d : Disk) (hwf : d.WellFormed) (id : String) :
    (d.truncate id).WellFormed := by
  intro e he
  simp only [Disk.truncate, List.mem_filter] at he
  exact hwf e he.1

theorem Disk.wellFormed_failed (d : Disk) (hwf : d.WellFormed) (torn : Bool) (id : String) :
    (if torn = true then d.truncate id else d).WellFormed := by
  cases torn
  · exact hwf
  · exact Disk.wellFormed_truncate d hwf id

/-! ## C1: terminal states -/

/-- RunTask overwrites the status before it reads it: the status on entry has no effect on
anything the call does. -/
theorem RunTask_ignores_status (t : Task) (s : TaskStatus) (bg : Bool) (env : RunEnv)
    (d : Disk) : RunTask { t with Status := s } bg env d = RunTask t bg env d := rfl

/-- C1, as stated, fails for Runner.RunTask: the task `cancelledTask` is in the terminal
status Cancelled and is persisted as such; a foreground run whose command exits with code 0
returns nil and leaves it Completed, in memory and in its persisted record. -/
theorem C1_counterexample :
    cancelledTask.Status.isTerminal = true ∧
    ((emptyDisk.write cancelledTask).load cancelledTask.ID).map Task.Status
      = some TaskStatus.Cancelled ∧
    (RunTask cancelledTask false okEnv (emptyDisk.write cancelledTask)).err = none ∧
    (RunTask cancelledTask false okEnv (emptyDisk.write cancelledTask)).task.Status
      = TaskStatus.Completed ∧
    ((RunTask cancelledTask false okEnv (emptyDisk.write cancelledTask)).disk.load
      cancelledTask.ID).map Task.Status = some TaskStatus.Completed := by
  decide

/-- C1, amended: for every task in a terminal status, Task.Cancel changes neither the status
of the task nor anything on disk; Runner.RunTask has no guard on the status: it does on a
terminal task exactly what it does on the same task with status Pending (same error, same
task on return, same writes), and the status it returns with is Running, Completed or Failed,
never Cancelled or Pending. -/
theorem C1_terminal_only_cancel_guards (t : Task) (h : t.Status.isTerminal = true) :
    (∀ now saveOk torn d, (t.Cancel now saveOk torn d).2.1.Status = t.Status ∧
        (t.Cancel now saveOk torn d).2.2 = d) ∧
    (∀ bg env d, RunTask t bg env d = RunTask { t with Status := .Pending } bg env d ∧
        ((RunTask t bg env d).task.Status = .Running ∨
         (RunTask t bg env d).task.Status = .Completed ∨
         (RunTask t bg env d).task.Status = .Failed)) := by
  refine ⟨?_, ?_⟩
  · intro now saveOk torn d
    cases hs : t.Status <;> simp [hs, TaskStatus.isTerminal] at h <;> simp [Task.Cancel, hs]
  · intro bg env d
    refine ⟨rfl, ?_⟩
    simp only [RunTask, Task.Save, finalize]
    cases env.mkdirAll <;> cases env.createStdout <;> cases env.createStderr <;>
      cases env.saveBefore <;> cases env.start <;> cases env.savePid <;> cases bg <;>
      cases env.wait <;> cases env.saveFinal <;> simp

/-- The amended C1 at the Cancelled task of the counterexample. -/
theorem C1_terminal_only_cancel_guards_witness :
    cancelledTask.Status.isTerminal = true ∧
    (RunTask cancelledTask false okEnv emptyDisk).task.Status = .Completed :=
  ⟨by decide, by
    have h := ((C1_terminal_only_cancel_guards cancelledTask (by decide)).2 false okEnv
      emptyDisk).1
    rw [h]; decide⟩

/-! ## C2, C3: Task.Cancel -/

/-- C2, as stated, fails: the fresh task is Pending, so the cancel is legal, and yet
Task.Cancel returns an error when the write of the task file fails; the task in memory is
already Cancelled then, and nothing was persisted. -/
theorem C2_counterexample :
    freshTask.Status = TaskStatus.Pending ∧
    (freshTask.Cancel 7 false false emptyDisk).1 = some Error.writeTaskFile ∧
    (freshTask.Cancel 7 false false emptyDisk).2.1.Status = TaskStatus.Cancelled ∧
    (freshTask.Cancel 7 false false emptyDisk).2.2 = emptyDisk := by
  decide

/-- C2, amended: Task.Cancel returns the invalid-state error iff the status is neither Pending
nor Running; it returns some error iff the status is neither Pending nor Running or the write
of the task file fails; from Pending or Running the task in memory becomes the old task with
status Cancelled and finishedAt set to the current time, every other field as it was; and
when Cancel returns nil the persisted record of the task equals that updated task. -/
theorem C2_cancel_legal_from_pending_or_running (t : Task) (now : Nat) (saveOk : Bool)
    (d : Disk) :
    ((t.Cancel now saveOk torn d).1 = some (.cannotCancel t.Status) ↔
        (t.Status ≠ .Pending ∧ t.Status ≠ .Running)) ∧
    ((t.Cancel now saveOk torn d).1 ≠ none ↔
        ((t.Status ≠ .Pending ∧ t.Status ≠ .Running) ∨ saveOk = false)) ∧
    ((t.Status = .Pending ∨ t.Status = .Running) →
        (t.Cancel now saveOk torn d).2.1 =
          { t with Status := .Cancelled, FinishedAt := some now }) ∧
    ((t.Cancel now saveOk torn d).1 = none →
        (t.Cancel now saveOk torn d).2.1 =
          { t with Status := .Cancelled, FinishedAt := some now } ∧
        (t.Cancel now saveOk torn d).2.2.load t.ID = some (t.Cancel now saveOk torn d).2.1 ∧
        (t.Cancel now saveOk torn d).2.2.since d = [(t.Cancel now saveOk torn d).2.1]) := by
  have hw := Disk.load_write d { t with Status := .Cancelled, FinishedAt := some now }
  have hj := Disk.since_write d { t with Status := .Cancelled, FinishedAt := some now }
  cases hs : t.Status <;> cases saveOk <;>
    simp [Task.Cancel, Task.Save, hs] <;> exact ⟨hw, hj⟩

/-- C3: for every task in a terminal status, Task.Cancel fails with the invalid-state error
and returns the task and the disk exactly as they were: no field of the task and no persisted
record changes, and nothing is written. -/
theorem C3_cancel_terminal_fails_unchanged (t : Task) (h : t.Status.isTerminal = true)
    (now : Nat) (saveOk torn : Bool) (d : Disk) :
    t.Cancel now saveOk torn d = (some (.cannotCancel t.Status), t, d) := by
  cases hs : t.Status <;> simp [hs, TaskStatus.isTerminal] at h <;> simp [Task.Cancel, hs]

/-- C3 at a Completed task that is on disk. -/
theorem C3_cancel_terminal_fails_unchanged_witness :
    completedTask.Status.isTerminal = true ∧
    completedTask.Cancel 9 true false (emptyDisk.write completedTask)
      = (some (.cannotCancel .Completed), completedTask, emptyDisk.write completedTask) :=
  ⟨by decide,
   C3_cancel_terminal_fails_unchanged completedTask (by decide) 9 true false
     (emptyDisk.write completedTask)⟩

/-! ## C4: pid and status -/

theorem RunTask_pid_only_running (t : Task) (bg : Bool) (env : RunEnv) (d : Disk)
    (h : t.PID = none) :
    ((RunTask t bg env d).task.PID ≠ none → (RunTask t bg env d).task.Status = .Running) ∧
    ∀ s ∈ (RunTask t bg env d).disk.since d, s.PID ≠ none → s.Status = .Running := by
  cases h1 : env.mkdirAll
  · simp [RunTask, h1, h, Disk.since_self]
  cases h2 : env.createStdout
  · simp [RunTask, h1, h2, h, Disk.since_self]
  cases h3 : env.createStderr
  · simp [RunTask, h1, h2, h3, h, Disk.since_self]
  cases h4 : env.saveBefore
  · simp [RunTask, Task.Save, Disk.since_failed, h1, h2, h3, h4, h, Disk.since_self]
  cases h5 : env.start with
  | none =>
    cases h6 : env.saveFailed <;>
      simp [RunTask, Task.Save, Disk.since_failed, h1, h2, h3, h4, h5, h6, h, Disk.since_write,
        Disk.since_write_write]
  | some pid =>
    cases h7 : env.savePid
    · simp [RunTask, Task.Save, Disk.since_failed, h1, h2, h3, h4, h5, h7, h, Disk.since_write]
    cases bg
    · cases h8 : env.saveFinal <;> cases h9 : env.wait <;>
        simp [RunTask, Task.Save, Disk.since_failed, finalize, h1, h2, h3, h4, h5, h7, h8, h9, h,
          Disk.since_write_write, Disk.since_write_write_write]
    · simp [RunTask, Task.Save, Disk.since_failed, h1, h2, h3, h4, h5, h7, h, Disk.since_write_write]

theorem Cancel_pid_none (t : Task) (now : Nat) (saveOk torn : Bool) (d : Disk) (h : t.PID = none) :
    (t.Cancel now saveOk torn d).2.1.PID = none ∧
    ∀ s ∈ (t.Cancel now saveOk torn d).2.2.since d, s.PID = none := by
  cases hs : t.Status <;> cases saveOk <;>
    simp [Task.Cancel, Task.Save, Disk.since_failed, hs, h, Disk.since_self, Disk.since_write]

theorem supervise_pid_none (t : Task) (w : WaitResult) (endTime : Nat)
    (saveOk torn : Bool) (d : Disk) :
    (supervise t w endTime saveOk torn d).1.PID = none ∧
    ∀ s ∈ (supervise t w endTime saveOk torn d).2.since d, s.PID = none := by
  cases w <;> cases saveOk <;>
    simp [supervise, finalize, Task.Save, Disk.since_failed, Disk.since_self, Disk.since_write]

/-- Task.Cancel has no assignment to `PID`: a Running task that is cancelled becomes
Cancelled and keeps the pid it had. -/
theorem Cancel_running_keeps_pid (t : Task) (now : Nat) (saveOk torn : Bool) (d : Disk)
    (h : t.Status = .Running) :
    (t.Cancel now saveOk torn d).2.1.Status = .Cancelled ∧
    (t.Cancel now saveOk torn d).2.1.PID = t.PID := by
  simp [Task.Cancel, h]

/-- C4, as stated, fails: the first snapshot that Runner.RunTask persists of the fresh task
(written before the child process is started) has status Running and no pid. -/
theorem C4_counterexample :
    { freshTask with Status := TaskStatus.Running, StartedAt := some 10 }
      ∈ (RunTask freshTask false okEnv emptyDisk).disk.since emptyDisk ∧
    ({ freshTask with Status := TaskStatus.Running, StartedAt := some 10 } : Task).PID
      = none := by
  decide

/-- C4, amended: a pid is present only while the status is Running. For the task returned by
NewTask and for every task state produced from it by the supervising goroutine, by
Runner.RunTask called on a task without a pid and by Task.Cancel called on a task without a
pid (in memory on return, and in every snapshot persisted), a task whose pid is non-nil has
status Running; so every task that RunTask or its goroutine leaves Completed or Failed has no
pid. (Running without a pid does occur: it is the snapshot written before the process is
started.) -/
theorem C4_pid_present_only_while_running (t : Task)
    (h : Produced (fun t => t.PID = none) (fun t => t.PID = none) t) :
    t.PID ≠ none → t.Status = .Running := by
  induction h with
  | new command priority taskID now => simp [NewTask]
  | cancel now saveOk torn d _ hc _ => simp [(Cancel_pid_none _ now saveOk torn d hc).1]
  | cancelSaved now saveOk torn d _ hc hs _ => simp [(Cancel_pid_none _ now saveOk torn d hc).2 _ hs]
  | run bg env d _ hr _ => exact (RunTask_pid_only_running _ bg env d hr).1
  | runSaved bg env d _ hr hs _ => exact (RunTask_pid_only_running _ bg env d hr).2 _ hs
  | supervised w endTime saveOk torn d _ _ => simp [(supervise_pid_none _ w endTime saveOk torn d).1]
  | supervisedSaved w endTime saveOk torn d _ hs _ =>
    simp [(supervise_pid_none _ w endTime saveOk torn d).2 _ hs]

/-- The amended C4 at the task a background run of the fresh task returns with: it is
produced, has pid 4242, and is Running. -/
theorem C4_pid_present_only_while_running_witness :
    Produced (fun t => t.PID = none) (fun t => t.PID = none)
      (RunTask freshTask true okEnv emptyDisk).task ∧
    (RunTask freshTask true okEnv emptyDisk).task.PID = some 4242 ∧
    (RunTask freshTask true okEnv emptyDisk).task.Status = .Running :=
  have hp : Produced (fun t => t.PID = none) (fun t => t.PID = none)
      (RunTask freshTask true okEnv emptyDisk).task :=
    Produced.run true okEnv emptyDisk (Produced.new "echo hi" .Normal "a" 5) rfl
  ⟨hp, by decide, C4_pid_present_only_while_running _ hp (by decide)⟩

/-! ## C5: exit code and status -/

theorem RunTask_exitCode_iff (t : Task) (bg : Bool) (env : RunEnv) (d : Disk)
    (h : t.ExitCode = none) :
    ((RunTask t bg env d).task.ExitCode ≠ none ↔
      ((RunTask t bg env d).task.Status = .Completed ∨
       (RunTask t bg env d).task.Status = .Failed)) ∧
    ∀ s ∈ (RunTask t bg env d).disk.since d,
      (s.ExitCode ≠ none ↔ (s.Status = .Completed ∨ s.Status = .Failed)) := by
  cases h1 : env.mkdirAll
  · simp [RunTask, h1, h, Disk.since_self]
  cases h2 : env.createStdout
  · simp [RunTask, h1, h2, h, Disk.since_self]
  cases h3 : env.createStderr
  · simp [RunTask, h1, h2, h3, h, Disk.since_self]
  cases h4 : env.saveBefore
  · simp [RunTask, Task.Save, Disk.since_failed, h1, h2, h3, h4, h, Disk.since_self]
  cases h5 : env.start with
  | none =>
    cases h6 : env.saveFailed <;>
      simp [RunTask, Task.Save, Disk.since_failed, h1, h2, h3, h4, h5, h6, h, Disk.since_write,
        Disk.since_write_write]
  | some pid =>
    cases h7 : env.savePid
    · simp [RunTask, Task.Save, Disk.since_failed, h1, h2, h3, h4, h5, h7, h, Disk.since_write]
    cases bg
    · cases h8 : env.saveFinal <;> cases h9 : env.wait <;>
        simp [RunTask, Task.Save, Disk.since_failed, finalize, h1, h2, h3, h4, h5, h7, h8, h9, h,
          Disk.since_write_write, Disk.since_write_write_write]
    · simp [RunTask, Task.Save, Disk.since_failed, h1, h2, h3, h4, h5, h7, h, Disk.since_write_write]

theorem Cancel_exitCode_iff (t : Task) (now : Nat) (saveOk torn : Bool) (d : Disk)
    (h : t.ExitCode ≠ none ↔ (t.Status = .Completed ∨ t.Status = .Failed)) :
    ((t.Cancel now saveOk torn d).2.1.ExitCode ≠ none ↔
      ((t.Cancel now saveOk torn d).2.1.Status = .Completed ∨
       (t.Cancel now saveOk torn d).2.1.Status = .Failed)) ∧
    ∀ s ∈ (t.Cancel now saveOk torn d).2.2.since d,
      (s.ExitCode ≠ none ↔ (s.Status = .Completed ∨ s.Status = .Failed)) := by
  cases hs : t.Status <;> cases saveOk <;> simp [hs] at h <;>
    simp [Task.Cancel, Task.Save, Disk.since_failed, hs, h, Disk.since_self, Disk.since_write]

theorem supervise_exitCode_iff (t : Task) (w : WaitResult) (endTime : Nat)
    (saveOk torn : Bool) (d : Disk) :
    ((supervise t w endTime saveOk torn d).1.ExitCode ≠ none ↔
      ((supervise t w endTime saveOk torn d).1.Status = .Completed ∨
       (supervise t w endTime saveOk torn d).1.Status = .Failed)) ∧
    ∀ s ∈ (supervise t w endTime saveOk torn d).2.since d,
      (s.ExitCode ≠ none ↔ (s.Status = .Completed ∨ s.Status = .Failed)) := by
  cases w <;> cases saveOk <;>
    simp [supervise, finalize, Task.Save, Disk.since_failed, Disk.since_self, Disk.since_write]

/-- C5, as stated, fails: a foreground run of the fresh task leaves it Completed with exit
code 0; running that task again (RunTask does not look at the status), in background mode,
returns nil with the task Running and its exit code still 0, in memory and on disk. -/
theorem C5_counterexample :
    (RunTask freshTask false okEnv emptyDisk).task.Status = TaskStatus.Completed ∧
    (RunTask (RunTask freshTask false okEnv emptyDisk).task true okEnv
      (RunTask freshTask false okEnv emptyDisk).disk).err = none ∧
    (RunTask (RunTask freshTask false okEnv emptyDisk).task true okEnv
      (RunTask freshTask false okEnv emptyDisk).disk).task.Status = TaskStatus.Running ∧
    (RunTask (RunTask freshTask false okEnv emptyDisk).task true okEnv
      (RunTask freshTask false okEnv emptyDisk).disk).task.ExitCode = some 0 ∧
    ((RunTask (RunTask freshTask false okEnv emptyDisk).task true okEnv
      (RunTask freshTask false okEnv emptyDisk).disk).disk.load "a").map
        (fun s => (s.Status, s.ExitCode)) = some (TaskStatus.Running, some 0) := by
  decide

/-- C5, amended: the exit code is present iff the status is Completed or Failed, for the task
returned by NewTask and for every task state produced from it by Task.Cancel, by the
supervising goroutine, and by Runner.RunTask called on a task that has no exit code, that is
one that is not already Completed or Failed (in memory on return, and in every snapshot
persisted). -/
theorem C5_exitCode_iff_completed_or_failed (t : Task)
    (h : Produced (fun t => t.ExitCode = none) (fun _ => True) t) :
    t.ExitCode ≠ none ↔ (t.Status = .Completed ∨ t.Status = .Failed) := by
  induction h with
  | new command priority taskID now => simp [NewTask]
  | cancel now saveOk torn d _ _ ih => exact (Cancel_exitCode_iff _ now saveOk torn d ih).1
  | cancelSaved now saveOk torn d _ _ hs ih => exact (Cancel_exitCode_iff _ now saveOk torn d ih).2 _ hs
  | run bg env d _ hr _ => exact (RunTask_exitCode_iff _ bg env d hr).1
  | runSaved bg env d _ hr hs _ => exact (RunTask_exitCode_iff _ bg env d hr).2 _ hs
  | supervised w endTime saveOk torn d _ _ => exact (supervise_exitCode_iff _ w endTime saveOk torn d).1
  | supervisedSaved w endTime saveOk torn d _ hs _ =>
    exact (supervise_exitCode_iff _ w endTime saveOk torn d).2 _ hs

/-- The amended C5 at the task a foreground run of the fresh task returns with, whose command
exited with code 3: it is produced, Failed, and has an exit code. -/
theorem C5_exitCode_iff_completed_or_failed_witness :
    Produced (fun t => t.ExitCode = none) (fun _ => True)
      (RunTask freshTask false { okEnv with wait := .exitError 3 } emptyDisk).task ∧
    (RunTask freshTask false { okEnv with wait := .exitError 3 } emptyDisk).task.Status
      = .Failed ∧
    (RunTask freshTask false { okEnv with wait := .exitError 3 } emptyDisk).task.ExitCode
      ≠ none :=
  have hp : Produced (fun t => t.ExitCode = none) (fun _ => True)
      (RunTask freshTask false { okEnv with wait := .exitError 3 } emptyDisk).task :=
    Produced.run false _ emptyDisk (Produced.new "echo hi" .Normal "a" 5) rfl
  ⟨hp, by decide, (C5_exitCode_iff_completed_or_failed _ hp).2 (Or.inr (by decide))⟩

/-! ## C6, C7: foreground runs -/

/-- What a foreground run does once the child has started and both later writes succeed. -/
theorem RunTask_foreground_eq (t : Task) (env : RunEnv) (d : Disk) (pid : Int)
    (hr : env.reachesStart) (hs : env.start = some pid) (hsp : env.savePid = true)
    (hsf : env.saveFinal = true) :
    RunTask t false env d =
      ⟨none,
       finalize { t with Status := .Running, StartedAt := some env.now, PID := some pid }
         env.wait env.endTime,
       ((d.write { t with Status := .Running, StartedAt := some env.now }).write
          { t with Status := .Running, StartedAt := some env.now, PID := some pid }).write
          (finalize { t with Status := .Running, StartedAt := some env.now, PID := some pid }
            env.wait env.endTime),
       false⟩ := by
  obtain ⟨h1, h2, h3, h4⟩ := hr
  simp [RunTask, Task.Save, h1, h2, h3, h4, hs, hsp, hsf]

theorem finalize_ID (t : Task) (w : WaitResult) (e : Nat) : (finalize t w e).ID = t.ID := by
  cases w <;> rfl

/-- What a run does, in either mode, when the child has started and the write of the snapshot
with the pid fails: it returns the save error with the record of the task as the failed write
left it. -/
theorem RunTask_savePid_failure_eq (t : Task) (bg : Bool) (env : RunEnv) (d : Disk) (pid : Int)
    (hr : env.reachesStart) (hs : env.start = some pid) (hsp : env.savePid = false) :
    RunTask t bg env d =
      ⟨some .saveTaskState,
       { t with Status := .Running, StartedAt := some env.now, PID := some pid },
       if env.torn then
         (d.write { t with Status := .Running, StartedAt := some env.now }).truncate t.ID
       else d.write { t with Status := .Running, StartedAt := some env.now },
       false⟩ := by
  obtain ⟨h1, h2, h3, h4⟩ := hr
  simp [RunTask, Task.Save, h1, h2, h3, h4, hs, hsp]

/-- What a foreground run does when the child has started, the snapshot with the pid is
written and the write of the final state fails. -/
theorem RunTask_saveFinal_failure_eq (t : Task) (env : RunEnv) (d : Disk) (pid : Int)
    (hr : env.reachesStart) (hs : env.start = some pid) (hsp : env.savePid = true)
    (hsf : env.saveFinal = false) :
    RunTask t false env d =
      ⟨some .saveTaskState,
       finalize { t with Status := .Running, StartedAt := some env.now, PID := some pid }
         env.wait env.endTime,
       if env.torn then
         ((d.write { t with Status := .Running, StartedAt := some env.now }).write
           { t with Status := .Running, StartedAt := some env.now, PID := some pid }).truncate
           t.ID
       else
         (d.write { t with Status := .Running, StartedAt := some env.now }).write
           { t with Status := .Running, StartedAt := some env.now, PID := some pid },
       false⟩ := by
  obtain ⟨h1, h2, h3, h4⟩ := hr
  simp [RunTask, Task.Save, h1, h2, h3, h4, hs, hsp, hsf, finalize_ID]

/-- C6, as stated, fails: the fresh task is Pending, its command starts and exits with code 0,
and yet the foreground run returns an error, because the write of the final state fails (here
at the open of the file); the persisted record is still the Running snapshot with the pid. -/
theorem C6_counterexample :
    freshTask.Status = TaskStatus.Pending ∧
    (RunTask freshTask false { okEnv with saveFinal := false } emptyDisk).err
      = some Error.saveTaskState ∧
    ((RunTask freshTask false { okEnv with saveFinal := false } emptyDisk).disk.load "a").map
      (fun s => (s.Status, s.ExitCode, s.PID))
      = some (TaskStatus.Running, none, some 4242) := by
  decide

/-- C6, amended: for every task (every Pending task in particular) whose command starts and
exits with code 0, when the writes of the task file after the start succeed,
Runner.RunTask in foreground mode returns nil with the task, and its persisted record, in
status Completed, exitCode = 0, pid = nil, startedAt set to the entry time and finishedAt set
to the end time, with finishedAt >= startedAt when the clock did not go back; every other
field is as on entry. If one of those writes fails RunTask returns the save error instead,
and no snapshot with a status other than Running has been written. -/
theorem C6_foreground_exit_zero_completed (t : Task) (env : RunEnv) (d : Disk) (pid : Int)
    (hr : env.reachesStart) (hs : env.start = some pid) (hw : env.wait = .success)
    (hclock : env.now ≤ env.endTime) :
    (env.savePid = true → env.saveFinal = true →
      (RunTask t false env d).err = none ∧
      (RunTask t false env d).task =
        { t with Status := .Completed, StartedAt := some env.now,
                 FinishedAt := some env.endTime, ExitCode := some 0, PID := none } ∧
      (RunTask t false env d).disk.load t.ID = some (RunTask t false env d).task ∧
      (∃ s f, (RunTask t false env d).task.StartedAt = some s ∧
        (RunTask t false env d).task.FinishedAt = some f ∧ s ≤ f)) ∧
    ((env.savePid = false ∨ env.saveFinal = false) →
      (RunTask t false env d).err = some .saveTaskState ∧
      ∀ s ∈ (RunTask t false env d).disk.since d, s.Status = .Running) := by
  refine ⟨?_, ?_⟩
  · intro hsp hsf
    rw [RunTask_foreground_eq t env d pid hr hs hsp hsf, hw]
    refine ⟨rfl, rfl, ?_, env.now, env.endTime, rfl, rfl, hclock⟩
    exact Disk.load_write _ (finalize _ WaitResult.success env.endTime)
  · intro hfail
    cases hsp : env.savePid
    · rw [RunTask_savePid_failure_eq t false env d pid hr hs hsp]
      simp [Disk.since_failed, Disk.since_write]
    · have hsf : env.saveFinal = false := by
        rcases hfail with h | h
        · rw [hsp] at h; cases h
        · exact h
      rw [RunTask_saveFinal_failure_eq t env d pid hr hs hsp hsf]
      simp [Disk.since_failed, Disk.since_write_write]

/-- The amended C6 at the fresh task, with the clock reading 10 on entry and 20 at the end. -/
theorem C6_foreground_exit_zero_completed_witness :
    (RunTask freshTask false okEnv emptyDisk).err = none ∧
    (RunTask freshTask false okEnv emptyDisk).task.Status = .Completed ∧
    (RunTask freshTask false okEnv emptyDisk).task.ExitCode = some 0 :=
  have h := (C6_foreground_exit_zero_completed freshTask okEnv emptyDisk 4242
    ⟨rfl, rfl, rfl, rfl⟩ rfl rfl (by decide)).1 rfl rfl
  ⟨h.1, by rw [h.2.1], by rw [h.2.1]⟩

/-- C7, as stated, fails: the fresh task is Pending, its command starts and exits with code 3,
the task in memory is Failed with exit code 3, but the write of that final state fails (here
at the open of the file), so the persisted record is still Running, with the pid and without
an exit code. -/
theorem C7_counterexample :
    freshTask.Status = TaskStatus.Pending ∧
    (RunTask freshTask false { okEnv with wait := .exitError 3, saveFinal := false }
      emptyDisk).task.ExitCode = some 3 ∧
    ((RunTask freshTask false { okEnv with wait := .exitError 3, saveFinal := false }
      emptyDisk).disk.load "a").map (fun s => (s.Status, s.ExitCode, s.PID))
      = some (TaskStatus.Running, none, some 4242) := by
  decide

/-- C7, amended: for every task (every Pending task in particular) whose command starts,
whose snapshot with the pid is written and whose wait returns an error, Runner.RunTask in
foreground mode leaves the task in memory in status Failed with pid = nil and finishedAt set
to the end time; the exit code is n when the wait error is an exit error with code n (3 for
a command that exits 3) and 1 when the wait error carries no exit code, so it is 1 only when
the error carries no exit code or carries the code 1. When the write of the final state
succeeds RunTask returns nil and the persisted record is that task. When it fails RunTask
returns the save error and only the task in memory is in that state: the persisted record is
the Running snapshot with the pid when the write failed at the open of the file, and no
longer loads when it failed after the open, which truncates the file. -/
theorem C7_foreground_exit_nonzero_failed (t : Task) (env : RunEnv) (d : Disk) (pid : Int)
    (hr : env.reachesStart) (hs : env.start = some pid) (hw : env.wait ≠ .success)
    (hsp : env.savePid = true) :
    (RunTask t false env d).task.Status = .Failed ∧
    (RunTask t false env d).task.PID = none ∧
    (RunTask t false env d).task.FinishedAt = some env.endTime ∧
    (∀ n, env.wait = .exitError n → (RunTask t false env d).task.ExitCode = some n) ∧
    (env.wait = .otherError → (RunTask t false env d).task.ExitCode = some 1) ∧
    ((RunTask t false env d).task.ExitCode = some 1 →
      env.wait = .otherError ∨ env.wait = .exitError 1) ∧
    (env.saveFinal = true →
      (RunTask t false env d).err = none ∧
      (RunTask t false env d).disk.load t.ID = some (RunTask t false env d).task) ∧
    (env.saveFinal = false →
      (RunTask t false env d).err = some .saveTaskState ∧
      (env.torn = false → (RunTask t false env d).disk.load t.ID =
        some { t with Status := .Running, StartedAt := some env.now, PID := some pid }) ∧
      (env.torn = true → (RunTask t false env d).disk.load t.ID = none)) := by
  have htask : (RunTask t false env d).task =
      finalize { t with Status := .Running, StartedAt := some env.now, PID := some pid }
        env.wait env.endTime := by
    cases hsf : env.saveFinal
    · rw [RunTask_saveFinal_failure_eq t env d pid hr hs hsp hsf]
    · rw [RunTask_foreground_eq t env d pid hr hs hsp hsf]
  rw [htask]
  refine ⟨?_, ?_, ?_, ?_, ?_, ?_, ?_, ?_⟩
  · cases hc : env.wait <;> simp_all [finalize]
  · cases hc : env.wait <;> simp [finalize]
  · cases hc : env.wait <;> simp [finalize]
  · intro n hn
    simp [hn, finalize]
  · intro hn
    simp [hn, finalize]
  · cases hc : env.wait <;> simp_all [finalize]
  · intro hsf
    rw [RunTask_foreground_eq t env d pid hr hs hsp hsf]
    refine ⟨rfl, ?_⟩
    have h := Disk.load_write
      ((d.write { t with Status := .Running, StartedAt := some env.now }).write
        { t with Status := .Running, StartedAt := some env.now, PID := some pid })
      (finalize { t with Status := .Running, StartedAt := some env.now, PID := some pid }
        env.wait env.endTime)
    rw [finalize_ID] at h
    exact h
  · intro hsf
    rw [RunTask_saveFinal_failure_eq t env d pid hr hs hsp hsf]
    refine ⟨rfl, ?_, ?_⟩
    · intro ht
      simp only [ht]
      exact Disk.load_write (d.write { t with Status := .Running, StartedAt := some env.now })
        { t with Status := .Running, StartedAt := some env.now, PID := some pid }
    · intro ht
      simp only [ht, if_true]
      exact Disk.load_truncate _ t.ID

/-- The amended C7 at the fresh task with a command that exits with code 3. -/
theorem C7_foreground_exit_nonzero_failed_witness :
    (RunTask freshTask false { okEnv with wait := .exitError 3 } emptyDisk).task.Status
      = .Failed ∧
    (RunTask freshTask false { okEnv with wait := .exitError 3 } emptyDisk).task.ExitCode
      = some 3 :=
  have h := C7_foreground_exit_nonzero_failed freshTask { okEnv with wait := .exitError 3 }
    emptyDisk 4242 ⟨rfl, rfl, rfl, rfl⟩ rfl (by decide) rfl
  ⟨h.1, h.2.2.2.1 3 rfl⟩

/-! ## C8, C9: the child process fails to start -/

/-- What a run does, in either mode, when `cmd.Start()` fails. -/
theorem RunTask_start_failure_eq (t : Task) (bg : Bool) (env : RunEnv) (d : Disk)
    (hr : env.reachesStart) (hs : env.start = none) :
    RunTask t bg env d =
      ⟨some .startCommand,
       { t with Status := .Failed, StartedAt := some env.now,
                FinishedAt := some env.endTime, ExitCode := some 1 },
       if env.saveFailed then
         (d.write { t with Status := .Running, StartedAt := some env.now }).write
           { t with Status := .Failed, StartedAt := some env.now,
                    FinishedAt := some env.endTime, ExitCode := some 1 }
       else if env.torn then
         (d.write { t with Status := .Running, StartedAt := some env.now }).truncate t.ID
       else d.write { t with Status := .Running, StartedAt := some env.now },
       false⟩ := by
  obtain ⟨h1, h2, h3, h4⟩ := hr
  cases h5 : env.saveFailed <;> simp [RunTask, Task.Save, h1, h2, h3, h4, hs, h5]

/-- C8, as stated, fails in two ways. The task a background run returns with is Running with
pid 4242; when it is run again and the child fails to start, the task is left Failed with the
pid 4242 still set. And when the fresh task fails to start and the write of the Failed state
(whose result RunTask drops) fails too, here at the open of the file, RunTask reports the
start error while the persisted record stays Running without an exit code. -/
theorem C8_counterexample :
    (RunTask (RunTask freshTask true okEnv emptyDisk).task false { okEnv with start := none }
      emptyDisk).task.Status = TaskStatus.Failed ∧
    (RunTask (RunTask freshTask true okEnv emptyDisk).task false { okEnv with start := none }
      emptyDisk).task.PID = some 4242 ∧
    (RunTask freshTask false { okEnv with start := none, saveFailed := false } emptyDisk).err
      = some Error.startCommand ∧
    ((RunTask freshTask false { okEnv with start := none, saveFailed := false }
      emptyDisk).disk.load "a").map (fun s => (s.Status, s.ExitCode))
      = some (TaskStatus.Running, none) := by
  decide

/-- C8, amended: for every task that has no pid on entry and whose child process fails to
start, Runner.RunTask (either mode) returns the start error, starts no goroutine, and leaves
the task in memory with status Failed, exitCode = 1, finishedAt set to the current time and
pid unset, every other field but startedAt as on entry; the persisted record equals that task
when the write of the Failed state succeeds (RunTask does not check it). When that write
fails the persisted record is not Failed: it is the Running snapshot written before the
start when the write failed at the open of the file, and it no longer loads when the write
failed after the open, which truncates the file. -/
theorem C8_start_failure_marks_failed (t : Task) (bg : Bool) (env : RunEnv) (d : Disk)
    (hr : env.reachesStart) (hs : env.start = none) (hpid : t.PID = none) :
    (RunTask t bg env d).err = some .startCommand ∧
    (RunTask t bg env d).spawned = false ∧
    (RunTask t bg env d).task =
      { t with Status := .Failed, StartedAt := some env.now,
               FinishedAt := some env.endTime, ExitCode := some 1 } ∧
    (RunTask t bg env d).task.PID = none ∧
    (env.saveFailed = true →
      (RunTask t bg env d).disk.load t.ID = some (RunTask t bg env d).task) ∧
    (env.saveFailed = false → env.torn = false →
      (RunTask t bg env d).disk.load t.ID =
        some { t with Status := .Running, StartedAt := some env.now }) ∧
    (env.saveFailed = false → env.torn = true →
      (RunTask t bg env d).disk.load t.ID = none) := by
  rw [RunTask_start_failure_eq t bg env d hr hs]
  refine ⟨rfl, rfl, rfl, hpid, ?_, ?_, ?_⟩
  · intro h
    simp only [h, if_true]
    exact Disk.load_write _
      { t with Status := .Failed, StartedAt := some env.now,
               FinishedAt := some env.endTime, ExitCode := some 1 }
  · intro h ht
    simp only [h, ht]
    exact Disk.load_write d { t with Status := .Running, StartedAt := some env.now }
  · intro h ht
    simp only [h, ht, if_true]
    exact Disk.load_truncate _ t.ID

/-- The amended C8 at the fresh task, in background mode. -/
theorem C8_start_failure_marks_failed_witness :
    (RunTask freshTask true { okEnv with start := none } emptyDisk).err
      = some .startCommand ∧
    (RunTask freshTask true { okEnv with start := none } emptyDisk).task.PID = none ∧
    (RunTask freshTask true { okEnv with start := none } emptyDisk).disk.load freshTask.ID
      = some (RunTask freshTask true { okEnv with start := none } emptyDisk).task :=
  have h := C8_start_failure_marks_failed freshTask true { okEnv with start := none }
    emptyDisk ⟨rfl, rfl, rfl, rfl⟩ rfl rfl
  ⟨h.1, h.2.2.2.1, h.2.2.2.2.1 rfl⟩

/-- C9, as stated, fails: when the child of the fresh task fails to start, RunTask has
persisted two snapshots, and the older one has status Running; the persisted status goes from
Pending to Running to Failed. -/
theorem C9_counterexample :
    ((RunTask freshTask false { okEnv with start := none } emptyDisk).disk.since
      emptyDisk).map Task.Status = [TaskStatus.Failed, TaskStatus.Running] := by
  decide

/-- C9, amended: when the child process fails to start, Runner.RunTask has persisted the task
with status Running once, before the start was attempted, and that snapshot has no pid when
the task had none on entry; after the failure it writes the Failed state, so the persisted
status goes from Running to Failed (no Failed snapshot is written if that last write
fails); the task in memory is Failed, not Running, when RunTask returns. -/
theorem C9_start_failure_snapshots (t : Task) (bg : Bool) (env : RunEnv) (d : Disk)
    (hr : env.reachesStart) (hs : env.start = none) :
    (RunTask t bg env d).disk.since d =
      (if env.saveFailed then
        [{ t with Status := .Failed, StartedAt := some env.now,
                  FinishedAt := some env.endTime, ExitCode := some 1 }]
       else []) ++ [{ t with Status := .Running, StartedAt := some env.now }] ∧
    (RunTask t bg env d).task.Status = .Failed ∧
    (∀ s ∈ (RunTask t bg env d).disk.since d, s.PID = t.PID) := by
  rw [RunTask_start_failure_eq t bg env d hr hs]
  cases h : env.saveFailed <;>
    simp [Disk.since_failed, Disk.since_write, Disk.since_write_write]

/-- The amended C9 at the fresh task. -/
theorem C9_start_failure_snapshots_witness :
    (RunTask freshTask false { okEnv with start := none } emptyDisk).task.Status = .Failed ∧
    ∀ s ∈ (RunTask freshTask false { okEnv with start := none } emptyDisk).disk.since
      emptyDisk, s.PID = freshTask.PID :=
  have h := C9_start_failure_snapshots freshTask false { okEnv with start := none }
    emptyDisk ⟨rfl, rfl, rfl, rfl⟩ rfl
  ⟨h.2.1, h.2.2⟩

/-! ## C10: background runs -/

/-- C10, as stated, fails: the fresh task is Pending and its command starts, but the write of
the snapshot with the pid fails (here at the open of the file), so the background run returns
an error, starts no goroutine, and the last persisted record has no pid. -/
theorem C10_counterexample :
    freshTask.Status = TaskStatus.Pending ∧
    (RunTask freshTask true { okEnv with savePid := false } emptyDisk).err
      = some Error.saveTaskState ∧
    (RunTask freshTask true { okEnv with savePid := false } emptyDisk).spawned = false ∧
    ((RunTask freshTask true { okEnv with savePid := false } emptyDisk).disk.load "a").map
      (fun s => (s.Status, s.PID)) = some (TaskStatus.Running, none) := by
  decide

/-- C10, amended: for every task without exit code and finish time (every Pending task the
operations produce is one) whose command starts successfully and whose snapshot with the pid
is written, Runner.RunTask in background mode returns nil with the supervising goroutine
started and without waiting for the process (what it returns does not depend on how or when
the process exits), and at that point the task and its last persisted record have status
Running, startedAt set to the entry time, pid equal to the process id of the child, and
neither exitCode nor finishedAt set. If that write fails RunTask returns the save error and
starts no goroutine; the only snapshot written is the one made before the start, which has
the pid the task had on entry (none for a Pending task), and the persisted record is that
snapshot when the write failed at the open of the file, and no longer loads when it failed
after the open, which truncates the file. -/
theorem C10_background_returns_running (t : Task) (env : RunEnv) (d : Disk) (pid : Int)
    (hr : env.reachesStart) (hs : env.start = some pid)
    (hx : t.ExitCode = none) (hf : t.FinishedAt = none) :
    (env.savePid = true →
      (RunTask t true env d).err = none ∧
      (RunTask t true env d).spawned = true ∧
      (RunTask t true env d).task =
        { t with Status := .Running, StartedAt := some env.now, PID := some pid } ∧
      (RunTask t true env d).disk.load t.ID = some (RunTask t true env d).task ∧
      (RunTask t true env d).disk.since d =
        [(RunTask t true env d).task,
         { t with Status := .Running, StartedAt := some env.now }] ∧
      (RunTask t true env d).task.ExitCode = none ∧
      (RunTask t true env d).task.FinishedAt = none ∧
      (∀ w e sf, RunTask t true { env with wait := w, endTime := e, saveFinal := sf } d
        = RunTask t true env d)) ∧
    (env.savePid = false →
      (RunTask t true env d).err = some .saveTaskState ∧
      (RunTask t true env d).spawned = false ∧
      (RunTask t true env d).disk.since d =
        [{ t with Status := .Running, StartedAt := some env.now }] ∧
      (∀ s ∈ (RunTask t true env d).disk.since d, s.PID = t.PID) ∧
      (env.torn = false → (RunTask t true env d).disk.load t.ID =
        some { t with Status := .Running, StartedAt := some env.now }) ∧
      (env.torn = true → (RunTask t true env d).disk.load t.ID = none)) := by
  refine ⟨?_, ?_⟩
  · intro hsp
    obtain ⟨h1, h2, h3, h4⟩ := hr
    have hw := Disk.load_write
      (d.write { t with Status := .Running, StartedAt := some env.now })
      { t with Status := .Running, StartedAt := some env.now, PID := some pid }
    have hrun : RunTask t true env d =
        ⟨none, { t with Status := .Running, StartedAt := some env.now, PID := some pid },
         (d.write { t with Status := .Running, StartedAt := some env.now }).write
           { t with Status := .Running, StartedAt := some env.now, PID := some pid },
         true⟩ := by
      simp [RunTask, Task.Save, h1, h2, h3, h4, hs, hsp]
    refine ⟨?_, ?_, ?_, ?_, ?_, ?_, ?_, ?_⟩
    · rw [hrun]
    · rw [hrun]
    · rw [hrun]
    · rw [hrun]; exact hw
    · rw [hrun]; exact Disk.since_write_write d _ _
    · rw [hrun]; exact hx
    · rw [hrun]; exact hf
    · intro w e sf
      simp [RunTask, Task.Save, h1, h2, h3, h4, hs, hsp]
  · intro hsp
    rw [RunTask_savePid_failure_eq t true env d pid hr hs hsp]
    refine ⟨rfl, rfl, ?_, ?_, ?_, ?_⟩
    · simp [Disk.since_failed, Disk.since_write]
    · simp [Disk.since_failed, Disk.since_write]
    · intro ht
      simp only [ht]
      exact Disk.load_write d { t with Status := .Running, StartedAt := some env.now }
    · intro ht
      simp only [ht, if_true]
      exact Disk.load_truncate _ t.ID

/-- The amended C10 at the fresh task. -/
theorem C10_background_returns_running_witness :
    (RunTask freshTask true okEnv emptyDisk).err = none ∧
    (RunTask freshTask true okEnv emptyDisk).spawned = true ∧
    (RunTask freshTask true okEnv emptyDisk).task.PID = some 4242 :=
  have h := (C10_background_returns_running freshTask okEnv emptyDisk 4242
    ⟨rfl, rfl, rfl, rfl⟩ rfl rfl rfl).1 rfl
  ⟨h.1, h.2.1, by rw [h.2.2.1]⟩

/-! ## C11 to C15: the queue -/

theorem priorityLess_asymm (a b : Task) (h : priorityLess a b = true) :
    priorityLess b a = false := by
  simp only [priorityLess, decide_eq_true_eq, decide_eq_false_iff_not] at *
  omega

theorem priorityLess_neg_trans (a b c : Task) (h : priorityLess a c = true) :
    priorityLess a b = true ∨ priorityLess b c = true := by
  simp only [priorityLess, decide_eq_true_eq] at *
  omega

theorem priorityLess_eq_false_iff (a b : Task) :
    priorityLess b a = false ↔ priorityOrder b.Priority ≤ priorityOrder a.Priority := by
  simp only [priorityLess, decide_eq_false_iff_not]
  omega

/-- The priority numbers of the code rank the priorities as the specification orders them:
the number of `b` is at most that of `a` exactly when `b` is not higher than `a` under
High > Normal > Low. -/
theorem priorityOrder_le_iff (a b : TaskPriority) :
    priorityOrder b ≤ priorityOrder a ↔ b.specHigherThan a = false := by
  cases a <;> cases b <;> simp [priorityOrder, TaskPriority.specHigherThan]

/-- A list ordered by the priority numbers of the code is ordered under High > Normal > Low:
no task is followed by one of a higher priority. -/
theorem ordered_spec (l : List Task)
    (h : l.Pairwise (fun a b => priorityOrder b.Priority ≤ priorityOrder a.Priority)) :
    l.Pairwise (fun a b => b.Priority.specHigherThan a.Priority = false) :=
  h.imp (fun {a b} hab => (priorityOrder_le_iff a.Priority b.Priority).1 hab)

/-- A list in which no task is followed by one of a higher priority is its High tasks, then
its Normal tasks, then its Low tasks, each group in the order it has in the list. -/
theorem ordered_eq_high_normal_low (l : List Task)
    (h : l.Pairwise (fun a b => b.Priority.specHigherThan a.Priority = false)) :
    l = l.filter (fun t => decide (t.Priority = .High)) ++
        l.filter (fun t => decide (t.Priority = .Normal)) ++
        l.filter (fun t => decide (t.Priority = .Low)) := by
  induction l with
  | nil => rfl
  | cons a l ih =>
    obtain ⟨ha, hl⟩ := List.pairwise_cons.1 h
    have ih1 := ih hl
    cases hp : a.Priority with
    | High =>
      simp only [List.filter_cons, hp, decide_True, if_true, List.cons_append]
      simp only [reduceCtorEq, decide_False, Bool.false_eq_true, if_false]
      rw [← ih1]
    | Normal =>
      have hH : l.filter (fun t => decide (t.Priority = .High)) = [] := by
        rw [List.filter_eq_nil_iff]
        intro b hb
        have := ha b hb
        rw [hp] at this
        cases hb1 : b.Priority <;> simp [hb1, TaskPriority.specHigherThan] at this ⊢
      rw [hH] at ih1
      simp only [List.filter_cons, hp, decide_True, if_true, reduceCtorEq, decide_False,
        Bool.false_eq_true, if_false, hH, List.nil_append, List.cons_append]
      rw [List.nil_append] at ih1
      rw [← ih1]
    | Low =>
      have hH : l.filter (fun t => decide (t.Priority = .High)) = [] := by
        rw [List.filter_eq_nil_iff]
        intro b hb
        have := ha b hb
        rw [hp] at this
        cases hb1 : b.Priority <;> simp [hb1, TaskPriority.specHigherThan] at this ⊢
      have hN : l.filter (fun t => decide (t.Priority = .Normal)) = [] := by
        rw [List.filter_eq_nil_iff]
        intro b hb
        have := ha b hb
        rw [hp] at this
        cases hb1 : b.Priority <;> simp [hb1, TaskPriority.specHigherThan] at this ⊢
      rw [hH, hN] at ih1
      simp only [List.filter_cons, hp, decide_True, if_true, reduceCtorEq, decide_False,
        Bool.false_eq_true, if_false, hH, hN, List.nil_append]
      rw [List.nil_append, List.nil_append] at ih1
      rw [← ih1]

/-- The tasks of a queue are in order: no task is followed by one of a greater priority
number. -/
theorem sortByPriority_ordered (S : SliceSorter) (q : Queue) :
    (q.sortByPriority S).tasks.Pairwise
      (fun a b => priorityOrder b.Priority ≤ priorityOrder a.Priority) := by
  have h := S.sorted priorityLess q.tasks priorityLess_asymm priorityLess_neg_trans
  exact h.imp (fun {a b} hab => (priorityLess_eq_false_iff a b).1 hab)

theorem Add_tasks_perm (S : SliceSorter) (q : Queue) (t : Task) :
    (q.Add S t).2.tasks.Perm (t :: q.tasks) := by
  have h := S.perm priorityLess (q.tasks ++ [t])
  exact h.trans (List.perm_append_comm.trans (List.Perm.refl _))

theorem Add_tasks_ordered (S : SliceSorter) (q : Queue) (t : Task) :
    (q.Add S t).2.tasks.Pairwise
      (fun a b => priorityOrder b.Priority ≤ priorityOrder a.Priority) :=
  sortByPriority_ordered S { tasks := q.tasks ++ [t] }

theorem take_append_drop_succ_sublist (l : List Task) (i : Nat) :
    (l.take i ++ l.drop (i + 1)).Sublist l := by
  rw [← List.eraseIdx_eq_take_drop_succ]
  exact List.eraseIdx_sublist l i

theorem Reached_ordered (S : SliceSorter) (q : Queue) (hq : Queue.Reached S q) :
    q.tasks.Pairwise (fun a b => priorityOrder b.Priority ≤ priorityOrder a.Priority) := by
  induction hq with
  | new => exact List.Pairwise.nil
  | add t _ _ => exact Add_tasks_ordered S _ t
  | @getNext q d _ ih =>
    cases hl : q.tasks with
    | nil =>
      simp only [Queue.GetNext, hl]
      rw [hl] at ih
      exact ih
    | cons a rest =>
      rw [hl] at ih
      simpa [Queue.GetNext, hl] using (List.pairwise_cons.1 ih).2
  | @remove q id _ ih =>
    cases hi : Queue.indexOfID id q.tasks with
    | none =>
      simp only [Queue.Remove, hi]
      exact ih
    | some i =>
      simp only [Queue.Remove, hi]
      exact ih.sublist (take_append_drop_succ_sublist q.tasks i)

theorem foldl_Add_perm (S : SliceSorter) (l : List Task) (q : Queue) :
    (l.foldl (fun q t => (q.Add S t).2) q).tasks.Perm (q.tasks ++ l) := by
  induction l generalizing q with
  | nil => simp
  | cons t ts ih =>
    simp only [List.foldl_cons]
    refine (ih _).trans ?_
    have h := Add_tasks_perm S q t
    refine (h.append_right ts).trans ?_
    simp only [List.cons_append]
    exact (@List.perm_middle _ t q.tasks ts).symm

theorem foldl_Add_reached (S : SliceSorter) (l : List Task) (q : Queue)
    (hq : Queue.Reached S q) : Queue.Reached S (l.foldl (fun q t => (q.Add S t).2) q) := by
  induction l generalizing q with
  | nil => exact hq
  | cons t ts ih => exact ih _ (Queue.Reached.add t hq)

/-- C11: for every queue reached from NewQueue by Add, GetNext and Remove calls, GetNext on
a non-empty queue returns a task, and the task it returns has a priority number at least that
of every task left in the queue (High 3, Normal 2, Low 1). Under High > Normal > Low no task
left in the queue has a higher priority than the task returned: when a High task was queued
the task returned is High, and when a Normal task was queued it is High or Normal. And after
three tasks of priority Low, High and Normal have been added to a new queue, in any order,
the first GetNext returns the High one. -/
theorem C11_getNext_returns_highest_priority (S : SliceSorter) (q : Queue)
    (hq : Queue.Reached S q) (d : Disk) :
    (q.tasks ≠ [] → ∃ h, (q.GetNext d).1 = some h) ∧
    (∀ h, (q.GetNext d).1 = some h →
      ∀ t ∈ (q.GetNext d).2.1.tasks, priorityOrder t.Priority ≤ priorityOrder h.Priority) ∧
    (∀ h, (q.GetNext d).1 = some h →
      (∀ t ∈ (q.GetNext d).2.1.tasks, t.Priority.specHigherThan h.Priority = false) ∧
      ((∃ t ∈ q.tasks, t.Priority = .High) → h.Priority = .High) ∧
      ((∃ t ∈ q.tasks, t.Priority = .Normal) →
        h.Priority = .High ∨ h.Priority = .Normal)) ∧
    (∀ tl th tn : Task, ∀ l : List Task, tl.Priority = .Low → th.Priority = .High →
      tn.Priority = .Normal → l.Perm [tl, th, tn] →
      ((l.foldl (fun q t => (q.Add S t).2) NewQueue).GetNext d).1 = some th) := by
  have hord := Reached_ordered S q hq
  refine ⟨?_, ?_, ?_, ?_⟩
  · intro hne
    cases hl : q.tasks with
    | nil => exact absurd hl hne
    | cons a rest => exact ⟨a, by simp [Queue.GetNext, hl]⟩
  · intro h hh t ht
    cases hl : q.tasks with
    | nil => simp [Queue.GetNext, hl] at hh
    | cons a rest =>
      rw [hl] at hord
      simp only [Queue.GetNext, hl, Option.some.injEq] at hh ht
      subst hh
      exact (List.pairwise_cons.1 hord).1 t ht
  · intro h hh
    cases hl : q.tasks with
    | nil => simp [Queue.GetNext, hl] at hh
    | cons a rest =>
      rw [hl] at hord
      simp only [Queue.GetNext, hl, Option.some.injEq] at hh ⊢
      subst hh
      have hrest := (List.pairwise_cons.1 (ordered_spec _ hord)).1
      refine ⟨hrest, ?_, ?_⟩
      · rintro ⟨t, ht, htp⟩
        rcases List.mem_cons.1 ht with h1 | h1
        · rw [← h1]; exact htp
        · have h2 := hrest t h1
          rw [htp] at h2
          cases hp : a.Priority <;> simp [hp, TaskPriority.specHigherThan] at h2 ⊢
      · rintro ⟨t, ht, htp⟩
        rcases List.mem_cons.1 ht with h1 | h1
        · rw [← h1]; exact Or.inr htp
        · have h2 := hrest t h1
          rw [htp] at h2
          cases hp : a.Priority <;> simp [hp, TaskPriority.specHigherThan] at h2 ⊢
  · intro tl th tn l hl hh hn hperm
    have hp : (l.foldl (fun q t => (q.Add S t).2) NewQueue).tasks.Perm [tl, th, tn] := by
      have h1 := foldl_Add_perm S l NewQueue
      simp only [NewQueue, List.nil_append] at h1
      exact h1.trans hperm
    have ho := Reached_ordered S _ (foldl_Add_reached S l NewQueue Queue.Reached.new)
    cases hr : (l.foldl (fun q t => (q.Add S t).2) NewQueue).tasks with
    | nil =>
      rw [hr] at hp
      exact absurd hp.length_eq (by simp)
    | cons a rest =>
      rw [hr] at hp ho
      have hth : th ∈ a :: rest := hp.mem_iff.2 (by simp)
      have ha : a ∈ [tl, th, tn] := hp.mem_iff.1 (by simp)
      have hmax : priorityOrder th.Priority ≤ priorityOrder a.Priority := by
        rcases List.mem_cons.1 hth with h1 | h1
        · rw [h1]
        · exact (List.pairwise_cons.1 ho).1 th h1
      have hahigh : a.Priority = .High := by
        rw [hh] at hmax
        cases hpa : a.Priority <;> simp [hpa, priorityOrder] at hmax ⊢
      have hath : a = th := by
        simp only [List.mem_cons, List.mem_singleton, List.not_mem_nil, or_false] at ha
        rcases ha with h1 | h1 | h1
        · rw [h1, hl] at hahigh; cases hahigh
        · exact h1
        · rw [h1, hn] at hahigh; cases hahigh
      simp [Queue.GetNext, hr, hath]

/-- C11 at the queue built by adding the tasks "l" (Low), "h" (High) and "n" (Normal) in that
order, with insertion sort as `sort.Slice`: the queue is reached, and GetNext returns "h". -/
theorem C11_getNext_returns_highest_priority_witness :
    Queue.Reached insertionSorter
      ([lowTask, highTask, normalTask].foldl (fun q t => (q.Add insertionSorter t).2)
        NewQueue) ∧
    (([lowTask, highTask, normalTask].foldl (fun q t => (q.Add insertionSorter t).2)
        NewQueue).GetNext emptyDisk).1 = some highTask :=
  have hr := foldl_Add_reached insertionSorter [lowTask, highTask, normalTask] NewQueue
    Queue.Reached.new
  ⟨hr, (C11_getNext_returns_highest_priority insertionSorter _ hr emptyDisk).2.2.2
    lowTask highTask normalTask [lowTask, highTask, normalTask] rfl rfl rfl
    (List.Perm.refl _)⟩

/-- C12: for every queue and every task t, Add(t) returns nil, the resulting list is a
rearrangement of t together with the previous list (nothing lost, nothing duplicated), and in
it no task is followed by one of a greater priority number. Under High > Normal > Low no task
is followed by one of a higher priority: the list is its High tasks, then its Normal tasks,
then its Low tasks. -/
theorem C12_add_inserts_and_sorts (S : SliceSorter) (q : Queue) (t : Task) :
    (q.Add S t).1 = none ∧
    (q.Add S t).2.tasks.Perm (t :: q.tasks) ∧
    (q.Add S t).2.tasks.Pairwise
      (fun a b => priorityOrder b.Priority ≤ priorityOrder a.Priority) ∧
    (q.Add S t).2.tasks.Pairwise
      (fun a b => b.Priority.specHigherThan a.Priority = false) ∧
    (q.Add S t).2.tasks =
      (q.Add S t).2.tasks.filter (fun t => decide (t.Priority = .High)) ++
      (q.Add S t).2.tasks.filter (fun t => decide (t.Priority = .Normal)) ++
      (q.Add S t).2.tasks.filter (fun t => decide (t.Priority = .Low)) :=
  ⟨rfl, Add_tasks_perm S q t, Add_tasks_ordered S q t,
    ordered_spec _ (Add_tasks_ordered S q t),
    ordered_eq_high_normal_low _ (ordered_spec _ (Add_tasks_ordered S q t))⟩

/-- C13: on a queue whose list is h followed by rest, GetNext returns h itself, the list
becomes rest in the same order, and the disk is as it was; on an empty queue GetNext returns
nil, and the queue and the disk are as they were. -/
theorem C13_getNext_pops_head_in_memory (h : Task) (rest : List Task) (d : Disk) :
    Queue.GetNext { tasks := h :: rest } d = (some h, { tasks := rest }, d) ∧
    (Queue.GetNext { tasks := h :: rest } d).2.1.List = rest ∧
    Queue.GetNext { tasks := [] } d = (none, { tasks := [] }, d) :=
  ⟨rfl, rfl, rfl⟩


theorem tasks_split_at_first_ID (id : String) (l : List Task) (h : ∃ t ∈ l, t.ID = id) :
    ∃ pre x post, l = pre ++ x :: post ∧ x.ID = id ∧ ∀ y ∈ pre, y.ID ≠ id := by
  induction l with
  | nil => simp at h
  | cons a l ih =>
    by_cases ha : a.ID = id
    · exact ⟨[], a, l, rfl, ha, by simp⟩
    · have h1 : ∃ t ∈ l, t.ID = id := by
        obtain ⟨t, ht, hid⟩ := h
        rcases List.mem_cons.1 ht with h2 | h2
        · rw [h2] at hid; exact absurd hid ha
        · exact ⟨t, h2, hid⟩
      obtain ⟨pre, x, post, hl, hx, hpre⟩ := ih h1
      refine ⟨a :: pre, x, post, by rw [hl]; rfl, hx, ?_⟩
      intro y hy
      rcases List.mem_cons.1 hy with h2 | h2
      · rw [h2]; exact ha
      · exact hpre y h2

theorem indexOfID_first (id : String) (pre : List Task) (x : Task) (post : List Task)
    (hx : x.ID = id) (hpre : ∀ y ∈ pre, y.ID ≠ id) :
    Queue.indexOfID id (pre ++ x :: post) = some pre.length := by
  induction pre with
  | nil => simp [Queue.indexOfID, hx]
  | cons a pre ih =>
    have ha : a.ID ≠ id := hpre a (by simp)
    have h1 := ih (fun y hy => hpre y (List.mem_cons_of_mem a hy))
    simp [Queue.indexOfID, ha, h1]

theorem indexOfID_absent (id : String) (l : List Task) (h : ∀ y ∈ l, y.ID ≠ id) :
    Queue.indexOfID id l = none := by
  induction l with
  | nil => rfl
  | cons a l ih =>
    have ha : a.ID ≠ id := h a (by simp)
    have h1 := ih (fun y hy => h y (List.mem_cons_of_mem a hy))
    simp [Queue.indexOfID, ha, h1]

/-- C14: when some queued task has the ID, Remove returns nil and the list becomes the
previous list without the first task of that ID, the tasks before it and the tasks after it
kept in their order; when no queued task has the ID, Remove returns the not-found error and
the queue is as it was. -/
theorem C14_remove_first_with_id (q : Queue) (id : String) :
    ((∃ t ∈ q.tasks, t.ID = id) →
      ∃ pre x post, q.tasks = pre ++ x :: post ∧ x.ID = id ∧ (∀ y ∈ pre, y.ID ≠ id) ∧
        q.Remove id = (none, { tasks := pre ++ post })) ∧
    ((∀ t ∈ q.tasks, t.ID ≠ id) → q.Remove id = (some (.notFound id), q)) := by
  refine ⟨?_, ?_⟩
  · intro h
    obtain ⟨pre, x, post, hl, hx, hpre⟩ := tasks_split_at_first_ID id q.tasks h
    refine ⟨pre, x, post, hl, hx, hpre, ?_⟩
    have hi := indexOfID_first id pre x post hx hpre
    simp [Queue.Remove, hl, hi]
  · intro h
    simp [Queue.Remove, indexOfID_absent id q.tasks h]

theorem foldl_pending_perm (S : SliceSorter) (l : List Task) (q : Queue) :
    (l.foldl (fun queue t => if t.Status = .Pending then (queue.Add S t).2 else queue)
      q).tasks.Perm (q.tasks ++ l.filter (fun t => decide (t.Status = .Pending))) := by
  induction l generalizing q with
  | nil => simp
  | cons t ts ih =>
    simp only [List.foldl_cons]
    by_cases ht : t.Status = .Pending
    · simp only [ht, if_true, List.filter_cons, decide_True]
      refine (ih _).trans ?_
      refine ((Add_tasks_perm S q t).append_right _).trans ?_
      simp only [List.cons_append]
      exact (@List.perm_middle _ t q.tasks _).symm
    · simp only [ht, if_false, List.filter_cons, decide_False]
      exact ih q

theorem foldl_pending_ordered (S : SliceSorter) (l : List Task) (q : Queue)
    (hq : q.tasks.Pairwise (fun a b => priorityOrder b.Priority ≤ priorityOrder a.Priority)) :
    (l.foldl (fun queue t => if t.Status = .Pending then (queue.Add S t).2 else queue)
      q).tasks.Pairwise (fun a b => priorityOrder b.Priority ≤ priorityOrder a.Priority) := by
  induction l generalizing q with
  | nil => exact hq
  | cons t ts ih =>
    simp only [List.foldl_cons]
    by_cases ht : t.Status = .Pending
    · simp only [ht, if_true]
      exact ih _ (Add_tasks_ordered S q t)
    · simp only [ht, if_false]
      exact ih q hq

/-- C15: when the listing of the tasks directory succeeds, LoadQueue returns a queue whose
tasks are the tasks of that listing with status Pending, each as often as the listing has it
and none of another status, and in the queue no task is followed by one of a greater priority
number. Under High > Normal > Low no task of the queue is followed by one of a higher
priority: the queue is its High tasks, then its Normal tasks, then its Low tasks. -/
theorem C15_loadQueue_pending_by_priority (S : SliceSorter) (readDir : Bool)
    (files : List DirEntry) (tasks : List Task) (h : ListTasks readDir files = .ok tasks) :
    ∃ q, LoadQueue S readDir files = .ok q ∧
      q.tasks.Perm (tasks.filter (fun t => decide (t.Status = .Pending))) ∧
      (∀ t ∈ q.tasks, t ∈ tasks ∧ t.Status = .Pending) ∧
      q.tasks.Pairwise (fun a b => priorityOrder b.Priority ≤ priorityOrder a.Priority) ∧
      q.tasks.Pairwise (fun a b => b.Priority.specHigherThan a.Priority = false) ∧
      q.tasks = q.tasks.filter (fun t => decide (t.Priority = .High)) ++
        q.tasks.filter (fun t => decide (t.Priority = .Normal)) ++
        q.tasks.filter (fun t => decide (t.Priority = .Low)) := by
  have hp : (tasks.foldl (fun queue t =>
      if t.Status = .Pending then (queue.Add S t).2 else queue) NewQueue).tasks.Perm
      (tasks.filter (fun t => decide (t.Status = .Pending))) :=
    foldl_pending_perm S tasks NewQueue
  have ho := foldl_pending_ordered S tasks NewQueue List.Pairwise.nil
  refine ⟨_, by simp only [LoadQueue, h], hp, ?_, ho, ordered_spec _ ho,
    ordered_eq_high_normal_low _ (ordered_spec _ ho)⟩
  intro t ht
  have := hp.mem_iff.1 ht
  simpa [List.mem_filter] using this

/-- C15 at the sample directory: the listing has the Low, the High and the Completed task,
and the queue loaded with insertion sort has the High task, then the Low task. -/
theorem C15_loadQueue_pending_by_priority_witness :
    ListTasks true sampleDir = .ok [lowTask, highTask, completedTask] ∧
    ∃ q, LoadQueue insertionSorter true sampleDir = .ok q ∧
      q.tasks.Perm ([lowTask, highTask, completedTask].filter
        (fun t => decide (t.Status = .Pending))) :=
  have h : ListTasks true sampleDir = .ok [lowTask, highTask, completedTask] := rfl
  have h1 := C15_loadQueue_pending_by_priority insertionSorter true sampleDir _ h
  ⟨h, h1.choose, h1.choose_spec.1, h1.choose_spec.2.1⟩


/-! ## C16 to C19: Storage -/

/-- C16: for every task t, when Storage.SaveTask(t) has returned nil, Storage.LoadTask(t.ID)
on the state it left returns a task that is t in every field but the priority, which is
Normal whatever the priority of t was; and the load changes nothing. -/
theorem C16_save_then_load_resets_priority (s : Storage) (t : Task)
    (mkdirAll writeFile torn : Bool) (s1 : Storage)
    (h : s.SaveTask t mkdirAll writeFile torn = .returned none s1) :
    s1.LoadTask t.ID = .returned (.ok { t with Priority := .Normal }) s1 := by
  cases hl : s.locked <;> cases mkdirAll <;> cases writeFile <;> cases torn <;>
    simp [Storage.SaveTask, Storage.Lock, Storage.Unlock, hl] at h
  all_goals
    subst h
    simp [Storage.LoadTask, Storage.Lock, Storage.Unlock]

/-- C16 at the High task saved into the sample storage: it comes back with priority
Normal. -/
theorem C16_save_then_load_resets_priority_witness :
    ∃ s1, sampleStorage.SaveTask highTask true true false = .returned none s1 ∧
      s1.LoadTask "h" = .returned (.ok { highTask with Priority := .Normal }) s1 :=
  ⟨_, rfl, C16_save_then_load_resets_priority sampleStorage highTask true true false _ rfl⟩

/-- With the mutex held, the loop of ListTasks blocks at the first `.json` file, in
`s.LoadTask`; it gets through only when there is no such file. -/
theorem listTasksLoop_locked (files : List MetadataFile) (tasks : List Task) (s : Storage)
    (h : s.locked = true) :
    Storage.listTasksLoop files tasks s =
      if files.any (fun f => f.ext == ".json") then .blocked s else .returned tasks s := by
  induction files with
  | nil => simp [Storage.listTasksLoop]
  | cons f files ih =>
    by_cases hf : f.ext = ".json"
    · simp [Storage.listTasksLoop, Storage.LoadTask, Storage.Lock, h, hf]
    · simp [Storage.listTasksLoop, hf, ih]

/-- Storage.ListTasks, called with the mutex free on a directory that has a `.json` file,
never returns: it waits for the mutex it holds itself. -/
theorem ListTasks_blocks (s : Storage) (h : s.locked = false)
    (hf : ∃ f ∈ s.files, f.ext = ".json") :
    s.ListTasks true true = .blocked { s with locked := true } := by
  have hany : s.files.any (fun f => f.ext == ".json") = true := by
    obtain ⟨f, hfm, hfe⟩ := hf
    exact List.any_eq_true.2 ⟨f, hfm, by simp [hfe]⟩
  have hloop := listTasksLoop_locked s.files [] { s with locked := true } rfl
  simp only [hany, if_true] at hloop
  simp [Storage.ListTasks, Storage.Lock, h, hloop]

/-- Storage.ListTasks called with the mutex held waits for it. -/
theorem ListTasks_locked (s : Storage) (mkdirAll readDir : Bool) (h : s.locked = true) :
    s.ListTasks mkdirAll readDir = .blocked s := by
  simp [Storage.ListTasks, Storage.Lock, h]

/-- Storage.CleanupOldTasks never returns: called with the mutex free it takes the mutex and
then waits for it in `s.ListTasks()`; called with the mutex held it waits at once. -/
theorem CleanupOldTasks_blocks (s : Storage) (age : Int) (now : Nat)
    (mkdirAll readDir : Bool) :
    s.CleanupOldTasks age now mkdirAll readDir = .blocked { s with locked := true } := by
  cases hl : s.locked
  · have h1 := ListTasks_locked { s with locked := true } mkdirAll readDir rfl
    simp [Storage.CleanupOldTasks, Storage.Lock, hl, h1]
  · have hs : ({ s with locked := true } : Storage) = s := by
      cases s; simp_all
    simp [Storage.CleanupOldTasks, Storage.Lock, hl, hs]

/-- C17 fails on the sample storage, whose mutex is free and whose directory holds two records
that parse: Storage.ListTasks does not return a list of two tasks, it never returns. It takes
the mutex and then calls `s.LoadTask` for the first record, which waits for that mutex. -/
theorem C17_listTasks_never_returns :
    sampleStorage.locked = false ∧
    sampleStorage.ListTasks true true = .blocked { sampleStorage with locked := true } :=
  ⟨rfl, rfl⟩

/-- C18 fails on the sample storage with the clock at 10800 and an age of 3600 (one hour, in
seconds): the Completed task "old" finished two hours ago, and Storage.CleanupOldTasks does
not delete its record or its log files; it never returns, and the directory and the logs are
as they were. -/
theorem C18_cleanup_never_returns :
    sampleStorage.CleanupOldTasks 3600 10800 true true
      = .blocked { sampleStorage with locked := true } ∧
    (sampleStorage.CleanupOldTasks 3600 10800 true true).state.files = sampleStorage.files ∧
    (sampleStorage.CleanupOldTasks 3600 10800 true true).state.logs = sampleStorage.logs :=
  ⟨rfl, rfl, rfl⟩

/-- The sweep loop passes over a task that is Running or has no finish time, whatever the
age and the state. -/
theorem cleanupLoop_skips (age : Int) (now : Nat) (tasks : List Task) (s : Storage)
    (h : ∀ t ∈ tasks, t.Status = .Running ∨ t.FinishedAt = none) :
    Storage.cleanupLoop age now tasks s = .returned () s := by
  induction tasks with
  | nil => rfl
  | cons t tasks ih =>
    have ih1 := ih (fun u hu => h u (List.mem_cons_of_mem t hu))
    rcases h t (by simp) with ht | ht
    · simp [Storage.cleanupLoop, ht, ih1]
    · by_cases hr : t.Status = .Running
      · simp [Storage.cleanupLoop, hr, ih1]
      · simp [Storage.cleanupLoop, hr, ht, ih1]

/-- C19: for every age (zero and negative ones too), every clock reading and every storage
state, Storage.CleanupOldTasks leaves every file of the tasks directory and every log file
as it was, so in particular the record and the logs of every task that is Running or has no
finishedAt; and its sweep loop, run from any state on tasks that are Running or have no
finishedAt, deletes nothing. -/
theorem C19_cleanup_keeps_running_and_unfinished (s : Storage) (age : Int) (now : Nat)
    (mkdirAll readDir : Bool) :
    (s.CleanupOldTasks age now mkdirAll readDir).state.files = s.files ∧
    (s.CleanupOldTasks age now mkdirAll readDir).state.logs = s.logs ∧
    (∀ (tasks : List Task) (s0 : Storage),
      (∀ t ∈ tasks, t.Status = .Running ∨ t.FinishedAt = none) →
      Storage.cleanupLoop age now tasks s0 = .returned () s0) := by
  rw [CleanupOldTasks_blocks]
  exact ⟨rfl, rfl, fun tasks s0 h => cleanupLoop_skips age now tasks s0 h⟩


/-! ## C20: CreateGroup -/

theorem filterMap_eq_of_forall_mem {α β : Type} (f g : α → Option β) (l : List α)
    (h : ∀ x ∈ l, f x = g x) : l.filterMap f = l.filterMap g := by
  induction l with
  | nil => rfl
  | cons a l ih =>
    have ha := h a (by simp)
    have hl := ih (fun x hx => h x (List.mem_cons_of_mem a hx))
    simp [List.filterMap_cons, ha, hl]

/-- The listing of `os.ReadDir` holds the files of the directory, each as often as the
directory has it. -/
theorem readDir_perm (gm : GroupManager) : gm.readDir.Perm gm.files :=
  List.perm_insertionSort _ gm.files

/-- The groups that ListGroups returns are, up to their order, the groups that the `.json`
files of the directory load to. -/
theorem ListGroups_perm (gm : GroupManager) (groups : List Group)
    (hl : gm.ListGroups true true = .ok groups) :
    groups.Perm (gm.files.filterMap (fun file =>
      if file.ext != ".json" then none
      else match gm.loadGroup file.stem with
        | .ok group => some group
        | .error _ => none)) := by
  simp only [GroupManager.ListGroups, Bool.not_true, Bool.false_eq_true, if_false,
    Except.ok.injEq] at hl
  subst hl
  exact (readDir_perm gm).filterMap _

theorem filter_fresh (gm : GroupManager) (id : String)
    (hfresh : ∀ f ∈ gm.files, f.ext = ".json" → f.stem ≠ id) :
    gm.files.filter (fun f => !(f.stem == id && f.ext == ".json")) = gm.files := by
  rw [List.filter_eq_self]
  intro f hf
  by_cases he : f.ext = ".json"
  · simp [hfresh f hf he]
  · simp [he]

/-- Writing the file of a group whose ID is not the name of a `.json` file yet adds that
group to the listing, and every group listed before is still listed. -/
theorem ListGroups_after_saveGroup (gm : GroupManager) (g : Group) (groups : List Group)
    (torn : Bool) (hl : gm.ListGroups true true = .ok groups)
    (hfresh : ∀ f ∈ gm.files, f.ext = ".json" → f.stem ≠ g.ID) :
    ∃ groups1, (gm.saveGroup g true true torn).2.ListGroups true true = .ok groups1 ∧
      groups1.Perm (g :: groups) := by
  refine ⟨_, rfl, ?_⟩
  refine (ListGroups_perm _ _ rfl).trans ?_
  have hsave : (gm.saveGroup g true true torn).2 =
      { files := ⟨g.ID, ".json", some g⟩ :: gm.files } := by
    have hf := filter_fresh gm g.ID hfresh
    simp only [GroupManager.saveGroup, Bool.not_true, Bool.not_false, Bool.false_eq_true,
      if_false, if_true, hf]
  rw [hsave]
  rw [List.filterMap_cons]
  have hnew : (GroupManager.loadGroup
      { files := ⟨g.ID, ".json", some g⟩ :: gm.files } g.ID) = .ok g := by
    simp [GroupManager.loadGroup]
  simp only [hnew, bne_self_eq_false, Bool.false_eq_true, if_false]
  refine List.Perm.cons g ?_
  refine List.Perm.trans ?_ (ListGroups_perm gm groups hl).symm
  refine List.Perm.of_eq ?_
  apply filterMap_eq_of_forall_mem
  intro f hf
  by_cases he : f.ext = ".json"
  · have hne : ¬ (g.ID = f.stem) := fun h => hfresh f hf he h.symm
    simp [GroupManager.loadGroup, he, hne]
  · simp [he]

/-- A write of the file of a group that fails after the open, when the ID of the group is
not the name of a `.json` file yet, leaves a file that does not load: the groups listed are
those listed before. -/
theorem ListGroups_after_torn_saveGroup (gm : GroupManager) (g : Group)
    (groups : List Group) (hl : gm.ListGroups true true = .ok groups)
    (hfresh : ∀ f ∈ gm.files, f.ext = ".json" → f.stem ≠ g.ID) :
    ∃ groups1, (gm.saveGroup g true false true).2.ListGroups true true = .ok groups1 ∧
      groups1.Perm groups := by
  refine ⟨_, rfl, ?_⟩
  refine (ListGroups_perm _ _ rfl).trans ?_
  have hsave : (gm.saveGroup g true false true).2 =
      { files := ⟨g.ID, ".json", none⟩ :: gm.files } := by
    have hf := filter_fresh gm g.ID hfresh
    simp only [GroupManager.saveGroup, Bool.not_true, Bool.not_false, Bool.false_eq_true,
      if_false, if_true, hf]
  rw [hsave]
  rw [List.filterMap_cons]
  have hnew : (GroupManager.loadGroup
      { files := ⟨g.ID, ".json", none⟩ :: gm.files } g.ID) = .error .unmarshalGroup := by
    simp [GroupManager.loadGroup]
  simp only [hnew, bne_self_eq_false, Bool.false_eq_true, if_false]
  refine List.Perm.trans ?_ (ListGroups_perm gm groups hl).symm
  refine List.Perm.of_eq ?_
  apply filterMap_eq_of_forall_mem
  intro f hf
  by_cases he : f.ext = ".json"
  · have hne : ¬ (g.ID = f.stem) := fun h => hfresh f hf he h.symm
    simp [GroupManager.loadGroup, he, hne]
  · simp [he]

/-- C20, as stated, fails: the groups directory is empty, so no persisted group has the name
"nightly", and yet CreateGroup returns an error, because the write of the group file fails
(here at the open of the file); nothing is persisted. -/
theorem C20_counterexample :
    emptyManager.ListGroups true true = .ok [] ∧
    emptyManager.CreateGroup "nightly" "g1" { okGroupEnv with saveWriteFile := false }
      = (.error .saveGroup, emptyManager) :=
  ⟨rfl, rfl⟩

/-- C20, amended: CreateGroup(name) returns an error iff listing the groups fails, or a listed
group already has exactly that name (names that differ, if only in case, do not collide), or
writing the group file fails. In the first two cases the directory is unchanged; when the
write fails the directory is unchanged if the write failed before or at the open of the
file, and in any case, the ID being fresh, the groups listed afterwards are those listed
before (a write that fails after the open leaves a file that does not load). Otherwise it
returns a new group with that name, the ID that `uuid.New` gave and an empty member list,
and that group is persisted under its ID; when the ID is fresh, the groups listed
afterwards are, up to their order, the new group and the groups listed before, and if no
two listed groups shared a name before, none do afterwards. -/
theorem C20_createGroup_unique_names (gm : GroupManager) (name newID : String)
    (env : GroupEnv) :
    ((env.listMkdirAll = false ∨ env.listReadDir = false) →
      gm.CreateGroup name newID env = (.error .listGroups, gm)) ∧
    (∀ groups, gm.ListGroups env.listMkdirAll env.listReadDir = .ok groups →
      ((∃ g ∈ groups, g.Name = name) →
        gm.CreateGroup name newID env = (.error (.alreadyExists name), gm)) ∧
      ((∀ g ∈ groups, g.Name ≠ name) →
        (env.saveMkdirAll = false ∨ env.saveWriteFile = false) →
        (gm.CreateGroup name newID env).1 = .error .saveGroup ∧
        ((env.saveMkdirAll = false ∨ env.torn = false) →
          (gm.CreateGroup name newID env).2 = gm) ∧
        ((∀ f ∈ gm.files, f.ext = ".json" → f.stem ≠ newID) →
          ∃ groups1, (gm.CreateGroup name newID env).2.ListGroups true true = .ok groups1 ∧
            groups1.Perm groups)) ∧
      ((∀ g ∈ groups, g.Name ≠ name) → env.saveMkdirAll = true → env.saveWriteFile = true →
        (gm.CreateGroup name newID env).1 = .ok { ID := newID, Name := name, TaskIDs := [] } ∧
        (gm.CreateGroup name newID env).2.loadGroup newID
          = .ok { ID := newID, Name := name, TaskIDs := [] } ∧
        ((∀ f ∈ gm.files, f.ext = ".json" → f.stem ≠ newID) →
          ∃ groups1, (gm.CreateGroup name newID env).2.ListGroups true true = .ok groups1 ∧
            groups1.Perm ({ ID := newID, Name := name, TaskIDs := [] } :: groups) ∧
            ((groups.map Group.Name).Nodup → (groups1.map Group.Name).Nodup)))) := by
  refine ⟨?_, ?_⟩
  · rintro (h | h)
    · simp [GroupManager.CreateGroup, GroupManager.ListGroups, h]
    · cases hm : env.listMkdirAll <;>
        simp [GroupManager.CreateGroup, GroupManager.ListGroups, h, hm]
  · intro groups hl
    have hboth : env.listMkdirAll = true ∧ env.listReadDir = true := by
      cases hm : env.listMkdirAll <;> cases hr : env.listReadDir <;>
        simp [GroupManager.ListGroups, hm, hr] at hl
      exact ⟨rfl, rfl⟩
    have hl1 : gm.ListGroups true true = .ok groups := by
      rw [hboth.1, hboth.2] at hl; exact hl
    refine ⟨?_, ?_, ?_⟩
    · intro hex
      have hany : groups.any (fun g => g.Name == name) = true := by
        obtain ⟨g, hg, hn⟩ := hex
        exact List.any_eq_true.2 ⟨g, hg, by simp [hn]⟩
      simp [GroupManager.CreateGroup, hl, hany]
    · intro hno hfail
      have hany : groups.any (fun g => g.Name == name) = false := by
        rw [Bool.eq_false_iff]
        intro h
        obtain ⟨g, hg, hn⟩ := List.any_eq_true.1 h
        exact hno g hg (by simpa using hn)
      cases hm : env.saveMkdirAll
      · have hcreate : gm.CreateGroup name newID env = (.error .saveGroup, gm) := by
          simp [GroupManager.CreateGroup, hl, hany, GroupManager.saveGroup, hm]
        rw [hcreate]
        exact ⟨rfl, fun _ => rfl, fun _ => ⟨groups, hl1, List.Perm.refl _⟩⟩
      · have hw : env.saveWriteFile = false := by
          rcases hfail with h | h
          · rw [hm] at h; cases h
          · exact h
        cases ht : env.torn
        · have hcreate : gm.CreateGroup name newID env = (.error .saveGroup, gm) := by
            simp [GroupManager.CreateGroup, hl, hany, GroupManager.saveGroup, hm, hw, ht]
          rw [hcreate]
          exact ⟨rfl, fun _ => rfl, fun _ => ⟨groups, hl1, List.Perm.refl _⟩⟩
        · have hcreate : gm.CreateGroup name newID env =
              (.error .saveGroup,
               (gm.saveGroup { ID := newID, Name := name, TaskIDs := [] }
                 true false true).2) := by
            simp [GroupManager.CreateGroup, hl, hany, GroupManager.saveGroup, hm, hw, ht]
          rw [hcreate]
          refine ⟨rfl, ?_, ?_⟩
          · rintro (h | h) <;> cases h
          · intro hfresh
            exact ListGroups_after_torn_saveGroup gm _ groups hl1 hfresh
    · intro hno hm hw
      have hany : groups.any (fun g => g.Name == name) = false := by
        rw [Bool.eq_false_iff]
        intro h
        obtain ⟨g, hg, hn⟩ := List.any_eq_true.1 h
        exact hno g hg (by simpa using hn)
      have hcreate : gm.CreateGroup name newID env =
          (.ok { ID := newID, Name := name, TaskIDs := [] },
           (gm.saveGroup { ID := newID, Name := name, TaskIDs := [] } true true env.torn).2) := by
        simp [GroupManager.CreateGroup, hl, hany, GroupManager.saveGroup, hm, hw]
      rw [hcreate]
      refine ⟨rfl, ?_, ?_⟩
      · simp [GroupManager.saveGroup, GroupManager.loadGroup]
      · intro hfresh
        obtain ⟨groups1, hl2, hperm⟩ :=
          ListGroups_after_saveGroup gm { ID := newID, Name := name, TaskIDs := [] } groups
            env.torn hl1 hfresh
        refine ⟨groups1, hl2, hperm, ?_⟩
        intro hnd
        rw [(hperm.map Group.Name).nodup_iff]
        simp only [List.map_cons]
        refine List.Nodup.cons ?_ hnd
        intro hmem
        obtain ⟨g, hg, hn⟩ := List.mem_map.1 hmem
        exact hno g hg hn

/-- The amended C20 on the directory that holds the group "nightly": a second "nightly" is
refused and nothing changes, and "Nightly" is created next to it; the listing has the file
"g1.json" before the file "g2.json". -/
theorem C20_createGroup_unique_names_witness :
    nightlyManager.CreateGroup "nightly" "g2" okGroupEnv
      = (.error (.alreadyExists "nightly"), nightlyManager) ∧
    (nightlyManager.CreateGroup "Nightly" "g2" okGroupEnv).2.ListGroups true true
      = .ok [{ ID := "g1", Name := "nightly", TaskIDs := [] },
             { ID := "g2", Name := "Nightly", TaskIDs := [] }] ∧
    ∃ groups1,
      (nightlyManager.CreateGroup "Nightly" "g2" okGroupEnv).2.ListGroups true true
        = .ok groups1 ∧
      groups1.Perm [{ ID := "g2", Name := "Nightly", TaskIDs := [] },
                    { ID := "g1", Name := "nightly", TaskIDs := [] }] :=
  have h := (C20_createGroup_unique_names nightlyManager "nightly" "g2" okGroupEnv).2
    [{ ID := "g1", Name := "nightly", TaskIDs := [] }] rfl
  have h2 := (C20_createGroup_unique_names nightlyManager "Nightly" "g2" okGroupEnv).2
    [{ ID := "g1", Name := "nightly", TaskIDs := [] }] rfl
  have h3 := (h2.2.2 (by decide) rfl rfl).2.2 (by decide)
  ⟨h.1 ⟨_, List.mem_singleton.2 rfl, rfl⟩, rfl,
   h3.choose, h3.choose_spec.1, h3.choose_spec.2.1⟩


/-! ## C26: the Storage mutex -/

/-- Storage.SaveTask, called with the mutex free, returns with the mutex released. -/
theorem SaveTask_returns_unlocked (s : Storage) (t : Task) (mkdirAll writeFile torn : Bool)
    (h : s.locked = false) :
    ∃ e s1, s.SaveTask t mkdirAll writeFile torn = .returned e s1 ∧ s1.locked = false := by
  cases mkdirAll <;> cases writeFile <;> cases torn <;>
    simp only [Storage.SaveTask, Storage.Lock, Storage.Unlock, h] <;>
    exact ⟨_, _, rfl, rfl⟩

/-- Storage.LoadTask, called with the mutex free, returns with the mutex released. -/
theorem LoadTask_returns_unlocked (s : Storage) (id : String) (h : s.locked = false) :
    ∃ r s1, s.LoadTask id = .returned r s1 ∧ s1.locked = false := by
  cases hf : List.find? (fun f => f.stem == id && f.ext == ".json") s.files with
  | none =>
    simp [Storage.LoadTask, Storage.Lock, h, hf, Storage.Unlock]
    exact ⟨_, _, ⟨rfl, rfl⟩, rfl⟩
  | some f =>
    cases hc : f.content <;> simp [Storage.LoadTask, Storage.Lock, h, hf, hc, Storage.Unlock] <;>
      exact ⟨_, _, ⟨rfl, rfl⟩, rfl⟩

/-- Storage.DeleteTask, called with the mutex free, returns with the mutex released. -/
theorem DeleteTask_returns_unlocked (s : Storage) (id : String) (h : s.locked = false) :
    ∃ e s1, s.DeleteTask id = .returned e s1 ∧ s1.locked = false := by
  cases hany : List.any s.files (fun f => f.stem == id && f.ext == ".json") <;>
    simp [Storage.DeleteTask, Storage.Lock, h, hany, Storage.Unlock] <;>
    exact ⟨_, _, ⟨rfl, rfl⟩, rfl⟩

/-- C26 fails. On the sample storage, whose mutex is free and whose directory holds two
records, Storage.ListTasks does not return: it ends waiting in `Lock`, with the mutex held, at
the call of `s.LoadTask` for the first record. Storage.CleanupOldTasks does not return
either, and not even on an empty directory: it waits at the call of `s.ListTasks()`. -/
theorem C26_listTasks_and_cleanup_wait_for_own_mutex :
    sampleStorage.locked = false ∧
    sampleStorage.ListTasks true true = .blocked { sampleStorage with locked := true } ∧
    (sampleStorage.ListTasks true true).state.locked = true ∧
    sampleStorage.CleanupOldTasks 0 10800 true true
      = .blocked { sampleStorage with locked := true } ∧
    ({ locked := false, files := [], logs := [] } : Storage).CleanupOldTasks 0 0 true true
      = .blocked { locked := true, files := [], logs := [] } :=
  ⟨rfl, rfl, rfl, rfl, rfl⟩

/-! ## C21: AddTask -/

theorem GetGroupByName_ok_mem (gm : GroupManager) (name : String) (mkdirAll readDir : Bool)
    (g : Group) (h : gm.GetGroupByName name mkdirAll readDir = .ok g) :
    mkdirAll = true ∧ readDir = true ∧
    ∃ groups, gm.ListGroups true true = .ok groups ∧ g ∈ groups ∧ g.Name = name ∧
      groups.find? (fun x => x.Name == name) = some g := by
  have hmk : mkdirAll = true ∧ readDir = true := by
    cases mkdirAll <;> cases readDir <;>
      simp [GroupManager.GetGroupByName, GroupManager.ListGroups] at h ⊢
  obtain ⟨hm, hr⟩ := hmk
  subst hm hr
  cases hl : gm.ListGroups true true with
  | error e => simp [GroupManager.GetGroupByName, hl] at h
  | ok groups =>
    cases hf : groups.find? (fun x => x.Name == name) with
    | none => simp [GroupManager.GetGroupByName, hl, hf] at h
    | some x =>
      simp only [GroupManager.GetGroupByName, hl, hf, Except.ok.injEq] at h
      subst h
      have hx : x.Name = name := by simpa using List.find?_some hf
      exact ⟨rfl, rfl, groups, rfl, List.mem_of_find?_eq_some hf, hx, hf⟩

theorem GetGroupByName_absent (gm : GroupManager) (name : String) (mkdirAll readDir : Bool)
    (groups : List Group) (hl : gm.ListGroups mkdirAll readDir = .ok groups)
    (hno : ∀ g ∈ groups, g.Name ≠ name) :
    gm.GetGroupByName name mkdirAll readDir = .error (.notFound name) := by
  have hf : groups.find? (fun x => x.Name == name) = none := by
    rw [List.find?_eq_none]
    intro x hx
    simpa using hno x hx
  simp [GroupManager.GetGroupByName, hl, hf]

theorem find?_filter_of_imp {α : Type} (p q : α → Bool) (l : List α)
    (h : ∀ x, p x = true → q x = true) : (l.filter q).find? p = l.find? p := by
  induction l with
  | nil => rfl
  | cons a l ih =>
    by_cases hq : q a = true
    · by_cases hp : p a = true
      · simp [List.filter_cons, hq, hp]
      · simp [List.filter_cons, hq, hp, ih]
    · have hp : ¬ p a = true := fun hp => hq (h a hp)
      simp [List.filter_cons, hq, hp, ih]

theorem loadGroup_filter_ne (files : List GroupFile) (gid id : String) (hne : id ≠ gid) :
    GroupManager.loadGroup
      { files := files.filter (fun f => !(f.stem == gid && f.ext == ".json")) } id
      = GroupManager.loadGroup { files := files } id := by
  have hfind := find?_filter_of_imp (fun f : GroupFile => f.stem == id && f.ext == ".json")
    (fun f => !(f.stem == gid && f.ext == ".json")) files (by
      intro x hx
      simp only [Bool.and_eq_true, beq_iff_eq] at hx
      simp [hx.1, hne])
  simp only [GroupManager.loadGroup, hfind]

/-- A write of `groups/<gid>.json`, with whatever content, changes what no other ID loads
to. -/
theorem loadGroup_replace_ne (gm : GroupManager) (gid id : String) (c : Option Group)
    (hne : id ≠ gid) :
    GroupManager.loadGroup
      { files := ⟨gid, ".json", c⟩ ::
          gm.files.filter (fun f => !(f.stem == gid && f.ext == ".json")) } id
      = gm.loadGroup id := by
  have h := loadGroup_filter_ne gm.files gid id hne
  have hb : (gid == id) = false := by
    rw [beq_eq_false_iff_ne]
    exact fun h1 => hne h1.symm
  simp only [GroupManager.loadGroup, List.find?_cons, hb, Bool.false_and] at h ⊢
  exact h

/-- C21, as stated, fails: the group "nightly" exists with an empty member list, and
AddTask("nightly", "echo hi") returns an error, because the write of the group file fails
(here at the open of the file); the task "t1" is persisted all the same, and the group has
no member. -/
theorem C21_counterexample :
    nightlyManager.AddTask "nightly" "echo hi" { okAddEnv with saveWriteFile := false }
      emptyDisk = (.error .saveGroup, nightlyManager, emptyDisk.write hiTask1) ∧
    (emptyDisk.write hiTask1).load "t1" = some hiTask1 :=
  ⟨rfl, by decide⟩

/-- C21, amended: when the group is found (it is the first listed group g with the name)
and the writes of the task file and of the group file succeed, AddTask(g.name, c) persists and
returns a new task with command c, status Pending, priority Normal and groupId = g.ID, and the
group persisted under g.ID then has the member list of g followed by the ID of the new task.
When the write of the task file fails it returns an error, no snapshot is written, no group
is changed and no task record under another ID is changed. When the write of the group file
fails it returns an error with the task persisted; the group file is as it was when the
write failed before or at the open of the file, and no longer loads when it failed after the
open, which truncates the file; the files of the other groups are as they were. When the
listing fails or no listed group has the name it returns an error, creates no task and
changes no group. -/
theorem C21_addTask_appends_member (gm : GroupManager) (groupName command : String)
    (env : AddTaskEnv) (d : Disk) :
    ((∀ e, gm.GetGroupByName groupName env.listMkdirAll env.listReadDir = .error e →
      gm.AddTask groupName command env d = (.error .getGroup, gm, d)) ∧
     (∀ groups, gm.ListGroups env.listMkdirAll env.listReadDir = .ok groups →
      (∀ g ∈ groups, g.Name ≠ groupName) →
      gm.AddTask groupName command env d = (.error .getGroup, gm, d))) ∧
    (∀ g, gm.GetGroupByName groupName env.listMkdirAll env.listReadDir = .ok g →
      (env.saveTask = false →
        (gm.AddTask groupName command env d).1 = .error .saveTask ∧
        (gm.AddTask groupName command env d).2.1 = gm ∧
        (gm.AddTask groupName command env d).2.2.since d = [] ∧
        (∀ id, id ≠ env.taskID → (gm.AddTask groupName command env d).2.2.load id = d.load id) ∧
        (env.torn = false → (gm.AddTask groupName command env d).2.2 = d)) ∧
      (env.saveTask = true → (env.saveMkdirAll = false ∨ env.saveWriteFile = false) →
        (gm.AddTask groupName command env d).1 = .error .saveGroup ∧
        (gm.AddTask groupName command env d).2.2 =
          d.write { NewTask command .Normal env.taskID env.now with GroupID := some g.ID } ∧
        ((env.saveMkdirAll = false ∨ env.torn = false) →
          (gm.AddTask groupName command env d).2.1 = gm) ∧
        (env.saveMkdirAll = true → env.torn = true →
          (gm.AddTask groupName command env d).2.1.loadGroup g.ID = .error .unmarshalGroup) ∧
        (∀ id, id ≠ g.ID →
          (gm.AddTask groupName command env d).2.1.loadGroup id = gm.loadGroup id)) ∧
      (env.saveTask = true → env.saveMkdirAll = true → env.saveWriteFile = true →
        (gm.AddTask groupName command env d).1 =
          .ok { ID := env.taskID, Command := command, Status := .Pending,
                Priority := .Normal, CreatedAt := env.now, ScheduledAt := none,
                StartedAt := none, FinishedAt := none, ExitCode := none, PID := none,
                GroupID := some g.ID } ∧
        (gm.AddTask groupName command env d).2.2.load env.taskID =
          some { NewTask command .Normal env.taskID env.now with GroupID := some g.ID } ∧
        (gm.AddTask groupName command env d).2.2.since d =
          [{ NewTask command .Normal env.taskID env.now with GroupID := some g.ID }] ∧
        (gm.AddTask groupName command env d).2.1.loadGroup g.ID =
          .ok { g with TaskIDs := g.TaskIDs ++ [env.taskID] })) := by
  refine ⟨⟨?_, ?_⟩, ?_⟩
  · intro e he
    simp [GroupManager.AddTask, he]
  · intro groups hl hno
    simp [GroupManager.AddTask, GetGroupByName_absent gm groupName _ _ groups hl hno]
  · intro g hg
    refine ⟨?_, ?_, ?_⟩
    · intro hs
      have hrun : gm.AddTask groupName command env d =
          (.error .saveTask, gm, if env.torn = true then d.truncate env.taskID else d) := by
        simp [GroupManager.AddTask, hg, Task.Save, hs, NewTask]
      rw [hrun]
      refine ⟨rfl, rfl, Disk.since_failed d d env.torn env.taskID |>.trans (Disk.since_self d),
        ?_, ?_⟩
      · intro id hid
        exact Disk.load_failed_ne d env.torn env.taskID id (fun h => hid h.symm)
      · intro ht
        simp [ht]
    · intro hs hfail
      cases hm : env.saveMkdirAll
      · have hrun : gm.AddTask groupName command env d =
            (.error .saveGroup, gm,
             d.write { NewTask command .Normal env.taskID env.now with
                       GroupID := some g.ID }) := by
          simp [GroupManager.AddTask, hg, Task.Save, hs, GroupManager.saveGroup, hm, NewTask]
        rw [hrun]
        refine ⟨rfl, rfl, fun _ => rfl, ?_, fun _ _ => rfl⟩
        intro h
        cases h
      · have hw : env.saveWriteFile = false := by
          rcases hfail with h | h
          · rw [hm] at h; cases h
          · exact h
        cases ht : env.torn
        · have hrun : gm.AddTask groupName command env d =
              (.error .saveGroup, gm,
               d.write { NewTask command .Normal env.taskID env.now with
                         GroupID := some g.ID }) := by
            simp [GroupManager.AddTask, hg, Task.Save, hs, GroupManager.saveGroup, hm, hw, ht,
              NewTask]
          rw [hrun]
          refine ⟨rfl, rfl, fun _ => rfl, ?_, fun _ _ => rfl⟩
          intro _ h
          cases h
        · have hrun : gm.AddTask groupName command env d =
              (.error .saveGroup,
               { files := ⟨g.ID, ".json", none⟩ ::
                   gm.files.filter (fun f => !(f.stem == g.ID && f.ext == ".json")) },
               d.write { NewTask command .Normal env.taskID env.now with
                         GroupID := some g.ID }) := by
            simp [GroupManager.AddTask, hg, Task.Save, hs, GroupManager.saveGroup, hm, hw, ht,
              NewTask]
          rw [hrun]
          refine ⟨rfl, rfl, ?_, ?_, ?_⟩
          · rintro (h | h) <;> cases h
          · intro _ _
            simp [GroupManager.loadGroup]
          · intro id hid
            exact loadGroup_replace_ne gm g.ID id none hid
    · intro hs hm hw
      have hrun : gm.AddTask groupName command env d =
          (.ok { NewTask command .Normal env.taskID env.now with GroupID := some g.ID },
           (gm.saveGroup { g with TaskIDs := g.TaskIDs ++ [env.taskID] } true true env.torn).2,
           d.write { NewTask command .Normal env.taskID env.now with
                     GroupID := some g.ID }) := by
        simp [GroupManager.AddTask, hg, Task.Save, hs, GroupManager.saveGroup, hm, hw, NewTask]
      rw [hrun]
      refine ⟨rfl, ?_, ?_, ?_⟩
      · exact Disk.load_write d
          { NewTask command .Normal env.taskID env.now with GroupID := some g.ID }
      · exact Disk.since_write d _
      · simp [GroupManager.saveGroup, GroupManager.loadGroup]

/-- The amended C21 at the group "nightly" with no member yet: the task "t1" is returned and
persisted, and the group has the member list ["t1"]. -/
theorem C21_addTask_appends_member_witness :
    (nightlyManager.AddTask "nightly" "echo hi" okAddEnv emptyDisk).1 = .ok hiTask1 ∧
    (nightlyManager.AddTask "nightly" "echo hi" okAddEnv emptyDisk).2.1.loadGroup "g1"
      = .ok { ID := "g1", Name := "nightly", TaskIDs := ["t1"] } :=
  have h := ((C21_addTask_appends_member nightlyManager "nightly" "echo hi" okAddEnv
    emptyDisk).2 { ID := "g1", Name := "nightly", TaskIDs := [] } rfl).2.2 rfl rfl rfl
  ⟨h.1, h.2.2.2⟩

/-! ## C24: DeleteGroup -/

theorem loadGroup_ok_file (gm : GroupManager) (id : String) (g : Group)
    (h : gm.loadGroup id = .ok g) :
    ∃ f ∈ gm.files, f.stem = id ∧ f.ext = ".json" ∧ f.content = some g := by
  cases hf : gm.files.find? (fun f => f.stem == id && f.ext == ".json") with
  | none => simp [GroupManager.loadGroup, hf] at h
  | some f =>
    cases hc : f.content with
    | none => simp [GroupManager.loadGroup, hf, hc] at h
    | some g1 =>
      simp only [GroupManager.loadGroup, hf, hc, Except.ok.injEq] at h
      subst h
      have hp := List.find?_some hf
      simp only [Bool.and_eq_true, beq_iff_eq] at hp
      exact ⟨f, List.mem_of_find?_eq_some hf, hp.1, hp.2, hc⟩

theorem loadGroup_ok_ID (gm : GroupManager) (hwf : gm.WellFormed) (id : String) (g : Group)
    (h : gm.loadGroup id = .ok g) : g.ID = id := by
  obtain ⟨f, hf, hs, _, hc⟩ := loadGroup_ok_file gm id g h
  rw [← hs]
  exact hwf f hf g hc

theorem ListGroups_mem_iff (gm : GroupManager) (groups : List Group)
    (hl : gm.ListGroups true true = .ok groups) (x : Group) :
    x ∈ groups ↔ ∃ f ∈ gm.files, f.ext = ".json" ∧ gm.loadGroup f.stem = .ok x := by
  simp only [GroupManager.ListGroups, Bool.not_true, Bool.false_eq_true, if_false,
    Except.ok.injEq] at hl
  subst hl
  simp only [List.mem_filterMap]
  constructor
  · rintro ⟨f, hf, hx⟩
    by_cases he : f.ext = ".json"
    · cases hg : gm.loadGroup f.stem with
      | error e => simp [he, hg] at hx
      | ok g =>
        simp only [he, hg] at hx
        simp only [bne_self_eq_false, Bool.false_eq_true, if_false, Option.some.injEq] at hx
        exact ⟨f, (readDir_perm gm).mem_iff.1 hf, he, by rw [hg, hx]⟩
    · simp [he] at hx
  · rintro ⟨f, hf, he, hg⟩
    exact ⟨f, (readDir_perm gm).mem_iff.2 hf, by simp [he, hg]⟩

theorem ListGroups_true_ok (gm : GroupManager) : ∃ groups, gm.ListGroups true true = .ok groups :=
  ⟨_, rfl⟩

/-- In a directory where every group is in the file named after its ID, a listed group is
what its own ID loads to. -/
theorem ListGroups_mem_load (gm : GroupManager) (hwf : gm.WellFormed) (groups : List Group)
    (hl : gm.ListGroups true true = .ok groups) (x : Group) (hx : x ∈ groups) :
    gm.loadGroup x.ID = .ok x := by
  obtain ⟨f, _, _, hload⟩ := (ListGroups_mem_iff gm groups hl x).1 hx
  have hid := loadGroup_ok_ID gm hwf f.stem x hload
  rw [hid]
  exact hload

/-- C24, as stated, fails: the directory holds two groups named "nightly", of IDs "g1" and
"g2"; DeleteGroup("nightly") succeeds, it has removed the file of "g1", and a group named
"nightly" is still listed. -/
theorem C24_counterexample :
    twinManager.DeleteGroup "nightly" true true true emptyDisk =
      (none,
       { files := [⟨"g2", ".json", some { ID := "g2", Name := "nightly", TaskIDs := [] }⟩] },
       emptyDisk) ∧
    (twinManager.DeleteGroup "nightly" true true true emptyDisk).2.1.ListGroups true true
      = .ok [{ ID := "g2", Name := "nightly", TaskIDs := [] }] :=
  ⟨rfl, rfl⟩

/-- C24, amended: DeleteGroup never changes a task record, and when it returns an error it
changes no group record either; when no listed group has the name it returns an error. When
it succeeds, on a directory where every group is in the file named after its ID (as
saveGroup writes it), it has removed the file of the first listed group g with that name and
no other file, and the groups listed afterwards are the groups listed before without the
group of the ID of g; when no two listed groups share a name these are the groups listed
before without the one of that name, so no group with that name is listed. -/
theorem C24_deleteGroup_removes_only_its_record (gm : GroupManager) (name : String)
    (mkdirAll readDir remove : Bool) (d : Disk) :
    (∀ groups, gm.ListGroups mkdirAll readDir = .ok groups →
      (∀ g ∈ groups, g.Name ≠ name) →
      gm.DeleteGroup name mkdirAll readDir remove d = (some .getGroup, gm, d)) ∧
    (gm.DeleteGroup name mkdirAll readDir remove d).2.2 = d ∧
    ((gm.DeleteGroup name mkdirAll readDir remove d).1 ≠ none →
      (gm.DeleteGroup name mkdirAll readDir remove d).2.1 = gm) ∧
    ((gm.DeleteGroup name mkdirAll readDir remove d).1 = none → gm.WellFormed →
      ∀ groups, gm.ListGroups true true = .ok groups →
      ∃ g groups1, g ∈ groups ∧ g.Name = name ∧
        groups.find? (fun x => x.Name == name) = some g ∧
        (∀ f, f ∈ (gm.DeleteGroup name mkdirAll readDir remove d).2.1.files ↔
          f ∈ gm.files ∧ ¬ (f.stem = g.ID ∧ f.ext = ".json")) ∧
        (gm.DeleteGroup name mkdirAll readDir remove d).2.1.ListGroups true true
          = .ok groups1 ∧
        (∀ x, x ∈ groups1 ↔ x ∈ groups ∧ x.ID ≠ g.ID) ∧
        ((groups.map Group.Name).Nodup →
          (∀ x, x ∈ groups1 ↔ x ∈ groups ∧ x.Name ≠ name) ∧
          ∀ x ∈ groups1, x.Name ≠ name)) := by
  refine ⟨?_, ?_, ?_, ?_⟩
  · intro groups hl hno
    simp [GroupManager.DeleteGroup, GetGroupByName_absent gm name _ _ groups hl hno]
  · cases hg : gm.GetGroupByName name mkdirAll readDir <;> cases remove <;>
      simp [GroupManager.DeleteGroup, hg]
  · cases hg : gm.GetGroupByName name mkdirAll readDir <;> cases remove <;>
      simp [GroupManager.DeleteGroup, hg]
  · intro hnone hwf groups hl
    cases hg : gm.GetGroupByName name mkdirAll readDir with
    | error e => simp [GroupManager.DeleteGroup, hg] at hnone
    | ok g =>
      cases remove with
      | false => simp [GroupManager.DeleteGroup, hg] at hnone
      | true =>
        obtain ⟨_, _, groups0, hl0, hgmem, hgname, hfirst⟩ :=
          GetGroupByName_ok_mem gm name mkdirAll readDir g hg
        have hsame : groups0 = groups := by
          rw [hl0] at hl
          exact Except.ok.inj hl
        subst hsame
        have hdel : gm.DeleteGroup name mkdirAll readDir true d =
            (none, GroupManager.mk
              (gm.files.filter (fun f => !(f.stem == g.ID && f.ext == ".json"))), d) := by
          simp [GroupManager.DeleteGroup, hg]
        rw [hdel]
        obtain ⟨groups1, hl1⟩ := ListGroups_true_ok
          (GroupManager.mk (gm.files.filter (fun f => !(f.stem == g.ID && f.ext == ".json"))))
        have hgload : gm.loadGroup g.ID = .ok g :=
          ListGroups_mem_load gm hwf groups0 hl0 g hgmem
        have hid : ∀ x, x ∈ groups1 ↔ x ∈ groups0 ∧ x.ID ≠ g.ID := by
          intro x
          rw [ListGroups_mem_iff _ groups1 hl1 x, ListGroups_mem_iff gm groups0 hl0 x]
          constructor
          · rintro ⟨f, hf, he, hload⟩
            simp only [List.mem_filter] at hf
            have hne : f.stem ≠ g.ID := by
              intro hs
              have := hf.2
              simp [hs, he] at this
            have hload0 : gm.loadGroup f.stem = .ok x := by
              have := loadGroup_filter_ne gm.files g.ID f.stem hne
              rw [this] at hload
              exact hload
            refine ⟨⟨f, hf.1, he, hload0⟩, ?_⟩
            rw [loadGroup_ok_ID gm hwf f.stem x hload0]
            exact hne
          · rintro ⟨⟨f, hf, he, hload⟩, hxid⟩
            have hne : f.stem ≠ g.ID := by
              rw [← loadGroup_ok_ID gm hwf f.stem x hload]
              exact hxid
            refine ⟨f, ?_, he, ?_⟩
            · simp only [List.mem_filter]
              exact ⟨hf, by simp [hne]⟩
            · rw [loadGroup_filter_ne gm.files g.ID f.stem hne]
              exact hload
        have hname : (groups0.map Group.Name).Nodup →
            ∀ x, x ∈ groups1 ↔ x ∈ groups0 ∧ x.Name ≠ name := by
          intro hnd x
          rw [hid x]
          constructor
          · rintro ⟨hx, hxid⟩
            refine ⟨hx, fun hxname => ?_⟩
            have hxg : x = g :=
              List.inj_on_of_nodup_map hnd hx hgmem (by rw [hxname, hgname])
            exact hxid (by rw [hxg])
          · rintro ⟨hx, hxname⟩
            refine ⟨hx, fun hxid => ?_⟩
            have hxload := ListGroups_mem_load gm hwf groups0 hl0 x hx
            rw [hxid, hgload] at hxload
            have hxg : g = x := Except.ok.inj hxload
            exact hxname (by rw [← hxg]; exact hgname)
        refine ⟨g, groups1, hgmem, hgname, hfirst, ?_, hl1, hid, ?_⟩
        · intro f
          simp only [List.mem_filter, Bool.not_eq_true', Bool.and_eq_false_iff,
            beq_eq_false_iff_ne, ne_eq, not_and]
          constructor
          · rintro ⟨hf, h1⟩
            refine ⟨hf, fun hs he => ?_⟩
            rcases h1 with h1 | h1
            · exact h1 hs
            · exact h1 he
          · rintro ⟨hf, h1⟩
            refine ⟨hf, ?_⟩
            by_cases hs : f.stem = g.ID
            · exact Or.inr (h1 hs)
            · exact Or.inl hs
        · intro hnd
          exact ⟨hname hnd, fun x hx => ((hname hnd x).1 hx).2⟩

/-- The amended C24 at the directory with the group "nightly": it is deleted, no group is
listed afterwards, and the disk with its three member tasks is as it was. -/
theorem C24_deleteGroup_removes_only_its_record_witness :
    runManager.DeleteGroup "nightly" true true true groupDisk
      = (none, { files := [] }, groupDisk) ∧
    (runManager.DeleteGroup "nightly" true true true groupDisk).2.2 = groupDisk :=
  ⟨rfl, (C24_deleteGroup_removes_only_its_record runManager "nightly" true true true
    groupDisk).2.1⟩

/-! ## C22, C23: RunGroup -/

/-- RunTask writes under the ID of its task only: the record of every other ID is as it
was. -/
theorem RunTask_load_other (t : Task) (bg : Bool) (env : RunEnv) (d : Disk) (id : String)
    (h : t.ID ≠ id) : (RunTask t bg env d).disk.load id = d.load id := by
  cases h1 : env.mkdirAll
  · simp [RunTask, h1]
  cases h2 : env.createStdout
  · simp [RunTask, h1, h2]
  cases h3 : env.createStderr
  · simp [RunTask, h1, h2, h3]
  cases h4 : env.saveBefore
  · simp [RunTask, Task.Save, Disk.load_failed_ne, h, h1, h2, h3, h4]
  cases h5 : env.start with
  | none =>
    cases h6 : env.saveFailed <;>
      simp [RunTask, Task.Save, Disk.load_failed_ne, h, h1, h2, h3, h4, h5,
        h6, Disk.load_write_ne]
  | some pid =>
    cases h7 : env.savePid
    · simp [RunTask, Task.Save, Disk.load_failed_ne, h, h1, h2, h3, h4, h5, h7,
        Disk.load_write_ne]
    cases bg
    · cases h8 : env.saveFinal <;>
        simp [RunTask, Task.Save, Disk.load_failed_ne, h, h1, h2, h3, h4, h5, h7, h8,
          Disk.load_write_ne, finalize_ID]
    · simp [RunTask, Task.Save, Disk.load_failed_ne, h, h1, h2, h3, h4, h5, h7,
        Disk.load_write_ne]

/-- RunTask keeps every record in the file named after its ID. -/
theorem RunTask_wellFormed (t : Task) (bg : Bool) (env : RunEnv) (d : Disk)
    (hwf : d.WellFormed) : (RunTask t bg env d).disk.WellFormed := by
  cases h1 : env.mkdirAll
  · simpa [RunTask, h1] using hwf
  cases h2 : env.createStdout
  · simpa [RunTask, h1, h2] using hwf
  cases h3 : env.createStderr
  · simpa [RunTask, h1, h2, h3] using hwf
  cases h4 : env.saveBefore
  · simpa [RunTask, Task.Save, h1, h2, h3, h4] using Disk.wellFormed_failed d hwf _ _
  have hw1 := Disk.wellFormed_write d hwf { t with Status := .Running, StartedAt := some env.now }
  cases h5 : env.start with
  | none =>
    cases h6 : env.saveFailed
    · simpa [RunTask, Task.Save, h1, h2, h3, h4, h5, h6] using
        Disk.wellFormed_failed _ hw1 _ _
    · simpa [RunTask, Task.Save, h1, h2, h3, h4, h5, h6] using
        Disk.wellFormed_write _ hw1 _
  | some pid =>
    cases h7 : env.savePid
    · simpa [RunTask, Task.Save, h1, h2, h3, h4, h5, h7] using
        Disk.wellFormed_failed _ hw1 _ _
    have hw2 := Disk.wellFormed_write _ hw1
      { t with Status := .Running, StartedAt := some env.now, PID := some pid }
    cases bg
    · cases h8 : env.saveFinal
      · simpa [RunTask, Task.Save, h1, h2, h3, h4, h5, h7, h8] using
          Disk.wellFormed_failed _ hw2 _ _
      · simpa [RunTask, Task.Save, h1, h2, h3, h4, h5, h7, h8] using
          Disk.wellFormed_write _ hw2 _
    · simpa [RunTask, Task.Save, h1, h2, h3, h4, h5, h7] using hw2

/-- A foreground run that returns nil has waited for the process and persisted the final
state: the task is Completed or Failed, and its record is that task. -/
theorem RunTask_foreground_nil (t : Task) (env : RunEnv) (d : Disk)
    (h : (RunTask t false env d).err = none) :
    (RunTask t false env d).task.ID = t.ID ∧
    ((RunTask t false env d).task.Status = .Completed ∨
      (RunTask t false env d).task.Status = .Failed) ∧
    (RunTask t false env d).disk.load t.ID = some (RunTask t false env d).task := by
  cases h1 : env.mkdirAll
  · simp [RunTask, h1] at h
  cases h2 : env.createStdout
  · simp [RunTask, h1, h2] at h
  cases h3 : env.createStderr
  · simp [RunTask, h1, h2, h3] at h
  cases h4 : env.saveBefore
  · simp [RunTask, Task.Save, h1, h2, h3, h4] at h
  cases h5 : env.start with
  | none => cases h6 : env.saveFailed <;> simp [RunTask, Task.Save, h1, h2, h3, h4, h5, h6] at h
  | some pid =>
    cases h7 : env.savePid
    · simp [RunTask, Task.Save, h1, h2, h3, h4, h5, h7] at h
    cases h8 : env.saveFinal
    · simp [RunTask, Task.Save, h1, h2, h3, h4, h5, h7, h8] at h
    rw [RunTask_foreground_eq t env d pid ⟨h1, h2, h3, h4⟩ h5 h7 h8]
    refine ⟨finalize_ID _ _ _, ?_, ?_⟩
    · cases env.wait <;> simp [finalize]
    · have hl := Disk.load_write
        ((d.write { t with Status := .Running, StartedAt := some env.now }).write
          { t with Status := .Running, StartedAt := some env.now, PID := some pid })
        (finalize { t with Status := .Running, StartedAt := some env.now, PID := some pid }
          env.wait env.endTime)
      rw [finalize_ID] at hl
      exact hl

theorem runLoop_cons_ok (bg : Bool) (envs : Nat → RunEnv) (i : Nat) (taskID : String)
    (rest : List String) (d : Disk) (t : Task) (hld : d.load taskID = some t)
    (herr : (RunTask t bg (envs i) d).err = none) :
    GroupManager.runLoop bg envs i (taskID :: rest) d =
      ⟨(GroupManager.runLoop bg envs (i + 1) rest (RunTask t bg (envs i) d).disk).err,
       (GroupManager.runLoop bg envs (i + 1) rest (RunTask t bg (envs i) d).disk).disk,
       (if bg then [] else [((RunTask t bg (envs i) d).task.ID,
          (RunTask t bg (envs i) d).task.Status)]) ++
        (GroupManager.runLoop bg envs (i + 1) rest (RunTask t bg (envs i) d).disk).printed⟩ := by
  simp only [GroupManager.runLoop, hld, herr]

theorem runLoop_cons_err (bg : Bool) (envs : Nat → RunEnv) (i : Nat) (taskID : String)
    (rest : List String) (d : Disk) (t : Task) (hld : d.load taskID = some t)
    (herr : (RunTask t bg (envs i) d).err ≠ none) :
    GroupManager.runLoop bg envs i (taskID :: rest) d =
      ⟨some (.runTask taskID), (RunTask t bg (envs i) d).disk, []⟩ := by
  cases he : (RunTask t bg (envs i) d).err with
  | none => exact absurd he herr
  | some e => simp only [GroupManager.runLoop, hld, he]

theorem runLoop_cons_missing (bg : Bool) (envs : Nat → RunEnv) (i : Nat) (taskID : String)
    (rest : List String) (d : Disk) (hld : d.load taskID = none) :
    GroupManager.runLoop bg envs i (taskID :: rest) d = ⟨some (.loadTask taskID), d, []⟩ := by
  simp only [GroupManager.runLoop, hld]

/-- The loop over `pre ++ post` is the loop over `pre` followed, when that returns no error,
by the loop over `post` on the disk it left. -/
theorem runLoop_append (bg : Bool) (envs : Nat → RunEnv) (pre post : List String) (i : Nat)
    (d : Disk) :
    GroupManager.runLoop bg envs i (pre ++ post) d =
      match (GroupManager.runLoop bg envs i pre d).err with
      | some _ => GroupManager.runLoop bg envs i pre d
      | none =>
        ⟨(GroupManager.runLoop bg envs (i + pre.length) post
            (GroupManager.runLoop bg envs i pre d).disk).err,
         (GroupManager.runLoop bg envs (i + pre.length) post
            (GroupManager.runLoop bg envs i pre d).disk).disk,
         (GroupManager.runLoop bg envs i pre d).printed ++
           (GroupManager.runLoop bg envs (i + pre.length) post
             (GroupManager.runLoop bg envs i pre d).disk).printed⟩ := by
  induction pre generalizing i d with
  | nil => simp [GroupManager.runLoop]
  | cons taskID pre ih =>
    cases hld : d.load taskID with
    | none =>
      simp only [List.cons_append, runLoop_cons_missing bg envs i taskID _ d hld]
    | some t =>
      cases herr : (RunTask t bg (envs i) d).err with
      | some e =>
        have hne : (RunTask t bg (envs i) d).err ≠ none := by rw [herr]; simp
        simp only [List.cons_append, runLoop_cons_err bg envs i taskID _ d t hld hne]
      | none =>
        simp only [List.cons_append, runLoop_cons_ok bg envs i taskID _ d t hld herr]
        rw [ih (i + 1) (RunTask t bg (envs i) d).disk]
        cases hpre : (GroupManager.runLoop bg envs (i + 1) pre
            (RunTask t bg (envs i) d).disk).err with
        | some e => simp [hpre]
        | none =>
          have hi : i + 1 + pre.length = i + (pre.length + 1) := by omega
          simp [hi, List.append_assoc]

/-- A foreground loop that returns no error has run every member to a terminal state: it has
printed one line per member, in the order of the members, each with status Completed or
Failed; afterwards the record of every member is terminal, and so is every record that was
terminal before. -/
theorem runLoop_foreground_nil (envs : Nat → RunEnv) (ids : List String) (i : Nat) (d : Disk)
    (hwf : d.WellFormed) (h : (GroupManager.runLoop false envs i ids d).err = none) :
    (GroupManager.runLoop false envs i ids d).disk.WellFormed ∧
    (GroupManager.runLoop false envs i ids d).printed.map Prod.fst = ids ∧
    (∀ p ∈ (GroupManager.runLoop false envs i ids d).printed,
      p.2 = .Completed ∨ p.2 = .Failed) ∧
    (∀ id ∈ ids, ∃ t, (GroupManager.runLoop false envs i ids d).disk.load id = some t ∧
      t.Status.isTerminal = true) ∧
    (∀ id t, d.load id = some t → t.Status.isTerminal = true →
      ∃ u, (GroupManager.runLoop false envs i ids d).disk.load id = some u ∧
        u.Status.isTerminal = true) := by
  induction ids generalizing i d with
  | nil =>
    refine ⟨hwf, rfl, ?_, ?_, ?_⟩
    · intro p hp; simp [GroupManager.runLoop] at hp
    · intro id hid; simp at hid
    · intro id t hl ht; exact ⟨t, hl, ht⟩
  | cons taskID rest ih =>
    cases hld : d.load taskID with
    | none =>
      rw [runLoop_cons_missing false envs i taskID rest d hld] at h
      simp at h
    | some t =>
      cases herr : (RunTask t false (envs i) d).err with
      | some e =>
        have hne : (RunTask t false (envs i) d).err ≠ none := by rw [herr]; simp
        rw [runLoop_cons_err false envs i taskID rest d t hld hne] at h
        simp at h
      | none =>
        have hID : t.ID = taskID := Disk.load_ID d hwf taskID t hld
        obtain ⟨hrID, hrStatus, hrLoad⟩ := RunTask_foreground_nil t (envs i) d herr
        have hrTerm : (RunTask t false (envs i) d).task.Status.isTerminal = true := by
          rcases hrStatus with hs | hs <;> rw [hs] <;> rfl
        have hwf1 := RunTask_wellFormed t false (envs i) d hwf
        rw [runLoop_cons_ok false envs i taskID rest d t hld herr] at h ⊢
        simp only at h
        obtain ⟨ihwf, ihmap, ihterm, ihmem, ihkeep⟩ :=
          ih (i + 1) (RunTask t false (envs i) d).disk hwf1 h
        refine ⟨ihwf, ?_, ?_, ?_, ?_⟩
        · simp [ihmap, hrID, hID]
        · intro p hp
          simp only [Bool.false_eq_true, if_false, List.singleton_append, List.mem_cons] at hp
          rcases hp with hp | hp
          · rw [hp]; exact hrStatus
          · exact ihterm p hp
        · intro id hid
          rcases List.mem_cons.1 hid with h1 | h1
          · rw [h1, ← hID]
            exact ihkeep t.ID _ hrLoad hrTerm
          · exact ihmem id h1
        · intro id u hl hu
          by_cases hsame : t.ID = id
          · rw [← hsame]
            exact ihkeep t.ID _ hrLoad hrTerm
          · have := RunTask_load_other t false (envs i) d id hsame
            exact ihkeep id u (by rw [this]; exact hl) hu

theorem groupDisk_wellFormed : groupDisk.WellFormed :=
  Disk.wellFormed_write _ (Disk.wellFormed_write _
    (Disk.wellFormed_write _ emptyDisk_wellFormed hiTask1) hiTask2) hiTask3

/-- C22, as stated, fails: the group "nightly" has the members "t1", "t2" and "t3", and the
process of "t1" fails to start; RunGroup in foreground mode returns the error of that run at
once, having printed nothing, while "t2" is still Pending and was never started. -/
theorem C22_counterexample :
    (runManager.RunGroup "nightly" false true true (fun _ => { okEnv with start := none })
      groupDisk).err = some (GroupError.runTask "t1") ∧
    (runManager.RunGroup "nightly" false true true (fun _ => { okEnv with start := none })
      groupDisk).printed = [] ∧
    ((runManager.RunGroup "nightly" false true true (fun _ => { okEnv with start := none })
      groupDisk).disk.load "t2").map Task.Status = some TaskStatus.Pending := by
  decide

/-- C22, amended: when RunGroup(name, background=false) returns nil, it has run the members
in the order of taskIds, one after the other: for every split of taskIds into `pre` and
`post`, when the loop comes to `post` every member of `pre` has been run, in order, has been
reported Completed or Failed, and has a persisted terminal record; the members of `post` are
then run from that state. With `post` empty this is the state at return: every member has a
persisted terminal record. (When a member cannot be loaded or its RunTask returns an error,
RunGroup returns that error at once instead.) -/
theorem C22_runGroup_foreground_in_order (gm : GroupManager) (name : String)
    (mkdirAll readDir : Bool) (envs : Nat → RunEnv) (d : Disk) (g : Group)
    (pre post : List String)
    (hg : gm.GetGroupByName name mkdirAll readDir = .ok g)
    (hsplit : g.TaskIDs = pre ++ post) (hwf : d.WellFormed)
    (hnil : (gm.RunGroup name false mkdirAll readDir envs d).err = none) :
    (GroupManager.runLoop false envs 0 pre d).err = none ∧
    (GroupManager.runLoop false envs 0 pre d).printed.map Prod.fst = pre ∧
    (∀ p ∈ (GroupManager.runLoop false envs 0 pre d).printed,
      p.2 = .Completed ∨ p.2 = .Failed) ∧
    (∀ id ∈ pre, ∃ t, (GroupManager.runLoop false envs 0 pre d).disk.load id = some t ∧
      t.Status.isTerminal = true) ∧
    gm.RunGroup name false mkdirAll readDir envs d =
      ⟨(GroupManager.runLoop false envs pre.length post
          (GroupManager.runLoop false envs 0 pre d).disk).err,
       (GroupManager.runLoop false envs pre.length post
          (GroupManager.runLoop false envs 0 pre d).disk).disk,
       (GroupManager.runLoop false envs 0 pre d).printed ++
         (GroupManager.runLoop false envs pre.length post
           (GroupManager.runLoop false envs 0 pre d).disk).printed⟩ ∧
    (gm.RunGroup name false mkdirAll readDir envs d).printed.map Prod.fst = g.TaskIDs ∧
    (∀ id ∈ g.TaskIDs, ∃ t,
      (gm.RunGroup name false mkdirAll readDir envs d).disk.load id = some t ∧
      t.Status.isTerminal = true) := by
  have hrun : gm.RunGroup name false mkdirAll readDir envs d =
      GroupManager.runLoop false envs 0 g.TaskIDs d := by
    simp only [GroupManager.RunGroup, hg]
  rw [hrun] at hnil ⊢
  have hall := runLoop_foreground_nil envs g.TaskIDs 0 d hwf hnil
  have happ := runLoop_append false envs pre post 0 d
  rw [hsplit] at hnil ⊢
  cases hpre : (GroupManager.runLoop false envs 0 pre d).err with
  | some e =>
    rw [happ] at hnil
    simp only [hpre] at hnil
    cases hnil
  | none =>
    have hp := runLoop_foreground_nil envs pre 0 d hwf hpre
    refine ⟨rfl, hp.2.1, hp.2.2.1, hp.2.2.2.1, ?_, ?_, ?_⟩
    · rw [happ]
      simp only [hpre, Nat.zero_add]
    · rw [← hsplit]; exact hall.2.1
    · rw [← hsplit]; exact hall.2.2.2.1

/-- The amended C22 at the group "nightly" with three "echo hi" members, all of which start
and exit with code 0: when the loop comes to "t2" and "t3", "t1" has been reported, and at
return the three are reported in order. -/
theorem C22_runGroup_foreground_in_order_witness :
    (GroupManager.runLoop false okEnvs 0 ["t1"] groupDisk).printed.map Prod.fst = ["t1"] ∧
    (runManager.RunGroup "nightly" false true true okEnvs groupDisk).printed.map Prod.fst
      = ["t1", "t2", "t3"] :=
  have h := C22_runGroup_foreground_in_order runManager "nightly" true true okEnvs groupDisk
    { ID := "g1", Name := "nightly", TaskIDs := ["t1", "t2", "t3"] } ["t1"] ["t2", "t3"]
    rfl rfl groupDisk_wellFormed (by decide)
  ⟨h.2.1, h.2.2.2.2.2.1⟩

/-- C23, as stated, fails: in the group "nightly" the command of "t1" exits with code 3 and
the process of "t2" fails to start. "t1" ends Failed and "t2" is run after it; "t2" ends
Failed too, and then RunGroup returns the error of that run: "t3" is not executed, it is
still Pending and nothing has been written for it. -/
theorem C23_counterexample :
    (runManager.RunGroup "nightly" false true true
      (fun i => if i = 1 then { okEnv with start := none }
        else { okEnv with wait := .exitError 3 }) groupDisk).err
      = some (GroupError.runTask "t2") ∧
    (runManager.RunGroup "nightly" false true true
      (fun i => if i = 1 then { okEnv with start := none }
        else { okEnv with wait := .exitError 3 }) groupDisk).printed
      = [("t1", TaskStatus.Failed)] ∧
    ((runManager.RunGroup "nightly" false true true
      (fun i => if i = 1 then { okEnv with start := none }
        else { okEnv with wait := .exitError 3 }) groupDisk).disk.load "t2").map Task.Status
      = some TaskStatus.Failed ∧
    ((runManager.RunGroup "nightly" false true true
      (fun i => if i = 1 then { okEnv with start := none }
        else { okEnv with wait := .exitError 3 }) groupDisk).disk.load "t3").map Task.Status
      = some TaskStatus.Pending ∧
    ((runManager.RunGroup "nightly" false true true
      (fun i => if i = 1 then { okEnv with start := none }
        else { okEnv with wait := .exitError 3 }) groupDisk).disk.since groupDisk).all
      (fun s => s.ID != "t3") = true := by
  decide

/-- C23, amended: in RunGroup a member whose RunTask returns nil does not prevent the later
members from running, and that is the case of a member that ends Failed because its command
exited non-zero (in foreground mode, the writes of its state succeeding). A member whose
RunTask returns an error makes RunGroup return that error at once, and no later member is
executed; that is the case of a member that ends Failed because its process failed to
start. -/
theorem C23_runGroup_failed_member (bg : Bool) (envs : Nat → RunEnv) (i : Nat)
    (taskID : String) (rest : List String) (d : Disk) (t : Task)
    (hld : d.load taskID = some t) :
    ((RunTask t bg (envs i) d).err = none →
      GroupManager.runLoop bg envs i (taskID :: rest) d =
        ⟨(GroupManager.runLoop bg envs (i + 1) rest (RunTask t bg (envs i) d).disk).err,
         (GroupManager.runLoop bg envs (i + 1) rest (RunTask t bg (envs i) d).disk).disk,
         (if bg then [] else [((RunTask t bg (envs i) d).task.ID,
            (RunTask t bg (envs i) d).task.Status)]) ++
          (GroupManager.runLoop bg envs (i + 1) rest
            (RunTask t bg (envs i) d).disk).printed⟩) ∧
    ((envs i).reachesStart → ∀ pid, (envs i).start = some pid → (envs i).savePid = true →
      (envs i).saveFinal = true → (envs i).wait ≠ .success →
      (RunTask t false (envs i) d).err = none ∧
      (RunTask t false (envs i) d).task.Status = .Failed) ∧
    ((RunTask t bg (envs i) d).err ≠ none →
      GroupManager.runLoop bg envs i (taskID :: rest) d =
        ⟨some (.runTask taskID), (RunTask t bg (envs i) d).disk, []⟩) ∧
    ((envs i).reachesStart → (envs i).start = none →
      (RunTask t bg (envs i) d).err = some .startCommand ∧
      (RunTask t bg (envs i) d).task.Status = .Failed) := by
  refine ⟨runLoop_cons_ok bg envs i taskID rest d t hld, ?_,
    runLoop_cons_err bg envs i taskID rest d t hld, ?_⟩
  · intro hr pid hs hsp hsf hw
    rw [RunTask_foreground_eq t (envs i) d pid hr hs hsp hsf]
    refine ⟨rfl, ?_⟩
    cases hc : (envs i).wait <;> simp_all [finalize]
  · intro hr hs
    rw [RunTask_start_failure_eq t bg (envs i) d hr hs]
    exact ⟨rfl, rfl⟩

/-- The amended C23 at the member "t1" of the group when its process fails to start: the
loop over "t1", "t2", "t3" returns the error of "t1" and runs nothing else. -/
theorem C23_runGroup_failed_member_witness :
    groupDisk.load "t1" = some hiTask1 ∧
    GroupManager.runLoop false (fun _ => { okEnv with start := none }) 0 ["t1", "t2", "t3"]
      groupDisk =
      ⟨some (.runTask "t1"),
       (RunTask hiTask1 false { okEnv with start := none } groupDisk).disk, []⟩ :=
  have hld : groupDisk.load "t1" = some hiTask1 := by decide
  ⟨hld, (C23_runGroup_failed_member false (fun _ => { okEnv with start := none }) 0 "t1"
    ["t2", "t3"] groupDisk hiTask1 hld).2.2.1 (by decide)⟩

/-! ## path/filepath: the two ways the logger builds a path -/

theorem pathElements_ne_nil (p : List Char) : pathElements p ≠ [] := by
  induction p with
  | nil => simp [pathElements]
  | cons c cs ih =>
    by_cases hc : c = '/'
    · simp [pathElements, hc]
    · cases h : pathElements cs with
      | nil => exact absurd h ih
      | cons e es => simp [pathElements, hc, h]

theorem pathElements_append (a b : List Char) :
    pathElements (a ++ '/' :: b) = pathElements a ++ pathElements b := by
  induction a with
  | nil => simp [pathElements]
  | cons c cs ih =>
    by_cases hc : c = '/'
    · simp [pathElements, hc, ih]
    · cases h : pathElements cs with
      | nil => exact absurd h (pathElements_ne_nil cs)
      | cons e es =>
        have ih1 : pathElements (cs.append ('/' :: b)) = (e :: es) ++ pathElements b := by
          rw [← h]; exact ih
        simp only [List.cons_append, pathElements, hc, if_false, h, ih1]

theorem pathElements_no_slash (p : List Char) : ∀ e ∈ pathElements p, '/' ∉ e := by
  induction p with
  | nil => simp [pathElements]
  | cons c cs ih =>
    by_cases hc : c = '/'
    · intro e he
      simp only [pathElements, hc, if_true, List.mem_cons] at he
      rcases he with he | he
      · simp [he]
      · exact ih e he
    · cases h : pathElements cs with
      | nil => exact absurd h (pathElements_ne_nil cs)
      | cons e0 es =>
        rw [h] at ih
        intro e he
        simp only [pathElements, hc, if_false, h, List.mem_cons] at he
        rcases he with he | he
        · rw [he]
          intro hm
          rcases List.mem_cons.1 hm with h1 | h1
          · exact hc h1.symm
          · exact ih e0 (by simp) h1
        · exact ih e (by simp [he])

theorem pathElements_of_no_slash (e : List Char) (h : '/' ∉ e) : pathElements e = [e] := by
  induction e with
  | nil => rfl
  | cons c cs ih =>
    have hc : c ≠ '/' := fun hc => h (by simp [hc])
    have hcs : '/' ∉ cs := fun hm => h (List.mem_cons_of_mem c hm)
    simp [pathElements, hc, ih hcs]

theorem pathElements_joinElements (es : List (List Char)) (hne : es ≠ [])
    (h : ∀ e ∈ es, '/' ∉ e) : pathElements (joinElements es) = es := by
  induction es with
  | nil => exact absurd rfl hne
  | cons e es ih =>
    cases es with
    | nil => simpa [joinElements] using pathElements_of_no_slash e (h e (by simp))
    | cons e1 rest =>
      have h1 := ih (by simp) (fun x hx => h x (List.mem_cons_of_mem e hx))
      simp only [joinElements]
      rw [pathElements_append, h1, pathElements_of_no_slash e (h e (by simp))]
      rfl

theorem cleanStep_cleanStack (rooted : Bool) (out : List (List Char)) (e : List Char)
    (hout : CleanStack rooted out) (he : '/' ∉ e) : CleanStack rooted (cleanStep rooted out e) := by
  unfold cleanStep
  by_cases h1 : e = [] ∨ e = ['.']
  · simp only [h1, if_true]; exact hout
  · simp only [h1, if_false]
    have hne : e ≠ [] := fun h => h1 (Or.inl h)
    have hnd : e ≠ ['.'] := fun h => h1 (Or.inr h)
    by_cases h2 : e = ['.', '.']
    · simp only [h2, if_true]
      cases out with
      | nil =>
        cases rooted
        · simp [CleanStack]
        · simp [CleanStack]
      | cons last before =>
        by_cases h3 : last = ['.', '.']
        · simp only [h3, if_true]
          have hr := hout.2.2.2.1 h3
          refine ⟨by simp, by simp, by simp, fun _ => ⟨hr.1, Or.inr (by simp)⟩, ?_⟩
          rw [h3] at hout
          exact hout
        · simp only [h3, if_false]
          exact hout.2.2.2.2
    · simp only [h2, if_false]
      exact ⟨hne, hnd, he, fun h => absurd h h2, hout⟩

theorem foldl_cleanStep_cleanStack (rooted : Bool) (es : List (List Char))
    (out : List (List Char)) (hout : CleanStack rooted out) (hes : ∀ e ∈ es, '/' ∉ e) :
    CleanStack rooted (es.foldl (cleanStep rooted) out) := by
  induction es generalizing out with
  | nil => exact hout
  | cons e es ih =>
    simp only [List.foldl_cons]
    exact ih _ (cleanStep_cleanStack rooted out e hout (hes e (by simp)))
      (fun x hx => hes x (List.mem_cons_of_mem e hx))

theorem cleanStack_no_slash (rooted : Bool) (out : List (List Char))
    (h : CleanStack rooted out) : ∀ e ∈ out, '/' ∉ e := by
  induction out with
  | nil => simp
  | cons e out ih =>
    intro x hx
    rcases List.mem_cons.1 hx with h1 | h1
    · rw [h1]; exact h.2.2.1
    · exact ih h.2.2.2.2 x h1

/-- Cleaning the elements of a clean path again gives the same elements. -/
theorem foldl_cleanStep_reverse (rooted : Bool) (out : List (List Char))
    (h : CleanStack rooted out) : out.reverse.foldl (cleanStep rooted) [] = out := by
  induction out with
  | nil => rfl
  | cons e out ih =>
    rw [List.reverse_cons, List.foldl_append, ih h.2.2.2.2]
    simp only [List.foldl_cons, List.foldl_nil]
    unfold cleanStep
    have h1 : ¬ (e = [] ∨ e = ['.']) := fun h0 => h0.elim h.1 h.2.1
    simp only [h1, if_false]
    by_cases h2 : e = ['.', '.']
    · simp only [h2, if_true]
      obtain ⟨hr, hprev⟩ := h.2.2.2.1 h2
      rcases hprev with hp | hp
      · simp [hp, hr]
      · cases out with
        | nil => simp at hp
        | cons last before =>
          simp only [List.head?_cons, Option.some.injEq] at hp
          simp [hp]
    · simp only [h2, if_false]

theorem joinElements_head (es : List (List Char)) (c : Char) (cs : List Char) :
    ∃ tl, joinElements ((c :: cs) :: es) = c :: tl := by
  cases es with
  | nil => exact ⟨cs, rfl⟩
  | cons e1 rest => exact ⟨cs ++ '/' :: joinElements (e1 :: rest), rfl⟩

theorem cleanRender_ne_nil (rooted : Bool) (out : List (List Char))
    (h : CleanStack rooted out) : cleanRender rooted out ≠ [] := by
  unfold cleanRender
  cases rooted
  · by_cases ho : out = []
    · simp [ho]
    · simp only [Bool.false_eq_true, if_false, ho]
      cases hr : out.reverse with
      | nil => simp at hr; exact absurd hr ho
      | cons e es =>
        have hmem : e ∈ out := by
          have : e ∈ out.reverse := by rw [hr]; simp
          exact List.mem_reverse.1 this
        have hne : e ≠ [] := by
          clear hr
          induction out with
          | nil => simp at hmem
          | cons x out ih =>
            rcases List.mem_cons.1 hmem with h1 | h1
            · rw [h1]; exact h.1
            · exact ih h.2.2.2.2 (by intro h0; rw [h0] at h1; simp at h1) h1
        cases he : e with
        | nil => exact absurd he hne
        | cons c cs =>
          obtain ⟨tl, htl⟩ := joinElements_head es c cs
          rw [htl]; simp
  · simp

theorem cleanStack_mem_ne_nil (rooted : Bool) (out : List (List Char))
    (h : CleanStack rooted out) : ∀ e ∈ out, e ≠ [] := by
  induction out with
  | nil => simp
  | cons x out ih =>
    intro e he
    rcases List.mem_cons.1 he with h1 | h1
    · rw [h1]; exact h.1
    · exact ih h.2.2.2.2 e h1

theorem isRooted_cleanRender (rooted : Bool) (out : List (List Char))
    (h : CleanStack rooted out) : isRooted (cleanRender rooted out) = rooted := by
  unfold cleanRender
  cases rooted
  · by_cases ho : out = []
    · simp [ho, isRooted]
    · simp only [Bool.false_eq_true, if_false, ho]
      cases hr : out.reverse with
      | nil => simp at hr; exact absurd hr ho
      | cons e es =>
        have hmem : e ∈ out := by
          have : e ∈ out.reverse := by rw [hr]; simp
          exact List.mem_reverse.1 this
        have hne := cleanStack_mem_ne_nil false out h e hmem
        have hns := cleanStack_no_slash false out h e hmem
        cases he : e with
        | nil => exact absurd he hne
        | cons c cs =>
          obtain ⟨tl, htl⟩ := joinElements_head es c cs
          rw [htl]
          have hc : c ≠ '/' := by
            intro hc
            apply hns
            rw [he, hc]; simp
          simp [isRooted, hc]
  · simp [isRooted]

theorem pathElements_cleanRender (rooted : Bool) (out : List (List Char))
    (h : CleanStack rooted out) :
    (pathElements (cleanRender rooted out)).foldl (cleanStep rooted) [] = out := by
  have hrev : ∀ e ∈ out.reverse, '/' ∉ e := fun e he =>
    cleanStack_no_slash rooted out h e (List.mem_reverse.1 he)
  unfold cleanRender
  cases rooted
  · by_cases ho : out = []
    · simp [ho, pathElements, cleanStep]
    · simp only [Bool.false_eq_true, if_false, ho]
      rw [pathElements_joinElements _ (by simpa using ho) hrev]
      exact foldl_cleanStep_reverse false out h
  · simp only [if_true]
    by_cases ho : out = []
    · simp [ho, pathElements, joinElements, cleanStep]
    · have hp : pathElements ('/' :: joinElements out.reverse)
          = [] :: pathElements (joinElements out.reverse) := by
        simp [pathElements]
      rw [hp, pathElements_joinElements _ (by simpa using ho) hrev]
      simp only [List.foldl_cons]
      have h0 : cleanStep true [] [] = [] := by simp [cleanStep]
      rw [h0]
      exact foldl_cleanStep_reverse true out h

theorem isRooted_append (p q : List Char) (hp : p ≠ []) : isRooted (p ++ q) = isRooted p := by
  cases p with
  | nil => exact absurd rfl hp
  | cons c cs => rfl

/-- Cleaning a path, putting an element after it and cleaning again is cleaning the path
with the element after it. -/
theorem cleanChars_clean_append (p x : List Char) (hp : p ≠ []) :
    cleanChars (cleanChars p ++ '/' :: x) = cleanChars (p ++ '/' :: x) := by
  have hst : CleanStack (isRooted p) ((pathElements p).foldl (cleanStep (isRooted p)) []) :=
    foldl_cleanStep_cleanStack _ _ [] trivial (pathElements_no_slash p)
  have hc : cleanChars p = cleanRender (isRooted p)
      ((pathElements p).foldl (cleanStep (isRooted p)) []) := by
    simp [cleanChars, hp]
  have hne := cleanRender_ne_nil _ _ hst
  have hroot := isRooted_cleanRender _ _ hst
  have hel := pathElements_cleanRender _ _ hst
  rw [hc]
  generalize hst0 : (pathElements p).foldl (cleanStep (isRooted p)) [] = st at *
  unfold cleanChars
  have h1 : cleanRender (isRooted p) st ++ '/' :: x ≠ [] := by simp
  have h2 : p ++ '/' :: x ≠ [] := by simp
  simp only [h1, h2, if_false]
  rw [isRooted_append _ _ hne, isRooted_append _ _ hp, hroot, pathElements_append,
    pathElements_append, List.foldl_append, List.foldl_append, hel, hst0]

theorem cleanChars_ne_nil (p : List Char) : cleanChars p ≠ [] := by
  by_cases hp : p = []
  · simp [cleanChars, hp]
  · have hst : CleanStack (isRooted p) ((pathElements p).foldl (cleanStep (isRooted p)) []) :=
      foldl_cleanStep_cleanStack _ _ [] trivial (pathElements_no_slash p)
    simp only [cleanChars, hp, if_false]
    exact cleanRender_ne_nil _ _ hst

/-- The path that `logMessage` builds in two steps is the path that `GetLogs` builds in
one. -/
theorem filepathJoin_nested (dir name : String) (hname : name.data ≠ []) :
    filepathJoin [filepathJoin [dir, "logs"], name] = filepathJoin [dir, "logs", name] := by
  unfold filepathJoin
  congr 1
  simp only [List.map_cons, List.map_nil]
  cases hd : dir.data with
  | nil =>
    have h1 : joinChars [[], "logs".data] = "logs".data := by decide
    rw [h1]
    cases hn : name.data with
    | nil => exact absurd hn hname
    | cons c cs => rfl
  | cons d ds =>
    have h1 : joinChars [d :: ds, "logs".data] = cleanChars ((d :: ds) ++ '/' :: "logs".data) := rfl
    rw [h1]
    have hne := cleanChars_ne_nil ((d :: ds) ++ '/' :: "logs".data)
    cases hc : cleanChars ((d :: ds) ++ '/' :: "logs".data) with
    | nil => exact absurd hc hne
    | cons a as =>
      cases hn : name.data with
      | nil => exact absurd hn hname
      | cons c cs =>
        have h2 : joinChars [a :: as, c :: cs] = cleanChars ((a :: as) ++ '/' :: (c :: cs)) := rfl
        have h3 : joinChars [d :: ds, "logs".data, c :: cs] =
            cleanChars (((d :: ds) ++ '/' :: "logs".data) ++ '/' :: (c :: cs)) := by
          simp [joinChars, joinElements]
        rw [h2, h3, ← hc]
        exact cleanChars_clean_append _ _ (by simp)


/-! ## C25: the per-task log -/

theorem logFile_data_ne_nil (taskID : String) : (taskID ++ ".app.log").data ≠ [] := by
  simp [String.data_append]

/-- The path that `logMessage` writes to is the path that `GetLogs` reads. -/
theorem logMessage_path (l : Logger) (taskID : String) :
    filepathJoin [filepathJoin [l.DataDir, "logs"], taskID ++ ".app.log"] = l.logPath taskID :=
  filepathJoin_nested l.DataDir _ (logFile_data_ne_nil taskID)

theorem Logger.lookup_put_same (l : Logger) (path content : String) :
    (l.put path content).files.lookup path = some content := by
  simp [Logger.put, List.lookup_cons]

theorem Logger.lookup_put_ne (l : Logger) (path content other : String) (h : other ≠ path) :
    (l.put path content).files.lookup other = l.files.lookup other := by
  have hb : (other == path) = false := beq_eq_false_iff_ne.mpr h
  simp only [Logger.put, List.lookup_cons, hb]
  exact lookup_filter_ne l.files path other (Ne.symm h)

theorem Logger.logPath_put (l : Logger) (path content taskID : String) :
    (l.put path content).logPath taskID = l.logPath taskID := rfl

theorem Logger.GetLogs_true (l : Logger) (taskID : String) :
    l.GetLogs taskID true = .ok (l.content (l.logPath taskID)) := by
  unfold Logger.GetLogs Logger.content
  cases l.files.lookup (l.logPath taskID) <;> rfl

theorem logMessage_ok (l : Logger) (taskID level message : String) (env : LogEnv)
    (h : (l.logMessage taskID level message env).1 = none) :
    (l.logMessage taskID level message env).2 =
      l.put (l.logPath taskID)
        (l.content (l.logPath taskID) ++ Logger.logLine env.timestamp level message) := by
  have hp := logMessage_path l taskID
  simp only [Logger.logMessage, hp] at h ⊢
  cases h1 : env.mkdirAll <;> cases h2 : env.openFile <;> cases h3 : env.writeString <;>
    simp_all

theorem logMessage_appends (l : Logger) (taskID level message : String) (env : LogEnv)
    (prev : String) (hprev : l.GetLogs taskID true = .ok prev)
    (h : (l.logMessage taskID level message env).1 = none) :
    (l.logMessage taskID level message env).2.GetLogs taskID true =
      .ok (prev ++ Logger.logLine env.timestamp level message) := by
  rw [Logger.GetLogs_true] at hprev
  cases hprev
  rw [logMessage_ok l taskID level message env h, Logger.GetLogs_true, Logger.content,
    Logger.logPath_put, Logger.lookup_put_same]
  rfl

theorem logMessage_other (l : Logger) (taskID level message : String) (env : LogEnv)
    (other : String) (hne : l.logPath other ≠ l.logPath taskID) (readFile : Bool) :
    (l.logMessage taskID level message env).2.GetLogs other readFile =
      l.GetLogs other readFile := by
  have hp := logMessage_path l taskID
  simp only [Logger.logMessage, hp]
  cases h1 : env.mkdirAll <;> cases h2 : env.openFile <;> cases h3 : env.writeString <;>
    simp [Logger.GetLogs, Logger.logPath_put, Logger.lookup_put_ne _ _ _ _ hne]

theorem logLine_lineBreaks (ts level message : String)
    (hts : Char.ofNat 10 ∉ ts.data) (hl : Char.ofNat 10 ∉ level.data)
    (hm : Char.ofNat 10 ∉ message.data) :
    lineBreaks (Logger.logLine ts level message) = 1 := by
  simp only [lineBreaks, Logger.logLine, String.data_append, List.count_append,
    List.count_eq_zero_of_not_mem hts, List.count_eq_zero_of_not_mem hl,
    List.count_eq_zero_of_not_mem hm]
  decide

/-- C25, as stated, fails: with no log file yet LogInfo("t1", "a\nb") succeeds, and
GetLogs("t1"), which was empty, is then the two lines "[2024-01-01T00:00:00Z] [INFO] a" and
"b", the second of which is not of the form "[timestamp] [LEVEL] message". -/
theorem C25_counterexample :
    emptyLogger.GetLogs "t1" true = .ok "" ∧
    (emptyLogger.LogInfo "t1" "a\nb" okLogEnv).1 = none ∧
    (emptyLogger.LogInfo "t1" "a\nb" okLogEnv).2.GetLogs "t1" true
      = .ok "[2024-01-01T00:00:00Z] [INFO] a\nb\n" ∧
    lineBreaks "[2024-01-01T00:00:00Z] [INFO] a\nb\n" = 2 :=
  ⟨rfl, by decide, rfl, by decide⟩

/-- C25, amended: GetLogs(taskId) is the empty string with no error as long as the file of
the task does not exist. After LogInfo, LogError or LogDebug succeeds, GetLogs(taskId), when
its read succeeds, is its previous value followed by "[timestamp] [LEVEL] message" and a
newline, with LEVEL being INFO, ERROR or DEBUG respectively; that is exactly one line when
the message holds no newline (the timestamp never does). The log of a task id whose path
(`filepath.Join` cleans it) is another file is as it was; a task id with the same path reads
the same log. -/
theorem C25_log_appends_one_entry (l : Logger) (taskID message : String) (env : LogEnv)
    (prev : String) (hprev : l.GetLogs taskID true = .ok prev) :
    (∀ readFile, l.files.lookup (l.logPath taskID) = none →
      l.GetLogs taskID readFile = .ok "") ∧
    ((l.LogInfo taskID message env).1 = none →
      (l.LogInfo taskID message env).2.GetLogs taskID true =
        .ok (prev ++ ("[" ++ env.timestamp ++ "] [INFO] " ++ message ++ "\n"))) ∧
    ((l.LogError taskID message env).1 = none →
      (l.LogError taskID message env).2.GetLogs taskID true =
        .ok (prev ++ ("[" ++ env.timestamp ++ "] [ERROR] " ++ message ++ "\n"))) ∧
    ((l.LogDebug taskID message env).1 = none →
      (l.LogDebug taskID message env).2.GetLogs taskID true =
        .ok (prev ++ ("[" ++ env.timestamp ++ "] [DEBUG] " ++ message ++ "\n"))) ∧
    (Char.ofNat 10 ∉ env.timestamp.data → Char.ofNat 10 ∉ message.data →
      lineBreaks ("[" ++ env.timestamp ++ "] [INFO] " ++ message ++ "\n") = 1 ∧
      lineBreaks ("[" ++ env.timestamp ++ "] [ERROR] " ++ message ++ "\n") = 1 ∧
      lineBreaks ("[" ++ env.timestamp ++ "] [DEBUG] " ++ message ++ "\n") = 1) ∧
    (∀ other readFile, l.logPath other ≠ l.logPath taskID →
      (l.LogInfo taskID message env).2.GetLogs other readFile = l.GetLogs other readFile ∧
      (l.LogError taskID message env).2.GetLogs other readFile = l.GetLogs other readFile ∧
      (l.LogDebug taskID message env).2.GetLogs other readFile = l.GetLogs other readFile) ∧
    (∀ other readFile (l1 : Logger), l1.DataDir = l.DataDir →
      l.logPath other = l.logPath taskID →
      l1.GetLogs other readFile = l1.GetLogs taskID readFile) := by
  have e1 : "[" ++ env.timestamp ++ "] [INFO] " ++ message ++ "\n"
      = Logger.logLine env.timestamp "INFO" message := by
    simp only [Logger.logLine, String.append_assoc]; rfl
  have e2 : "[" ++ env.timestamp ++ "] [ERROR] " ++ message ++ "\n"
      = Logger.logLine env.timestamp "ERROR" message := by
    simp only [Logger.logLine, String.append_assoc]; rfl
  have e3 : "[" ++ env.timestamp ++ "] [DEBUG] " ++ message ++ "\n"
      = Logger.logLine env.timestamp "DEBUG" message := by
    simp only [Logger.logLine, String.append_assoc]; rfl
  rw [e1, e2, e3]
  refine ⟨?_, logMessage_appends l taskID "INFO" message env prev hprev,
    logMessage_appends l taskID "ERROR" message env prev hprev,
    logMessage_appends l taskID "DEBUG" message env prev hprev, ?_, ?_, ?_⟩
  · intro readFile hnone
    simp [Logger.GetLogs, hnone]
  · intro hts hm
    exact ⟨logLine_lineBreaks _ _ _ hts (by decide) hm,
      logLine_lineBreaks _ _ _ hts (by decide) hm,
      logLine_lineBreaks _ _ _ hts (by decide) hm⟩
  · intro other readFile hne
    exact ⟨logMessage_other l taskID "INFO" message env other hne readFile,
      logMessage_other l taskID "ERROR" message env other hne readFile,
      logMessage_other l taskID "DEBUG" message env other hne readFile⟩
  · intro other readFile l1 hd hp
    have hp1 : l1.logPath other = l1.logPath taskID := by
      simp only [Logger.logPath, hd] at hp ⊢
      exact hp
    simp only [Logger.GetLogs, hp1]

/-- The amended C25 at the log of "t1" that holds one INFO line, to which LogError adds
"exit status 3"; the task id "./t1" has the same path and reads the same log. -/
theorem C25_log_appends_one_entry_witness :
    (emptyLogger.LogInfo "t1" "started" okLogEnv).2.GetLogs "t1" true
      = .ok "[2024-01-01T00:00:00Z] [INFO] started\n" ∧
    ((emptyLogger.LogInfo "t1" "started" okLogEnv).2.LogError "t1" "exit status 3"
        okLogEnv).2.GetLogs "t1" true
      = .ok ("[2024-01-01T00:00:00Z] [INFO] started\n" ++
          ("[" ++ okLogEnv.timestamp ++ "] [ERROR] " ++ "exit status 3" ++ "\n")) ∧
    lineBreaks ("[" ++ okLogEnv.timestamp ++ "] [ERROR] " ++ "exit status 3" ++ "\n") = 1 ∧
    (emptyLogger.LogInfo "t1" "started" okLogEnv).2.GetLogs "./t1" true
      = .ok "[2024-01-01T00:00:00Z] [INFO] started\n" :=
  have h := C25_log_appends_one_entry (emptyLogger.LogInfo "t1" "started" okLogEnv).2 "t1"
    "exit status 3" okLogEnv "[2024-01-01T00:00:00Z] [INFO] started\n" rfl
  ⟨rfl, h.2.2.1 (by decide), (h.2.2.2.2.1 (by decide) (by decide)).2.1, rfl⟩

end Sysrow
